import Mathlib

/-!
# JUDICO front-end scripts: a verification development

A shallow embedding of the page scripts of the repository
(`client_dashboard.js`, `prevent-autofill.js`, `task-form-fix.js`,
`modal-select-fix.js`, `form-debug.js`, `transaction-modal-init.js`,
`contract_dashboard.js`) together with the
platform operations they call (string methods, `decodeURIComponent`,
attribute mutation, listener registration, mutation observers).

Part I holds the definitions, Part II the lemmas and theorems.
-/

namespace Judico

/-! ## Part I. Definitions -/

/-! ### JavaScript strings: sequences of UTF-16 code units -/

/-- One UTF-16 code unit. -/
abbrev CodeUnit := Fin 65536

/-- A JavaScript string value: a finite sequence of UTF-16 code units. -/
abbrev JSString := List CodeUnit

/-- The code unit with the given number (reduced modulo 2^16). -/
def codeUnit (n : Nat) : CodeUnit := ⟨n % 65536, Nat.mod_lt _ (by decide)⟩

/-- Errors a script can raise. -/
inductive JSError where
  | URIError
  | TypeError
  | SyntaxError
  | ReferenceError
  deriving DecidableEq

/-- The property `name` of an error object. -/
def JSError.name : JSError → String
  | .URIError => "URIError"
  | .TypeError => "TypeError"
  | .SyntaxError => "SyntaxError"
  | .ReferenceError => "ReferenceError"

deriving instance DecidableEq for Except

/-- UTF16EncodeCodePoint of ECMAScript: the code units of one code point. -/
def utf16EncodeCodePoint (cp : Nat) : JSString :=
  if cp ≤ 65535 then [codeUnit cp]
  else [codeUnit ((cp - 65536) / 1024 + 55296), codeUnit ((cp - 65536) % 1024 + 56320)]

/-- A string literal of the source as a JavaScript string. -/
def js (s : String) : JSString := s.toList.flatMap (fun ch => utf16EncodeCodePoint ch.toNat)

/-- WhiteSpace and LineTerminator code units, the ones `String.prototype.trim` strips. -/
def isWhiteSpace (c : CodeUnit) : Bool :=
  c.val = 9 || c.val = 10 || c.val = 11 || c.val = 12 || c.val = 13 || c.val = 32 ||
  c.val = 160 || c.val = 5760 || (8192 ≤ c.val && c.val ≤ 8202) || c.val = 8232 ||
  c.val = 8233 || c.val = 8239 || c.val = 8287 || c.val = 12288 || c.val = 65279

/-- The method `String.prototype.trim`. -/
def trim (s : JSString) : JSString :=
  ((s.dropWhile isWhiteSpace).reverse.dropWhile isWhiteSpace).reverse

/-- The method `String.prototype.split` with a one-code-unit separator. -/
def splitOn (sep : CodeUnit) : JSString → List JSString
  | [] => [[]]
  | c :: rest =>
    if c = sep then [] :: splitOn sep rest
    else
      match splitOn sep rest with
      | [] => [[c]]
      | piece :: pieces => (c :: piece) :: pieces

/-- The call `s.substring(0, n)`. -/
def substringTo (s : JSString) (n : Nat) : JSString := s.take n

/-- The call `s.substring(n)`. -/
def substringFrom (s : JSString) (n : Nat) : JSString := s.drop n

/-! ### Percent-encoding: `encodeURIComponent` and `decodeURIComponent` -/

/-- The set uriUnescaped: ASCII letters, digits and `-_.!~*'()`. -/
def isUriUnescaped (c : CodeUnit) : Bool :=
  (65 ≤ c.val && c.val ≤ 90) || (97 ≤ c.val && c.val ≤ 122) || (48 ≤ c.val && c.val ≤ 57) ||
  c.val = 45 || c.val = 95 || c.val = 46 || c.val = 33 || c.val = 126 || c.val = 42 ||
  c.val = 39 || c.val = 40 || c.val = 41

/-- The upper-case hexadecimal digit for a value below 16. -/
def hexDigit (d : Nat) : CodeUnit := if d < 10 then codeUnit (48 + d) else codeUnit (55 + d)

/-- The value of a hexadecimal digit, either case. -/
def hexValue (c : CodeUnit) : Option Nat :=
  if 48 ≤ c.val ∧ c.val ≤ 57 then some (c.val - 48)
  else if 65 ≤ c.val ∧ c.val ≤ 70 then some (c.val - 55)
  else if 97 ≤ c.val ∧ c.val ≤ 102 then some (c.val - 87)
  else none

/-- ParseHexOctet: the octet written by two hexadecimal digits. -/
def parseHexOctet (hi lo : CodeUnit) : Option Nat :=
  match hexValue hi, hexValue lo with
  | some a, some b => some (16 * a + b)
  | _, _ => none

/-- The escape `%XX` of one octet. -/
def percentOctet (b : Nat) : JSString := [codeUnit 37, hexDigit (b / 16), hexDigit (b % 16)]

/-- The UTF-8 octets of a code point. -/
def utf8Encode (cp : Nat) : List Nat :=
  if cp < 128 then [cp]
  else if cp < 2048 then [192 + cp / 64, 128 + cp % 64]
  else if cp < 65536 then [224 + cp / 4096, 128 + cp / 64 % 64, 128 + cp % 64]
  else [240 + cp / 262144, 128 + cp / 4096 % 64, 128 + cp / 64 % 64, 128 + cp % 64]

/-- The escapes of all octets of a code point. -/
def percentEncode (cp : Nat) : JSString := (utf8Encode cp).flatMap percentOctet

/-- A leading (high) surrogate. -/
def isLeadingSurrogate (c : CodeUnit) : Bool := 55296 ≤ c.val && c.val ≤ 56319

/-- A trailing (low) surrogate. -/
def isTrailingSurrogate (c : CodeUnit) : Bool := 56320 ≤ c.val && c.val ≤ 57343

/-- UTF16SurrogatePairToCodePoint. -/
def surrogatePairToCodePoint (lead trail : CodeUnit) : Nat :=
  (lead.val - 55296) * 1024 + (trail.val - 56320) + 65536

/-- The loop `while k < len` shared by Encode and Decode of ECMAScript, over the
input still to read, bounded by a number of iterations: each iteration appends
the code units `S` of `step` to the result. Every iteration of either function
consumes at least one code unit, so `len` iterations always suffice
(`stepLoop_fuel`) and the bound is never reached. -/
def stepLoop (step : JSString → Except JSError (JSString × JSString)) :
    Nat → JSString → Except JSError JSString
  | _, [] => .ok []
  | 0, _ :: _ => .error .URIError
  | fuel + 1, c :: rest =>
    match step (c :: rest) with
    | .error e => .error e
    | .ok (S, remaining) =>
      match stepLoop step fuel remaining with
      | .ok r => .ok (S ++ r)
      | .error e => .error e

/-- One iteration of Encode with the uriUnescaped set: an unescaped code unit is
copied; every other code point (CodePointAt: one code unit, or a surrogate pair)
is written as the escapes of its UTF-8 octets; an unpaired surrogate raises
URIError. -/
def encodeStep : JSString → Except JSError (JSString × JSString)
  | [] => .ok ([], [])
  | c :: rest =>
    if isUriUnescaped c then .ok ([c], rest)
    else if !isLeadingSurrogate c && !isTrailingSurrogate c then .ok (percentEncode c.val, rest)
    else if isTrailingSurrogate c then .error .URIError
    else
      match rest with
      | [] => .error .URIError
      | d :: rest2 =>
        if isTrailingSurrogate d then .ok (percentEncode (surrogatePairToCodePoint c d), rest2)
        else .error .URIError

/-- The function `encodeURIComponent`. -/
def encodeURIComponent (s : JSString) : Except JSError JSString :=
  stepLoop encodeStep s.length s

/-- A UTF-8 continuation octet, `10xxxxxx`. -/
def isContinuation (b : Nat) : Bool := 128 ≤ b && b < 192

/-- The code point of a two-octet UTF-8 sequence, when it is a valid one. -/
def utf8Decode2 (b0 b1 : Nat) : Option Nat :=
  let cp := (b0 - 192) * 64 + (b1 - 128)
  if isContinuation b1 && 128 ≤ cp then some cp else none

/-- The code point of a three-octet UTF-8 sequence, when it is a valid one
(not over-long, not a surrogate). -/
def utf8Decode3 (b0 b1 b2 : Nat) : Option Nat :=
  let cp := (b0 - 224) * 4096 + (b1 - 128) * 64 + (b2 - 128)
  if isContinuation b1 && isContinuation b2 && 2048 ≤ cp && !(55296 ≤ cp && cp ≤ 57343)
  then some cp else none

/-- The code point of a four-octet UTF-8 sequence, when it is a valid one
(not over-long, at most U+10FFFF). -/
def utf8Decode4 (b0 b1 b2 b3 : Nat) : Option Nat :=
  let cp := (b0 - 240) * 262144 + (b1 - 128) * 4096 + (b2 - 128) * 64 + (b3 - 128)
  if isContinuation b1 && isContinuation b2 && isContinuation b3 && 65536 ≤ cp && cp ≤ 1114111
  then some cp else none

/-- One iteration of the loop of Decode (`decodeURIComponent`, empty preserved
set) on a non-empty rest of the input: the code units `S` appended to the result
and the input left after it. A code unit other than `%` is copied; `%XX` with the
top bit clear gives that code unit; otherwise the leading octet announces 2, 3 or
4 octets, each written `%XX`, which must form valid UTF-8 and give the code units
of the code point. Anything else raises URIError. -/
def decodeStep : JSString → Except JSError (JSString × JSString)
  | [] => .ok ([], [])
  | c :: rest =>
    if c.val ≠ 37 then .ok ([c], rest)
    else
      match rest with
      | h0 :: l0 :: rest1 =>
        match parseHexOctet h0 l0 with
        | none => .error .URIError
        | some b0 =>
          if b0 < 128 then .ok ([codeUnit b0], rest1)
          else if b0 < 192 then .error .URIError
          else if b0 < 224 then
            match rest1 with
            | p1 :: h1 :: l1 :: rest2 =>
              if p1.val ≠ 37 then .error .URIError
              else
                match parseHexOctet h1 l1 with
                | none => .error .URIError
                | some b1 =>
                  match utf8Decode2 b0 b1 with
                  | none => .error .URIError
                  | some cp => .ok (utf16EncodeCodePoint cp, rest2)
            | _ => .error .URIError
          else if b0 < 240 then
            match rest1 with
            | p1 :: h1 :: l1 :: p2 :: h2 :: l2 :: rest3 =>
              if p1.val ≠ 37 ∨ p2.val ≠ 37 then .error .URIError
              else
                match parseHexOctet h1 l1, parseHexOctet h2 l2 with
                | some b1, some b2 =>
                  match utf8Decode3 b0 b1 b2 with
                  | none => .error .URIError
                  | some cp => .ok (utf16EncodeCodePoint cp, rest3)
                | _, _ => .error .URIError
            | _ => .error .URIError
          else if b0 < 248 then
            match rest1 with
            | p1 :: h1 :: l1 :: p2 :: h2 :: l2 :: p3 :: h3 :: l3 :: rest4 =>
              if p1.val ≠ 37 ∨ p2.val ≠ 37 ∨ p3.val ≠ 37 then .error .URIError
              else
                match parseHexOctet h1 l1, parseHexOctet h2 l2, parseHexOctet h3 l3 with
                | some b1, some b2, some b3 =>
                  match utf8Decode4 b0 b1 b2 b3 with
                  | none => .error .URIError
                  | some cp => .ok (utf16EncodeCodePoint cp, rest4)
                | _, _, _ => .error .URIError
            | _ => .error .URIError
          else .error .URIError
      | _ => .error .URIError

/-- The function `decodeURIComponent`. -/
def decodeURIComponent (s : JSString) : Except JSError JSString :=
  stepLoop decodeStep s.length s

/-! ### `client_dashboard.js`: `getCookie` -/

/-- The loop of `getCookie` over the entries `cookies[i]`: the first entry whose
trimmed text starts with `name + "="` gives the decoded rest and ends the loop
(`break`); with no such entry `cookieValue` stays `null`. -/
def getCookieLoop (name : JSString) : List JSString → Except JSError (Option JSString)
  | [] => .ok none
  | entry :: rest =>
    let cookie := trim entry
    if substringTo cookie (name.length + 1) = name ++ js "=" then
      match decodeURIComponent (substringFrom cookie (name.length + 1)) with
      | .ok v => .ok (some v)
      | .error e => .error e
    else getCookieLoop name rest

/-- The function `getCookie(name)` of `client_dashboard.js`, reading the cookie
string `document.cookie`. The result `none` is JavaScript `null`. -/
def getCookie (documentCookie name : JSString) : Except JSError (Option JSString) :=
  if documentCookie ≠ [] then getCookieLoop name (splitOn (codeUnit 59) documentCookie)
  else .ok none

/-! ### The document: elements, attributes, listeners, mutation observers -/

/-- The level of a console message. -/
inductive ConsoleLevel where
  | log
  | warn
  | error
  deriving DecidableEq

/-- One message written to the console. -/
structure ConsoleEntry where
  level : ConsoleLevel
  message : String
  deriving DecidableEq

/-- The functions the scripts register as event listeners. Every registration in
the scripts passes a newly created function object, so `addEventListener` never
finds an equal listener already registered. -/
inductive Handler where
  /-- The click listener of `protectSelectElements` (prevent-autofill.js 22-29). -/
  | guardClick
  /-- The focus listener of `protectSelectElements` (prevent-autofill.js 31-38). -/
  | guardFocus
  /-- The click listener of `initializeTaskFormSelects` (task-form-fix.js 23-32). -/
  | taskClick
  /-- The focus listener of `initializeTaskFormSelects` (task-form-fix.js 35-41). -/
  | taskFocus
  /-- The click listener of `fixModalSelects` (modal-select-fix.js 29-38). -/
  | modalClick
  /-- The focus listener of `fixModalSelects` (modal-select-fix.js 40-46). -/
  | modalFocus
  /-- The click listener of `monitorSelectElements` for the select with the given
  index (form-debug.js 28-33). -/
  | debugClick (index : Nat)
  /-- The focus listener of `monitorSelectElements` for the select with the given
  index (form-debug.js 36-38). -/
  | debugFocus (index : Nat)
  deriving DecidableEq

/-- A registered event listener. -/
structure Listener where
  eventType : String
  handler : Handler
  capture : Bool
  deriving DecidableEq

/-- A mutation record queued for an observer. `stack` is the text
`new Error().stack` yields while the observer callback handles this record
(`none` when the property is undefined); it is an input of the environment. -/
structure MutationRecord where
  attributeName : String
  stack : Option String
  deriving DecidableEq

/-- A `MutationObserver` created by `protectSelectElements`, observing the
attributes of the element it is stored in: its queue of undelivered records. -/
structure Observer where
  queue : List MutationRecord
  deriving DecidableEq

/-- An element of the document. -/
structure Element where
  localName : String
  attrs : List (String × String)
  listeners : List Listener
  observers : List Observer
  deriving DecidableEq

/-- The method `hasAttribute`. -/
def Element.hasAttribute (e : Element) (name : String) : Bool :=
  e.attrs.any (fun a => a.1 = name)

/-- The method `getAttribute`; `none` is `null`. -/
def Element.getAttribute (e : Element) (name : String) : Option String :=
  (e.attrs.find? (fun a => a.1 = name)).map (fun a => a.2)

/-- An attribute list with `name` set to `value`: changed in place, or appended. -/
def setAttr (name value : String) : List (String × String) → List (String × String)
  | [] => [(name, value)]
  | a :: rest => if a.1 = name then (name, value) :: rest else a :: setAttr name value rest

/-- A mutation record is appended to the queue of every observer of the element. -/
def Element.queueRecord (e : Element) (r : MutationRecord) : Element :=
  { e with observers := e.observers.map (fun o => { queue := o.queue ++ [r] }) }

/-- The method `setAttribute`: the attribute is set and a record is queued, also
when the value does not change. `stack` is the record's stack text. -/
def Element.setAttribute (e : Element) (name value : String) (stack : Option String) :
    Element :=
  Element.queueRecord { e with attrs := setAttr name value e.attrs } ⟨name, stack⟩

/-- The method `removeAttribute`: nothing happens when the attribute is absent;
otherwise it is removed and a record is queued. -/
def Element.removeAttribute (e : Element) (name : String) (stack : Option String) :
    Element :=
  if e.hasAttribute name then
    Element.queueRecord { e with attrs := e.attrs.filter (fun a => a.1 ≠ name) } ⟨name, stack⟩
  else e

/-- The getter of the property `disabled`, which reflects the attribute. -/
def Element.disabled (e : Element) : Bool := e.hasAttribute "disabled"

/-- The setter of the property `disabled`, which reflects the attribute. -/
def Element.setDisabled (e : Element) (value : Bool) (stack : Option String) : Element :=
  if value then e.setAttribute "disabled" "" stack else e.removeAttribute "disabled" stack

/-- The HTML elements whose interface has the property `disabled` of the two
definitions above, the one that reflects the attribute: the form controls and
`link`. On every other element `disabled` is no property of the interface, or
(on `style`) one that reflects no attribute. -/
def Element.reflectsDisabled (e : Element) : Bool :=
  ["button", "fieldset", "input", "link", "optgroup", "option", "select", "textarea"].contains
    e.localName

/-- The assignment `x.disabled = value` on an element of any kind. Where the
interface has the reflecting property its setter runs; on any other element the
assignment stores the value in an ordinary property of the object and the
attributes stay as they are. -/
def Element.assignDisabled (e : Element) (value : Bool) (stack : Option String) : Element :=
  if e.reflectsDisabled then e.setDisabled value stack else e

/-- Reading `x.disabled` right after the assignment `x.disabled = false`: the
state of the attribute where the property reflects it, and `false`, the value just
stored, elsewhere. -/
def Element.disabledAfterClear (e : Element) : Bool :=
  if e.reflectsDisabled then e.disabled else false

/-- The property `id`, which reflects the attribute (the empty string when absent). -/
def Element.id (e : Element) : String := (e.getAttribute "id").getD ""

/-- The method `addEventListener` with a new function object. -/
def Element.addEventListener (e : Element) (eventType : String) (handler : Handler)
    (capture : Bool) : Element :=
  { e with listeners := e.listeners ++ [⟨eventType, handler, capture⟩] }

/-- The call `new MutationObserver(callback).observe(e, {attributes: true})`. -/
def Element.observe (e : Element) : Element :=
  { e with observers := e.observers ++ [⟨[]⟩] }

/-- The method `String.prototype.includes` on lists of characters. -/
def includesChars (pattern : List Char) : List Char → Bool
  | [] => pattern.isEmpty
  | c :: rest => pattern.isPrefixOf (c :: rest) || includesChars pattern rest

/-- The method `String.prototype.includes`. -/
def includes (text pattern : String) : Bool := includesChars pattern.toList text.toList

/-- An ordered forest of elements in first-child / next-sibling form: `node el
children next` is the element `el`, the forest of its children, and the forest of
the siblings after it. A document is the forest of its root elements. -/
inductive Dom where
  | nil
  | node (el : Element) (children : Dom) (next : Dom)
  deriving DecidableEq

/-- The position of an element: child indices from the root down; a position is
never empty. -/
abbrev Path := List Nat

/-- The element at a position with the forest of its children. -/
def Dom.nodeAt : Dom → Path → Option (Element × Dom)
  | .nil, _ => none
  | .node _ _ _, [] => none
  | .node el ch _, [0] => some (el, ch)
  | .node _ ch _, 0 :: j :: p => ch.nodeAt (j :: p)
  | .node _ _ nx, (i + 1) :: p => nx.nodeAt (i :: p)

/-- The element at a position. -/
def Dom.elemAt (d : Dom) (path : Path) : Option Element := (d.nodeAt path).map (fun n => n.1)

/-- The elements in document order. -/
def Dom.elements : Dom → List Element
  | .nil => []
  | .node el ch nx => el :: (ch.elements ++ nx.elements)

/-- The number of elements that match a selector. -/
def Dom.count (sel : Element → Bool) : Dom → Nat
  | .nil => 0
  | .node el ch nx => (if sel el then 1 else 0) + ch.count sel + nx.count sel

/-- Every element replaced by its image, in document order: a `forEach` over a
`querySelectorAll` result whose body touches only the element it is given. -/
def Dom.mapElements (f : Element → Element) : Dom → Dom
  | .nil => .nil
  | .node el ch nx => .node (f el) (ch.mapElements f) (nx.mapElements f)

/-- The element at a position replaced by its image. -/
def Dom.modifyAt (f : Element → Element) : Dom → Path → Dom
  | .nil, _ => .nil
  | .node el ch nx, [] => .node el ch nx
  | .node el ch nx, [0] => .node (f el) ch nx
  | .node el ch nx, 0 :: j :: p => .node el (ch.modifyAt f (j :: p)) nx
  | .node el ch nx, (i + 1) :: p => .node el ch (nx.modifyAt f (i :: p))

/-- The method `remove` of the element at a position: the element leaves the
child list of its parent, together with its descendants. -/
def Dom.removeAt : Dom → Path → Dom
  | .nil, _ => .nil
  | .node el ch nx, [] => .node el ch nx
  | .node _ _ nx, [0] => nx
  | .node el ch nx, 0 :: j :: p => .node el (ch.removeAt (j :: p)) nx
  | .node el ch nx, (i + 1) :: p => .node el ch (nx.removeAt (i :: p))

/-- The position of the first element, in document order, that matches. -/
def Dom.findFirst (sel : Element → Bool) : Dom → Option Path
  | .nil => none
  | .node el ch nx =>
    if sel el then some [0]
    else
      match ch.findFirst sel with
      | some p => some (0 :: p)
      | none =>
        match nx.findFirst sel with
        | some (i :: p) => some ((i + 1) :: p)
        | _ => none

/-- The method `document.getElementById`. -/
def Dom.getElementById (d : Dom) (id : String) : Option Path :=
  d.findFirst (fun e => e.getAttribute "id" = some id)

/-- The walk of `closest` from the element at `path` up through its ancestors
(the parent of the element at `path` is at `path.dropLast`): the first one that
matches; `levels` is the number of elements on the way up, so the walk ends at the
document itself. -/
def Dom.closestUp (d : Dom) (sel : Element → Bool) : Nat → Path → Option Path
  | 0, _ => none
  | levels + 1, path =>
    match d.elemAt path with
    | some e => if sel e then some path else d.closestUp sel levels path.dropLast
    | none => none

/-- The method `closest` of the element at `path`: the nearest inclusive ancestor
that matches; `none` is `null`. -/
def Dom.closest (d : Dom) (path : Path) (sel : Element → Bool) : Option Path :=
  d.closestUp sel path.length path

/-- A request made with `fetch`; a header value `none` is `null`. -/
structure Request where
  method : String
  url : String
  headers : List (String × Option JSString)
  deriving DecidableEq

/-- A widget built with `new Modal(...)` or `new Chart(...)`, with the position of
the element it is bound to. -/
inductive Widget where
  | modal (target : Path)
  | chart (target : Path) (kind : String) (labels : List String) (data : List Int)
  deriving DecidableEq

/-- The state of a page as the scripts see and change it. -/
structure Page where
  /-- The document. -/
  dom : Dom
  /-- The cookie string `document.cookie`. -/
  cookie : JSString
  /-- The console output so far. -/
  console : List ConsoleEntry
  /-- The requests issued with `fetch` so far. -/
  requests : List Request
  /-- The widgets constructed so far. -/
  widgets : List Widget
  /-- The names of the properties the scripts have defined on `window`. -/
  windowProps : List String
  deriving DecidableEq

/-- The page with one more console message. -/
def Page.print (page : Page) (level : ConsoleLevel) (message : String) : Page :=
  { page with console := page.console ++ [⟨level, message⟩] }

/-! ### `prevent-autofill.js` -/

/-- The test `isInternalCall` of the observer callback on the captured stack text
`new Error().stack || ''`. -/
def isInternalCall (stack : Option String) : Bool :=
  includes (stack.getD "") "htmx:beforeRequest" ||
  includes (stack.getD "") "htmx:afterRequest" ||
  includes (stack.getD "") "disableFormElements" ||
  includes (stack.getD "") "enableFormElements"

/-- The message of the observer callback when it reverts a mutation. -/
def blockedMessage : ConsoleEntry :=
  ⟨.warn, "Blocked attempt to disable select element by external code"⟩

/-- The body of `mutations.forEach` in the observer callback, for one record
(prevent-autofill.js 42-57). `revertStack` is the stack text of the record that the
callback's own `removeAttribute` queues. -/
def guardRecord (select : Element) (mutation : MutationRecord) (revertStack : Option String) :
    Element × List ConsoleEntry :=
  if mutation.attributeName = "disabled" then
    if !isInternalCall mutation.stack then
      (select.removeAttribute "disabled" revertStack, [blockedMessage])
    else (select, [])
  else (select, [])

/-- The observer callback on the records delivered to it, in order. -/
def guardCallback : Element → List MutationRecord → Option String → Element × List ConsoleEntry
  | select, [], _ => (select, [])
  | select, mutation :: rest, revertStack =>
    let r := guardRecord select mutation revertStack
    let r2 := guardCallback r.1 rest revertStack
    (r2.1, r.2 ++ r2.2)

/-- One observer is notified: its queue is taken and emptied and, when records were
queued, its callback runs on them. -/
def Element.notifyObserver (e : Element) (i : Nat) (revertStack : Option String) :
    Element × List ConsoleEntry :=
  match e.observers.get? i with
  | none => (e, [])
  | some o =>
    if o.queue = [] then (e, [])
    else guardCallback { e with observers := e.observers.set i ⟨[]⟩ } o.queue revertStack

/-- The observers with the given indices are notified in turn. -/
def Element.notifyEach : Element → List Nat → Option String → Element × List ConsoleEntry
  | e, [], _ => (e, [])
  | e, i :: rest, revertStack =>
    let r := e.notifyObserver i revertStack
    let r2 := Element.notifyEach r.1 rest revertStack
    (r2.1, r.2 ++ r2.2)

/-- The step "notify mutation observers" at a microtask checkpoint: every observer
of the element is notified once. Records queued by the callbacks themselves stay
queued for the next checkpoint. -/
def Element.notify (e : Element) (revertStack : Option String) : Element × List ConsoleEntry :=
  e.notifyEach (List.range e.observers.length) revertStack

/-- The records still queued for the observers of an element. -/
def Element.pending (e : Element) : List MutationRecord :=
  e.observers.flatMap (fun o => o.queue)

/-- The console messages of the two guard listeners. -/
def preventedMessage (eventType : String) : ConsoleEntry :=
  ⟨.log, "Prevented select element from being disabled on " ++ eventType⟩

/-- Whether the body of a listener calls `e.stopPropagation()`: the two listeners
of `protectSelectElements` (prevent-autofill.js 28, 37) and the click listeners of
`initializeTaskFormSelects` (task-form-fix.js 25) and of `fixModalSelects`
(modal-select-fix.js 31) do, unconditionally. -/
def Handler.stopsPropagation : Handler → Bool
  | .guardClick => true
  | .guardFocus => true
  | .taskClick => true
  | .taskFocus => false
  | .modalClick => true
  | .modalFocus => false
  | .debugClick _ => false
  | .debugFocus _ => false

/-- The body of a registered listener, run with `this` the element. `stack` is the
stack text of the mutation records the body queues. What the call
`e.stopPropagation()` does to the event is in `Handler.stopsPropagation`. -/
def runHandler (h : Handler) (e : Element) (stack : Option String) :
    Element × List ConsoleEntry :=
  match h with
  | .guardClick =>
    if e.hasAttribute "disabled" then (e.removeAttribute "disabled" stack, [preventedMessage "click"])
    else (e, [])
  | .guardFocus =>
    if e.hasAttribute "disabled" then (e.removeAttribute "disabled" stack, [preventedMessage "focus"])
    else (e, [])
  | .taskClick =>
    let e1 := e.assignDisabled false stack
    (e1, [⟨.log, e1.id ++ " clicked, disabled=" ++ toString e1.disabledAfterClear⟩])
  | .taskFocus =>
    let e1 := e.assignDisabled false stack
    (e1, [⟨.log, e1.id ++ " focused, disabled=" ++ toString e1.disabledAfterClear⟩])
  | .modalClick =>
    let e1 := (e.removeAttribute "disabled" stack).setAttribute "data-disabled" "false" stack
    (e1, [⟨.log, "Modal select " ++ e1.id ++ " clicked, disabled=" ++ toString e1.disabled⟩])
  | .modalFocus =>
    let e1 := (e.removeAttribute "disabled" stack).setAttribute "data-disabled" "false" stack
    (e1, [⟨.log, "Modal select " ++ e1.id ++ " focused, disabled=" ++ toString e1.disabled⟩])
  | .debugClick index =>
    (e, ⟨.log, "Select #" ++ toString index ++ " (" ++ e.id ++ ") clicked, disabled=" ++
          toString e.disabled⟩ ::
        (if e.disabled then
          [⟨.log, "This select element is disabled, preventing interaction"⟩]
        else []))
  | .debugFocus index =>
    (e, [⟨.log, "Select #" ++ toString index ++ " (" ++ e.id ++ ") focused, disabled=" ++
          toString e.disabled⟩])

/-- Listeners run one after the other on the element. -/
def runListeners : List Listener → Element → Option String → Element × List ConsoleEntry
  | [], e, _ => (e, [])
  | l :: rest, e, stack =>
    let r := runHandler l.handler e stack
    let r2 := runListeners rest r.1 stack
    (r2.1, r.2 ++ r2.2)

/-- An event of the given type reaches the element as its target. The capturing
listeners of that type are invoked first, in registration order. When one of them
has called `e.stopPropagation()` the event goes no further and the other listeners
of the target are not invoked; otherwise those are invoked next, in registration
order. -/
def Element.dispatch (e : Element) (eventType : String) (stack : Option String) :
    Element × List ConsoleEntry :=
  let r := runListeners (e.listeners.filter (fun l => l.eventType = eventType && l.capture)) e
    stack
  if (e.listeners.filter (fun l => l.eventType = eventType && l.capture)).any
      (fun l => l.handler.stopsPropagation) then r
  else
    let r2 := runListeners (e.listeners.filter (fun l => l.eventType = eventType && !l.capture))
      r.1 stack
    (r2.1, r.2 ++ r2.2)

/-- The body of `selects.forEach` in `protectSelectElements` (prevent-autofill.js
11-65). -/
def protectSelect (select : Element) (stack : Option String) : Element :=
  if select.hasAttribute "data-protected" then select
  else
    let s1 := select.setAttribute "data-disabled" (if select.disabled then "true" else "false") stack
    let s2 := s1.removeAttribute "disabled" stack
    let s3 := s2.addEventListener "click" .guardClick true
    let s4 := s3.addEventListener "focus" .guardFocus true
    let s5 := s4.observe
    s5.setAttribute "data-protected" "true" stack

/-- The function `protectSelectElements` over `document.querySelectorAll('select')`. -/
def protectSelectElements (page : Page) (stack : Option String) : Page :=
  { page with
    dom := Dom.mapElements (fun e => if e.localName = "select" then protectSelect e stack else e)
      page.dom }

/-- What can happen to the `disabled` attribute of a protected select. -/
inductive GuardEvent where
  /-- Some code sets the attribute; `stack` is the stack text of its record, the
  text the observer callback captures when it handles the record. -/
  | setDisabled (value : String) (stack : Option String)
  /-- Some code removes the attribute; `stack` is the stack text of its record. -/
  | removeDisabled (stack : Option String)
  /-- The pending notifications are delivered; `revertStack` is the stack text of
  the records queued by the reverts of this delivery. -/
  | deliver (revertStack : Option String)
  deriving DecidableEq

/-- One event applied to the select; the console output is returned with it. -/
def guardStep (s : Element × List ConsoleEntry) : GuardEvent → Element × List ConsoleEntry
  | .setDisabled value stack => (s.1.setAttribute "disabled" value stack, s.2)
  | .removeDisabled stack => (s.1.removeAttribute "disabled" stack, s.2)
  | .deliver revertStack => ((s.1.notify revertStack).1, s.2 ++ (s.1.notify revertStack).2)

/-- A sequence of events applied to the select, first to last. -/
def guardRun (s : Element × List ConsoleEntry) (events : List GuardEvent) :
    Element × List ConsoleEntry :=
  events.foldl guardStep s

/-- The last event of the sequence that is a mutation, not a delivery. -/
def lastMutation : List GuardEvent → Option GuardEvent
  | [] => none
  | ev :: rest =>
    match lastMutation rest with
    | some later => some later
    | none =>
      match ev with
      | .deliver _ => none
      | _ => some ev

/-! ### `task-form-fix.js` -/

/-- The ids looked up by `initializeTaskFormSelects`, in the order of `selects`. -/
def taskFormIds : List String := ["id_client", "id_assigned_to", "id_status", "id_priority"]

/-- The body of `selects.forEach` for an element that exists (task-form-fix.js
19-41). The element is whatever `getElementById` found under the id, a select or
not. -/
def initTaskSelect (select : Element) (stack : Option String) : Element :=
  ((select.assignDisabled false stack).addEventListener "click" .taskClick
    false).addEventListener "focus" .taskFocus false

/-- The loop `selects.forEach`: an element that was not found is skipped. -/
def initTaskSelects (stack : Option String) : Dom → List (Option Path) → Dom
  | d, [] => d
  | d, none :: rest => initTaskSelects stack d rest
  | d, some p :: rest => initTaskSelects stack (d.modifyAt (fun e => initTaskSelect e stack) p) rest

/-- The function `initializeTaskFormSelects`: four lookups by id, the loop over
them, and the closing console message. -/
def initializeTaskFormSelects (page : Page) (stack : Option String) : Page :=
  Page.print
    { page with dom := initTaskSelects stack page.dom (taskFormIds.map page.dom.getElementById) }
    .log "Task form select elements initialized"

/-- A statement that reads or writes a member of a reference: the element at the
position is replaced by its image. On `null` the statement raises TypeError. -/
def Dom.updateRef (d : Dom) (ref : Option Path) (f : Element → Element) : Except JSError Dom :=
  match ref with
  | none => .error .TypeError
  | some p => .ok (d.modifyAt f p)

/-- The body of `selects.forEach` statement by statement, for an entry of `selects`
that may be `null` (task-form-fix.js 16-42): the guard of line 17, then the
assignment of line 20 and the two registrations of lines 23 and 35. -/
def initTaskSelectEntry (stack : Option String) (d : Dom) (select : Option Path) :
    Except JSError Dom :=
  if select = none then .ok d
  else
    match d.updateRef select (fun e => e.assignDisabled false stack) with
    | .error err => .error err
    | .ok d1 =>
      match d1.updateRef select (fun e => e.addEventListener "click" .taskClick false) with
      | .error err => .error err
      | .ok d2 => d2.updateRef select (fun e => e.addEventListener "focus" .taskFocus false)

/-- The loop `selects.forEach` with its exceptions: an exception ends the loop. -/
def initTaskSelectEntries (stack : Option String) : Dom → List (Option Path) → Except JSError Dom
  | d, [] => .ok d
  | d, select :: rest =>
    match initTaskSelectEntry stack d select with
    | .error err => .error err
    | .ok d1 => initTaskSelectEntries stack d1 rest

/-- A call of `initializeTaskFormSelects` with its exceptions: the page it returns
with, or the exception that ends it. -/
def runInitializeTaskFormSelects (page : Page) (stack : Option String) : Except JSError Page :=
  match initTaskSelectEntries stack page.dom (taskFormIds.map page.dom.getElementById) with
  | .error err => .error err
  | .ok d => .ok (Page.print { page with dom := d } .log "Task form select elements initialized")

/-- An event of the given type with the element at `target` as its target, on a
page where only the target carries listeners for it. -/
def Page.dispatch (page : Page) (target : Path) (eventType : String) (stack : Option String) :
    Page :=
  match page.dom.elemAt target with
  | none => page
  | some e =>
    { page with
      dom := page.dom.modifyAt (fun _ => (e.dispatch eventType stack).1) target
      console := page.console ++ (e.dispatch eventType stack).2 }

/-! ### `transaction-modal-init.js` and `contract_dashboard.js` -/

/-- The DOMContentLoaded handler of `transaction-modal-init.js`. `modalLoaded`
says whether the page has defined the globals `Modal` and `modalOptions`: the
expression `new Modal(transactionFormModalElement, modalOptions)` reads both and
raises ReferenceError when one is not defined. The constructor is taken to
return. -/
def transactionModalInit (page : Page) (modalLoaded : Bool) : Except JSError Page :=
  match page.dom.getElementById "transaction-form-modal" with
  | some target =>
    if modalLoaded then
      .ok (Page.print
        { page with
          widgets := page.widgets ++ [.modal target]
          windowProps := page.windowProps ++ ["transactionFormModal", "fillThisForm"] }
        .log "Transaction form modal initialized successfully")
    else .error .ReferenceError
  | none => .ok (Page.print page .log "Transaction form modal element not found on this page")

/-- The globals the handler of `contract_dashboard.js` reads: the constructor
`Chart` and the four arrays the server page injects, each with its value when the
page has defined it. Reading a global that is not defined raises ReferenceError. -/
structure ChartGlobals where
  /-- Whether `Chart` is defined. -/
  chart : Bool
  contractTypeLabels : Option (List String)
  contractTypeData : Option (List Int)
  contractStatusLabels : Option (List String)
  contractStatusData : Option (List Int)
  deriving DecidableEq

/-- The first block of the handler of `contract_dashboard.js` (lines 3-39). -/
def contractTypeChartInit (page : Page) (g : ChartGlobals) : Except JSError Page :=
  match page.dom.getElementById "contractTypeChart" with
  | some target =>
    if g.chart then
      match g.contractTypeLabels, g.contractTypeData with
      | some labels, some data =>
        .ok { page with widgets := page.widgets ++ [.chart target "doughnut" labels data] }
      | _, _ => .error .ReferenceError
    else .error .ReferenceError
  | none => .ok page

/-- The second block of the handler of `contract_dashboard.js` (lines 42-97). -/
def contractStatusChartInit (page : Page) (g : ChartGlobals) : Except JSError Page :=
  match page.dom.getElementById "contractStatusChart" with
  | some target =>
    if g.chart then
      match g.contractStatusLabels, g.contractStatusData with
      | some labels, some data =>
        .ok { page with widgets := page.widgets ++ [.chart target "bar" labels data] }
      | _, _ => .error .ReferenceError
    else .error .ReferenceError
  | none => .ok page

/-- The DOMContentLoaded handler of `contract_dashboard.js`: the two blocks in
order; an exception in the first ends the handler. The constructor `Chart` is
taken to return; the constant colours and options of the two configurations are
not recorded. -/
def contractDashboardInit (page : Page) (g : ChartGlobals) : Except JSError Page :=
  match contractTypeChartInit page g with
  | .error err => .error err
  | .ok page1 => contractStatusChartInit page1 g

/-! ### `client_dashboard.js`: the delete-document handler -/

/-- A value as `response.json()` produces it. Numbers are integers here. -/
inductive JSValue where
  | undefined
  | null
  | bool (b : Bool)
  | number (n : Int)
  | string (s : String)
  | object (props : List (String × JSValue))

/-- ToBoolean: the truthiness tested by `if (data.success)`. -/
def JSValue.toBoolean : JSValue → Bool
  | .undefined => false
  | .null => false
  | .bool b => b
  | .number n => n ≠ 0
  | .string s => s ≠ ""
  | .object _ => true

/-- Property access `v.name`: a TypeError on `undefined` and `null`, `undefined`
for a property that is not there. -/
def JSValue.getProp (v : JSValue) (name : String) : Except JSError JSValue :=
  match v with
  | .undefined => .error .TypeError
  | .null => .error .TypeError
  | .object props =>
    match props.find? (fun kv => kv.1 = name) with
    | some kv => .ok kv.2
    | none => .ok .undefined
  | _ => .ok .undefined

/-- How the request of the handler ends. -/
inductive FetchOutcome where
  /-- The promise of `fetch` is rejected: the request failed, the reason is a
  TypeError. -/
  | networkError
  /-- The promise of `response.json()` is rejected: the body is not JSON, the reason
  is a SyntaxError. -/
  | invalidJson
  /-- The body parsed to `data`. -/
  | json (data : JSValue)

/-- The call `console.error('Error:', error)` of the `catch` callback
(client_dashboard.js 32): the label and the error, which is written by the name of
its class (the message text of the error is the engine's own). -/
def Page.logError (page : Page) (error : JSError) : Page :=
  Page.print page .error ("Error: " ++ error.name)

/-- The selector `tr`. -/
def isRow (e : Element) : Bool := e.localName = "tr"

/-- The click listener of a `.delete-document` button at position `button`, up to
the call of `fetch` (client_dashboard.js 11-23). `confirmed` is the answer to the
`confirm` prompt. An error is an exception that leaves the listener. -/
def deleteDocumentClick (page : Page) (button : Path) (confirmed : Bool) : Except JSError Page :=
  let documentId := (page.dom.elemAt button).bind (fun b => b.getAttribute "data-document-id")
  if confirmed then
    match getCookie page.cookie (js "csrftoken") with
    | .error e => .error e
    | .ok token =>
      .ok { page with
        requests := page.requests ++
          [{ method := "POST",
             url := "/client/documents/" ++ documentId.getD "null" ++ "/delete/",
             headers :=
               [("X-Requested-With", some (js "XMLHttpRequest")), ("X-CSRFToken", token)] }] }
  else .ok page

/-- The rest of the listener: the `then` and `catch` callbacks once the request
has ended (client_dashboard.js 24-33), on the page as it is then; `button` is the
position of the button in the document. -/
def deleteDocumentResponse (page : Page) (button : Path) : FetchOutcome → Page
  | .networkError => page.logError .TypeError
  | .invalidJson => page.logError .SyntaxError
  | .json data =>
    match data.getProp "success" with
    | .error e => page.logError e
    | .ok success =>
      if success.toBoolean then
        match page.dom.closest button isRow with
        | none => page.logError .TypeError
        | some row => { page with dom := page.dom.removeAt row }
      else page

/-- The two listeners `protectSelectElements` registers on a select, in order. -/
def guardListeners : List Listener :=
  [⟨"click", .guardClick, true⟩, ⟨"focus", .guardFocus, true⟩]

/-! ### Sample inputs -/

/-- A select as the server renders it: `<select id="id_client" disabled>`. -/
def disabledSelect : Element := ⟨"select", [("id", "id_client"), ("disabled", "")], [], []⟩

/-- A select that is not disabled: `<select id="id_status">`. -/
def plainSelect : Element := ⟨"select", [("id", "id_status")], [], []⟩

/-- A stack text as an engine prints it inside the observer callback. -/
def callbackStack : Option String :=
  some "Error\n    at MutationObserver.<anonymous> (prevent-autofill.js:45:39)"

/-- A stack text of the callback's own frames that holds an allow-listed name, here
in the location of the script. -/
def allowListedStack : Option String :=
  some ("Error\n    at MutationObserver.<anonymous> " ++
    "(/static/enableFormElements/prevent-autofill.js:45:39)")

/-- A record of a mutation of `disabled` whose stack text is not allow-listed: the
ones the observer callback reverts. -/
def isExternalDisable (r : MutationRecord) : Bool :=
  r.attributeName = "disabled" && !isInternalCall r.stack

/-- A task form with the selects `id_client` (rendered disabled) and `id_status`;
`id_assigned_to` and `id_priority` are absent. -/
def taskPage : Page :=
  { dom := .node ⟨"form", [("id", "newTaskForm")], [], []⟩
      (.node disabledSelect .nil (.node plainSelect .nil .nil)) .nil
    cookie := []
    console := []
    requests := []
    widgets := []
    windowProps := [] }

/-- A page with an empty document. -/
def emptyPage : Page :=
  { dom := .nil, cookie := [], console := [], requests := [], widgets := [], windowProps := [] }

/-- A delete button with document id 42. -/
def deleteButton : Element :=
  ⟨"button", [("class", "delete-document"), ("data-document-id", "42")], [], []⟩

/-- A table with two rows; the second row holds the delete button for document 42
in its only cell. The button is at position `[0, 1, 0, 0]`. -/
def tablePage : Page :=
  { dom := .node ⟨"table", [], [], []⟩
      (.node ⟨"tr", [("id", "row-7")], [], []⟩ (.node ⟨"td", [], [], []⟩ .nil .nil)
        (.node ⟨"tr", [("id", "row-42")], [], []⟩
          (.node ⟨"td", [], [], []⟩ (.node deleteButton .nil .nil) .nil) .nil)) .nil
    cookie := js "sessionid=abc; csrftoken=tok%2F1"
    console := []
    requests := []
    widgets := []
    windowProps := [] }

/-- A page whose delete button stands in a list item, with no table row around
it; a table with one row stands next to the list. The button is at `[0, 0, 0]`. -/
def listPage : Page :=
  { dom := .node ⟨"ul", [], [], []⟩
      (.node ⟨"li", [], [], []⟩ (.node deleteButton .nil .nil) .nil)
      (.node ⟨"table", [], [], []⟩ (.node ⟨"tr", [], [], []⟩ .nil .nil) .nil)
    cookie := js "csrftoken=%"
    console := []
    requests := []
    widgets := []
    windowProps := [] }

/-- A page whose delete button stands in a card, with no table row around it; a
table with one row stands next to the card. The button is at `[0, 0]`. The cookie
string holds a well-formed CSRF token. -/
def cardPage : Page :=
  { dom := .node ⟨"div", [("class", "card")], [], []⟩ (.node deleteButton .nil .nil)
      (.node ⟨"table", [], [], []⟩ (.node ⟨"tr", [("id", "row-7")], [], []⟩ .nil .nil) .nil)
    cookie := js "csrftoken=tok%2F1"
    console := []
    requests := []
    widgets := []
    windowProps := [] }

/-- The response body `{"success": true}`. -/
def successBody : JSValue := .object [("success", .bool true)]

/-- The response body `{"success": false}`. -/
def failureBody : JSValue := .object [("success", .bool false)]

/-- A dashboard page with the transaction modal and the status chart canvas; the
type chart canvas is absent. -/
def dashboardPage : Page :=
  { dom := .node ⟨"div", [("id", "transaction-form-modal")], [], []⟩ .nil
      (.node ⟨"canvas", [("id", "contractStatusChart")], [], []⟩ .nil .nil)
    cookie := []
    console := []
    requests := []
    widgets := []
    windowProps := [] }

/-- The chart library loaded and the arrays as a server page injects them. -/
def sampleGlobals : ChartGlobals :=
  { chart := true
    contractTypeLabels := some ["NDA", "Lease"]
    contractTypeData := some [3, 1]
    contractStatusLabels := some ["Draft", "Signed"]
    contractStatusData := some [2, 2] }

/-- A page that has loaded neither the chart library nor the arrays. -/
def noGlobals : ChartGlobals :=
  { chart := false
    contractTypeLabels := none
    contractTypeData := none
    contractStatusLabels := none
    contractStatusData := none }

/-- A page on which an element that is no form control carries a task-form id:
`<div id="id_client" disabled>`, at `[0]`. -/
def divPage : Page :=
  { dom := .node ⟨"div", [("id", "id_client"), ("disabled", "")], [], []⟩ .nil .nil
    cookie := []
    console := []
    requests := []
    widgets := []
    windowProps := [] }

/-- The page's own code sets `disabled` on a protected select and the notification
is delivered. The record carries the stack text the callback captures. -/
def internalEvents : List GuardEvent :=
  [.setDisabled "disabled" callbackStack, .deliver none]

/-- Other code sets `disabled` on the select. -/
def externalEvents : List GuardEvent := [.setDisabled "" callbackStack]

/-! ### `form-debug.js` -/

/-- A select element as the object `form-debug.js` works on: the element, and the
own property `disabled` of the object when one has been defined, given by the
index its accessor functions captured. With `none` the object has no own property
and `disabled` is the accessor of `HTMLSelectElement.prototype`. -/
structure SelectObject where
  element : Element
  ownDisabled : Option Nat
  deriving DecidableEq

/-- Reading `select.disabled`: the own getter calls the original getter, so both
give the value of the original accessor. -/
def SelectObject.getDisabled (s : SelectObject) : Bool := s.element.disabled

/-- The assignment `select.disabled = value`: the own setter writes two console
messages (the second one carries a stack text, which is not recorded) and then
calls the original setter. -/
def SelectObject.setDisabled (s : SelectObject) (value : Bool) (stack : Option String) :
    SelectObject × List ConsoleEntry :=
  match s.ownDisabled with
  | some index =>
    ({ s with element := s.element.setDisabled value stack },
      [⟨.log, "Select #" ++ toString index ++ " (" ++ s.element.id ++
          ") disabled property changing to: " ++ toString value⟩,
       ⟨.log, "Stack trace:"⟩])
  | none => ({ s with element := s.element.setDisabled value stack }, [])

/-- The call `Object.defineProperty(select, 'disabled', {get, set})` with two new
functions. The descriptor names no `configurable`, so the property it creates is
not configurable, and a call on an object that already has the own property is
rejected with a TypeError (the functions differ from the ones installed). -/
def defineDisabledAccessor (select : SelectObject) (index : Nat) : Except JSError SelectObject :=
  match select.ownDisabled with
  | some _ => .error .TypeError
  | none => .ok { select with ownDisabled := some index }

/-- The outcome of a run of `monitorSelectElements`: the select objects of the
document afterwards, the console output of the run, and the exception that ended
it, if any. -/
structure MonitorResult where
  selects : List SelectObject
  console : List ConsoleEntry
  error : Option JSError
  deriving DecidableEq

/-- The first console message of the body of `selects.forEach`. -/
def monitorLine (select : SelectObject) (index : Nat) : ConsoleEntry :=
  ⟨.log, "Select #" ++ toString index ++ ": id=" ++ select.element.id ++ ", name=" ++
    (select.element.getAttribute "name").getD "" ++ ", disabled=" ++
    toString select.getDisabled⟩

/-- The loop `selects.forEach((select, index) => ...)` of `monitorSelectElements`
from the given index on (form-debug.js 11-39). An exception ends the loop and
leaves the remaining selects as they are. -/
def monitorEach : Nat → List SelectObject → MonitorResult
  | _, [] => ⟨[], [], none⟩
  | index, select :: rest =>
    match defineDisabledAccessor select index with
    | .error e => ⟨select :: rest, [monitorLine select index], some e⟩
    | .ok s1 =>
      let s2 : SelectObject :=
        { s1 with
          element := (s1.element.addEventListener "click" (.debugClick index)
            false).addEventListener "focus" (.debugFocus index) false }
      let r := monitorEach (index + 1) rest
      ⟨s2 :: r.selects, monitorLine select index :: r.console, r.error⟩

/-- The function `monitorSelectElements` on `document.querySelectorAll('select')`,
the selects of the document in document order. -/
def monitorSelectElements (selects : List SelectObject) : MonitorResult :=
  let r := monitorEach 0 selects
  { r with
    console :=
      ⟨.log, "Found " ++ toString selects.length ++ " select elements on the page"⟩ ::
        r.console }

/-- The select objects of elements no script has touched. -/
def freshSelects (elements : List Element) : List SelectObject :=
  elements.map (fun e => ⟨e, none⟩)

/-! ### `modal-select-fix.js` -/

/-- The position of the next sibling's subtree seen from the parent's child list:
the first index moves up by one. -/
def shiftPath : Path → Path
  | [] => []
  | i :: r => (i + 1) :: r

/-- The method `querySelectorAll`: the positions of the elements that match, in
document order. -/
def Dom.querySelectorAll (sel : Element → Bool) : Dom → List Path
  | .nil => []
  | .node el ch nx =>
    (if sel el then [[0]] else []) ++ (ch.querySelectorAll sel).map (fun p => 0 :: p) ++
      (nx.querySelectorAll sel).map shiftPath

/-- Every element inside the element at a position (its descendants, not the
element itself) replaced by its image: a `forEach` over `element.querySelectorAll`
whose body touches only the element it is given. -/
def Dom.modifyBelow (f : Element → Element) : Dom → Path → Dom
  | .nil, _ => .nil
  | .node el ch nx, [] => .node el ch nx
  | .node el ch nx, [0] => .node el (ch.mapElements f) nx
  | .node el ch nx, 0 :: j :: p => .node el (ch.modifyBelow f (j :: p)) nx
  | .node el ch nx, (i + 1) :: p => .node el ch (nx.modifyBelow f (i :: p))

/-- The selector `[data-modal-backdrop]`. -/
def isModalBackdrop (e : Element) : Bool := e.hasAttribute "data-modal-backdrop"

/-- The test `modal.getAttribute('data-select-fixed') === 'true'`. -/
def isSelectFixed (e : Element) : Bool := e.getAttribute "data-select-fixed" = some "true"

/-- The body of `selects.forEach` in `fixModalSelects` (modal-select-fix.js 21-47). -/
def fixSelect (select : Element) (stack : Option String) : Element :=
  (((select.removeAttribute "disabled" stack).setAttribute "data-disabled" "false"
    stack).addEventListener "click" .modalClick false).addEventListener "focus" .modalFocus false

/-- The select `id_client` after `initializeTaskFormSelects`,
`protectSelectElements` and `fixModalSelects` have each processed it, in this
order: it carries the two listeners of each. -/
def guardedSelect : Element :=
  fixSelect (protectSelect (initTaskSelect disabledSelect none) none) none

/-- The body of `modals.forEach` in `fixModalSelects` for the modal at a position
(modal-select-fix.js 11-48): a modal already marked is skipped; otherwise it is
marked and every select inside it is fixed. -/
def fixModal (stack : Option String) (d : Dom) (modal : Path) : Dom :=
  match d.elemAt modal with
  | none => d
  | some m =>
    if isSelectFixed m then d
    else
      Dom.modifyBelow (fun e => if e.localName = "select" then fixSelect e stack else e)
        (Dom.modifyAt (fun e => e.setAttribute "data-select-fixed" "true" stack) d modal) modal

/-- The function `fixModalSelects` over
`document.querySelectorAll('[data-modal-backdrop]')`. -/
def fixModalSelects (page : Page) (stack : Option String) : Page :=
  { page with
    dom := (page.dom.querySelectorAll isModalBackdrop).foldl (fixModal stack) page.dom }

/-- The selector `[data-modal-target], [data-modal-toggle]`. -/
def isModalTrigger (e : Element) : Bool :=
  e.hasAttribute "data-modal-target" || e.hasAttribute "data-modal-toggle"

/-- The expression `getAttribute('data-modal-target') ||
getAttribute('data-modal-toggle')`: the first value unless it is `null` or empty. -/
def resolveModalId (trigger : Element) : Option String :=
  match trigger.getAttribute "data-modal-target" with
  | some value => if value ≠ "" then some value else trigger.getAttribute "data-modal-toggle"
  | none => trigger.getAttribute "data-modal-toggle"

/-- The positions of the elements an event passes on its way to its target: the
ancestors of the target, outermost first, then the target itself. -/
def eventPath (target : Path) : List Path := target.inits.tail

/-- The step "invoke" of event dispatch for the element at one position of the
path and one phase. Nothing happens once propagation has been stopped. Otherwise
the listeners of the element for the event type and the phase run in registration
order, and propagation is stopped from then on when one of them has called
`e.stopPropagation()`. The state is the document, the console output of the
listeners so far, and the stop-propagation flag. -/
def invokeAt (capture : Bool) (eventType : String) (stack : Option String)
    (s : Dom × List ConsoleEntry × Bool) (position : Path) : Dom × List ConsoleEntry × Bool :=
  if s.2.2 then s
  else
    match s.1.elemAt position with
    | none => s
    | some e =>
      (s.1.modifyAt (fun _ =>
          (runListeners
            (e.listeners.filter (fun l => l.eventType = eventType && l.capture == capture)) e
            stack).1) position,
        s.2.1 ++
          (runListeners
            (e.listeners.filter (fun l => l.eventType = eventType && l.capture == capture)) e
            stack).2,
        (e.listeners.filter (fun l => l.eventType = eventType && l.capture == capture)).any
          (fun l => l.handler.stopsPropagation))

/-- A click with the element at `target` as its target travels through the
document: the capturing listeners are invoked from the outermost ancestor down to
the target, then the other listeners from the target up to the outermost ancestor.
The result is the page afterwards and the stop-propagation flag: when it is set the
click does not reach the listeners on `document`, which the scripts register for
the bubbling phase only. -/
def Page.click (page : Page) (target : Path) (stack : Option String) : Page × Bool :=
  let down := (eventPath target).foldl (invokeAt true "click" stack) (page.dom, [], false)
  let up := (eventPath target).reverse.foldl (invokeAt false "click" stack) down
  ({ page with dom := up.1, console := page.console ++ up.2.1 }, up.2.2)

/-- A click whose target is the element at `target`, up to the click listener on
`document` (modal-select-fix.js 55-78): the page after the listeners on the way
have run, and the modal id of the timer the listener on `document` sets. The id is
`none` when no timer is set: the click was stopped before it reached `document`,
there is no trigger around the target, or the modal id is `null` or empty. The
listener on `document` itself changes nothing on the page. -/
def modalOpenClick (page : Page) (target : Path) (stack : Option String) :
    Page × Option String :=
  if (page.click target stack).2 then ((page.click target stack).1, none)
  else
    match (page.click target stack).1.dom.closest target isModalTrigger with
    | none => ((page.click target stack).1, none)
    | some trigger =>
      match ((page.click target stack).1.dom.elemAt trigger).bind resolveModalId with
      | some modalId =>
        if modalId ≠ "" then ((page.click target stack).1, some modalId)
        else ((page.click target stack).1, none)
      | none => ((page.click target stack).1, none)

/-- The callback of that timer, run 300 ms later on the page as it is then
(modal-select-fix.js 64-75): `fixModalSelects`, then `disabled = false` on every
select inside the element with the modal id, when there is one. -/
def modalTimerCallback (page : Page) (modalId : String) (stack : Option String) : Page :=
  match (fixModalSelects page stack).dom.getElementById modalId with
  | none => fixModalSelects page stack
  | some modal =>
    { fixModalSelects page stack with
      dom := Dom.modifyBelow
        (fun e => if e.localName = "select" then e.setDisabled false stack else e)
        (fixModalSelects page stack).dom modal }

/-- A modal that `fixModalSelects` has not marked yet, with a disabled select. The
modal is opened by the button next to it. The select is at `[0, 0]`, the button at
`[1]`. -/
def modalPage : Page :=
  { dom := .node ⟨"div", [("id", "new-modal"), ("data-modal-backdrop", "static")], [], []⟩
      (.node disabledSelect .nil .nil)
      (.node ⟨"button", [("data-modal-target", "new-modal")], [], []⟩ .nil .nil)
    cookie := []
    console := []
    requests := []
    widgets := []
    windowProps := [] }

/-- The same modal after a content swap: it carries the marker, and a disabled
select has been inserted into it. -/
def swappedModalPage : Page :=
  { dom := .node
      ⟨"div", [("id", "new-modal"), ("data-modal-backdrop", "static"),
        ("data-select-fixed", "true")], [], []⟩
      (.node disabledSelect .nil .nil)
      (.node ⟨"button", [("data-modal-toggle", "new-modal"), ("data-modal-target", "")], [],
        []⟩ .nil .nil)
    cookie := []
    console := []
    requests := []
    widgets := []
    windowProps := [] }

/-- A marked modal whose select `id_status`, processed by `fixModalSelects` at page
load, stands inside a trigger for that modal; a content swap has inserted the
disabled select `id_client` next to the trigger. The trigger is at `[0, 0]`, the
processed select at `[0, 0, 0]`, the inserted select at `[0, 1]`. -/
def stoppedClickPage : Page :=
  { dom := .node
      ⟨"div", [("id", "new-modal"), ("data-modal-backdrop", "static"),
        ("data-select-fixed", "true")], [], []⟩
      (.node ⟨"label", [("data-modal-toggle", "new-modal")], [], []⟩
        (.node (fixSelect plainSelect none) .nil .nil)
        (.node disabledSelect .nil .nil)) .nil
    cookie := []
    console := []
    requests := []
    widgets := []
    windowProps := [] }

/-- A modal not yet marked that contains a marked modal with a disabled select. The
inner modal is at `[0, 0]`, its select at `[0, 0, 0]`. -/
def nestedModalPage : Page :=
  { dom := .node ⟨"div", [("id", "outer"), ("data-modal-backdrop", "static")], [], []⟩
      (.node
        ⟨"div", [("id", "inner"), ("data-modal-backdrop", "static"),
          ("data-select-fixed", "true")], [], []⟩
        (.node disabledSelect .nil .nil) .nil) .nil
    cookie := []
    console := []
    requests := []
    widgets := []
    windowProps := [] }

/-! ## Part II. Lemmas and theorems -/

/-! ### Strings and percent-encoding -/

theorem js_eq : js "=" = [codeUnit 61] := by decide

theorem codeUnit_val (c : CodeUnit) : codeUnit c.val = c := by
  apply Fin.ext
  simp only [codeUnit]
  exact Nat.mod_eq_of_lt c.isLt

theorem hexValue_hexDigit (d : Nat) (h : d < 16) : hexValue (hexDigit d) = some d := by
  interval_cases d <;> rfl

theorem parseHexOctet_hexDigit (b : Nat) (h : b < 256) :
    parseHexOctet (hexDigit (b / 16)) (hexDigit (b % 16)) = some b := by
  have h1 : b / 16 < 16 := by omega
  have h2 : b % 16 < 16 := by omega
  simp only [parseHexOctet, hexValue_hexDigit _ h1, hexValue_hexDigit _ h2]
  congr 1
  omega

theorem substringTo_eq_iff (cookie name : JSString) :
    substringTo cookie (name.length + 1) = name ++ js "=" ↔ (name ++ js "=") <+: cookie := by
  rw [List.prefix_iff_eq_take, js_eq]
  simp only [substringTo, List.length_append, List.length_singleton]
  exact eq_comm

theorem codeUnit_percent : (codeUnit 37).val = 37 := rfl

theorem stepLoop_fuel (step : JSString → Except JSError (JSString × JSString))
    (hstep : ∀ c rest S remaining, step (c :: rest) = .ok (S, remaining) →
      remaining.length ≤ rest.length) (n : Nat) :
    ∀ (s : JSString), s.length ≤ n → stepLoop step n s = stepLoop step s.length s := by
  induction n using Nat.strong_induction_on with
  | _ n ih =>
    intro s hs
    cases s with
    | nil => simp [stepLoop]
    | cons c rest =>
      cases n with
      | zero => simp at hs
      | succ m =>
        simp only [List.length_cons, stepLoop]
        cases hst : step (c :: rest) with
        | error e => rfl
        | ok p =>
          obtain ⟨S, remaining⟩ := p
          have hl := hstep c rest S remaining hst
          simp only [List.length_cons] at hs
          simp only []
          rw [ih m (by omega) remaining (by omega), ih rest.length (by omega) remaining hl]

theorem stepLoop_step (step : JSString → Except JSError (JSString × JSString))
    (hstep : ∀ c rest S remaining, step (c :: rest) = .ok (S, remaining) →
      remaining.length ≤ rest.length) (s S remaining : JSString) (hs : s ≠ [])
    (hst : step s = .ok (S, remaining)) :
    stepLoop step s.length s =
      match stepLoop step remaining.length remaining with
      | .ok r => .ok (S ++ r)
      | .error e => .error e := by
  cases s with
  | nil => exact absurd rfl hs
  | cons c rest =>
    have hl := hstep c rest S remaining hst
    simp only [List.length_cons, stepLoop, hst, stepLoop_fuel step hstep rest.length remaining hl]

theorem decodeStep_length (c : CodeUnit) (rest S remaining : JSString)
    (h : decodeStep (c :: rest) = .ok (S, remaining)) : remaining.length ≤ rest.length := by
  unfold decodeStep at h
  repeat' split at h
  all_goals (try cases h)
  all_goals
    rename_i heq
    cases heq
    try simp only [List.length_cons, List.length_nil]
    try omega

theorem encodeStep_length (c : CodeUnit) (rest S remaining : JSString)
    (h : encodeStep (c :: rest) = .ok (S, remaining)) : remaining.length ≤ rest.length := by
  cases hu : isUriUnescaped c
  · cases hl : isLeadingSurrogate c
    · cases ht : isTrailingSurrogate c
      · simp [encodeStep, hu, hl, ht] at h
        rw [← h.2]
      · simp [encodeStep, hu, hl, ht] at h
    · cases ht : isTrailingSurrogate c
      · cases rest with
        | nil => simp [encodeStep, hu, hl, ht] at h
        | cons d rest2 =>
          cases hd : isTrailingSurrogate d
          · simp [encodeStep, hu, hl, ht, hd] at h
          · simp [encodeStep, hu, hl, ht, hd] at h
            rw [← h.2]
            simp
      · simp [encodeStep, hu, hl, ht] at h
  · simp [encodeStep, hu] at h
    rw [← h.2]

theorem decode_step (s S remaining r : JSString) (hs : s ≠ [])
    (hstep : decodeStep s = .ok (S, remaining)) (hr : decodeURIComponent remaining = .ok r) :
    decodeURIComponent s = .ok (S ++ r) := by
  simp only [decodeURIComponent] at hr ⊢
  rw [stepLoop_step decodeStep decodeStep_length s S remaining hs hstep, hr]

theorem decodeStep_copy (c : CodeUnit) (r : JSString) (hc : c.val ≠ 37) :
    decodeStep (c :: r) = .ok ([c], r) := by
  simp only [decodeStep, hc, ne_eq, not_false_eq_true, if_true]

theorem utf8Decode2_encode (cp : Nat) (h1 : 128 ≤ cp) (h2 : cp < 2048) :
    utf8Decode2 (192 + cp / 64) (128 + cp % 64) = some cp := by
  have c1 : 128 + cp % 64 < 192 := by omega
  simp [utf8Decode2, isContinuation, c1]
  omega

theorem utf8Decode3_encode (cp : Nat) (h1 : 2048 ≤ cp) (h2 : cp < 65536)
    (h3 : cp < 55296 ∨ 57344 ≤ cp) :
    utf8Decode3 (224 + cp / 4096) (128 + cp / 64 % 64) (128 + cp % 64) = some cp := by
  have c1 : 128 + cp / 64 % 64 < 192 := by omega
  have c2 : 128 + cp % 64 < 192 := by omega
  simp [utf8Decode3, isContinuation, c1, c2]
  omega

theorem utf8Decode4_encode (cp : Nat) (h1 : 65536 ≤ cp) (h2 : cp ≤ 1114111) :
    utf8Decode4 (240 + cp / 262144) (128 + cp / 4096 % 64) (128 + cp / 64 % 64)
      (128 + cp % 64) = some cp := by
  have c1 : 128 + cp / 4096 % 64 < 192 := by omega
  have c2 : 128 + cp / 64 % 64 < 192 := by omega
  have c3 : 128 + cp % 64 < 192 := by omega
  simp [utf8Decode4, isContinuation, c1, c2, c3]
  omega

theorem decodeStep_percentEncode (cp : Nat) (r : JSString)
    (hcp : cp < 55296 ∨ (57344 ≤ cp ∧ cp ≤ 1114111)) :
    decodeStep (percentEncode cp ++ r) = .ok (utf16EncodeCodePoint cp, r) := by
  unfold percentEncode utf8Encode
  split_ifs with h1 h2 h3
  · have hp := parseHexOctet_hexDigit cp (by omega)
    have hu : utf16EncodeCodePoint cp = [codeUnit cp] := by
      simp only [utf16EncodeCodePoint]; rw [if_pos (by omega)]
    simp [percentOctet, decodeStep, codeUnit_percent, hp, h1, hu]
  · have hp0 := parseHexOctet_hexDigit (192 + cp / 64) (by omega)
    have hp1 := parseHexOctet_hexDigit (128 + cp % 64) (by omega)
    have n1 : ¬ (192 + cp / 64 < 128) := by omega
    have n2 : ¬ (192 + cp / 64 < 192) := by omega
    have n3 : 192 + cp / 64 < 224 := by omega
    simp [percentOctet, decodeStep, codeUnit_percent, hp0, hp1, n1, n2, n3,
      utf8Decode2_encode cp (by omega) h2]
  · have hp0 := parseHexOctet_hexDigit (224 + cp / 4096) (by omega)
    have hp1 := parseHexOctet_hexDigit (128 + cp / 64 % 64) (by omega)
    have hp2 := parseHexOctet_hexDigit (128 + cp % 64) (by omega)
    have n1 : ¬ (224 + cp / 4096 < 128) := by omega
    have n2 : ¬ (224 + cp / 4096 < 192) := by omega
    have n3 : ¬ (224 + cp / 4096 < 224) := by omega
    have n4 : 224 + cp / 4096 < 240 := by omega
    simp [percentOctet, decodeStep, codeUnit_percent, hp0, hp1, hp2, n1, n2, n3, n4,
      utf8Decode3_encode cp (by omega) h3 (by omega)]
  · have hp0 := parseHexOctet_hexDigit (240 + cp / 262144) (by omega)
    have hp1 := parseHexOctet_hexDigit (128 + cp / 4096 % 64) (by omega)
    have hp2 := parseHexOctet_hexDigit (128 + cp / 64 % 64) (by omega)
    have hp3 := parseHexOctet_hexDigit (128 + cp % 64) (by omega)
    have n1 : ¬ (240 + cp / 262144 < 128) := by omega
    have n2 : ¬ (240 + cp / 262144 < 192) := by omega
    have n3 : ¬ (240 + cp / 262144 < 224) := by omega
    have n4 : ¬ (240 + cp / 262144 < 240) := by omega
    have n5 : 240 + cp / 262144 < 248 := by omega
    simp [percentOctet, decodeStep, codeUnit_percent, hp0, hp1, hp2, hp3, n1, n2, n3, n4,
      n5, utf8Decode4_encode cp (by omega) (by omega)]

theorem percentEncode_ne_nil (cp : Nat) (t : JSString) : percentEncode cp ++ t ≠ [] := by
  unfold percentEncode utf8Encode
  split_ifs <;> simp [percentOctet]

theorem isUriUnescaped_ne_percent (c : CodeUnit) (h : isUriUnescaped c = true) : c.val ≠ 37 := by
  intro h37
  simp [isUriUnescaped, h37] at h

theorem utf16Encode_unit (c : CodeUnit) : utf16EncodeCodePoint c.val = [c] := by
  have := c.isLt
  simp only [utf16EncodeCodePoint]
  rw [if_pos (by omega), codeUnit_val]

theorem utf16Encode_pair (c d : CodeUnit) (hc : isLeadingSurrogate c = true)
    (hd : isTrailingSurrogate d = true) :
    utf16EncodeCodePoint (surrogatePairToCodePoint c d) = [c, d] := by
  simp only [isLeadingSurrogate, isTrailingSurrogate, Bool.and_eq_true, decide_eq_true_eq] at hc hd
  have e1 : (surrogatePairToCodePoint c d - 65536) / 1024 + 55296 = c.val := by
    simp only [surrogatePairToCodePoint]; omega
  have e2 : (surrogatePairToCodePoint c d - 65536) % 1024 + 56320 = d.val := by
    simp only [surrogatePairToCodePoint]; omega
  have e3 : ¬ surrogatePairToCodePoint c d ≤ 65535 := by
    simp only [surrogatePairToCodePoint]; omega
  simp only [utf16EncodeCodePoint]
  rw [if_neg e3, e1, e2, codeUnit_val, codeUnit_val]

/-- What one iteration of Encode produces is read back by one iteration of Decode. -/
theorem encodeStep_decodeStep (c : CodeUnit) (rest E remaining : JSString)
    (h : encodeStep (c :: rest) = .ok (E, remaining)) :
    ∃ S, c :: rest = S ++ remaining ∧ ∀ t, E ++ t ≠ [] ∧ decodeStep (E ++ t) = .ok (S, t) := by
  cases hu : isUriUnescaped c
  · cases hl : isLeadingSurrogate c
    · cases ht : isTrailingSurrogate c
      · simp [encodeStep, hu, hl, ht] at h
        refine ⟨[c], by simp [h.2], fun t => ?_⟩
        rw [← h.1]
        refine ⟨percentEncode_ne_nil _ t, ?_⟩
        rw [decodeStep_percentEncode c.val t ?_, utf16Encode_unit]
        have := c.isLt
        simp only [isLeadingSurrogate, isTrailingSurrogate, Bool.and_eq_false_iff,
          decide_eq_false_iff_not] at hl ht
        omega
      · simp [encodeStep, hu, hl, ht] at h
    · cases ht : isTrailingSurrogate c
      · cases rest with
        | nil => simp [encodeStep, hu, hl, ht] at h
        | cons d rest2 =>
          cases hd : isTrailingSurrogate d
          · simp [encodeStep, hu, hl, ht, hd] at h
          · simp [encodeStep, hu, hl, ht, hd] at h
            refine ⟨[c, d], by simp [h.2], fun t => ?_⟩
            rw [← h.1]
            refine ⟨percentEncode_ne_nil _ t, ?_⟩
            rw [decodeStep_percentEncode _ t ?_, utf16Encode_pair c d hl hd]
            simp only [isLeadingSurrogate, isTrailingSurrogate, Bool.and_eq_true,
              decide_eq_true_eq] at hl hd
            simp only [surrogatePairToCodePoint]
            omega
      · simp [encodeStep, hu, hl, ht] at h
  · simp [encodeStep, hu] at h
    refine ⟨[c], by simp [h.2], fun t => ?_⟩
    rw [← h.1]
    exact ⟨by simp, decodeStep_copy c t (isUriUnescaped_ne_percent c hu)⟩

/-- Decoding undoes encoding: `decodeURIComponent(encodeURIComponent(v)) = v` whenever
the encoding exists. -/
theorem decode_encode (n : Nat) : ∀ (v enc : JSString), v.length ≤ n →
    encodeURIComponent v = .ok enc → decodeURIComponent enc = .ok v := by
  induction n with
  | zero =>
    intro v enc hv h
    have : v = [] := List.length_eq_zero.mp (by omega)
    subst this
    simp only [encodeURIComponent, List.length_nil, stepLoop, Except.ok.injEq] at h
    subst h
    rfl
  | succ n ih =>
    intro v enc hv h
    cases v with
    | nil =>
      simp only [encodeURIComponent, List.length_nil, stepLoop, Except.ok.injEq] at h
      subst h
      rfl
    | cons c rest =>
      simp only [encodeURIComponent] at h
      cases hst : encodeStep (c :: rest) with
      | error e => simp [stepLoop, hst] at h
      | ok p =>
        obtain ⟨E, remaining⟩ := p
        rw [stepLoop_step encodeStep encodeStep_length (c :: rest) E remaining (by simp) hst] at h
        have hl := encodeStep_length c rest E remaining hst
        simp only [List.length_cons] at hv
        cases he : stepLoop encodeStep remaining.length remaining with
        | error e => simp [he] at h
        | ok enc2 =>
          simp only [he, Except.ok.injEq] at h
          subst h
          obtain ⟨S, hS, hdec⟩ := encodeStep_decodeStep c rest E remaining hst
          have hrem := ih remaining enc2 (by omega) he
          rw [hS]
          exact decode_step (E ++ enc2) S enc2 remaining (hdec enc2).1 (hdec enc2).2 hrem

/-! ### `getCookie` -/

theorem getCookieLoop_absent (name : JSString) (entries : List JSString)
    (h : ∀ entry ∈ entries, ¬ (name ++ js "=") <+: trim entry) :
    getCookieLoop name entries = .ok none := by
  induction entries with
  | nil => rfl
  | cons entry rest ih =>
    have h1 := h entry (List.mem_cons_self _ _)
    rw [← substringTo_eq_iff] at h1
    simp only [getCookieLoop, h1, if_false]
    exact ih (fun e he => h e (List.mem_cons_of_mem _ he))

theorem getCookieLoop_append (name : JSString) (before after : List JSString)
    (h : ∀ entry ∈ before, ¬ (name ++ js "=") <+: trim entry) :
    getCookieLoop name (before ++ after) = getCookieLoop name after := by
  induction before with
  | nil => rfl
  | cons entry rest ih =>
    have h1 := h entry (List.mem_cons_self _ _)
    rw [← substringTo_eq_iff] at h1
    simp only [List.cons_append, getCookieLoop, h1, if_false]
    exact ih (fun e he => h e (List.mem_cons_of_mem _ he))

theorem takeWhile_cookie_name (name rest : JSString) (h : codeUnit 61 ∉ name) :
    (name ++ codeUnit 61 :: rest).takeWhile (fun c => c ≠ codeUnit 61) = name := by
  induction name with
  | nil => simp [List.takeWhile]
  | cons c cs ih =>
    have hc : c ≠ codeUnit 61 := fun hc => h (hc ▸ List.mem_cons_self _ _)
    have hcs : codeUnit 61 ∉ cs := fun hx => h (List.mem_cons_of_mem _ hx)
    have h2 := ih hcs
    simp only [List.cons_append, List.takeWhile, hc, ne_eq, not_false_eq_true, decide_True]
    exact congrArg (List.cons c) h2

theorem cookie_name_of_starts (name cookie : JSString) (h : codeUnit 61 ∉ name)
    (hp : (name ++ js "=") <+: cookie) :
    cookie.takeWhile (fun c => c ≠ codeUnit 61) = name := by
  obtain ⟨t, rfl⟩ := hp
  rw [js_eq, List.append_assoc]
  exact takeWhile_cookie_name name t h

/-- C2. `getCookie(name)` returns `null` for an absent cookie: whenever no
`;`-separated entry of the cookie string, trimmed, begins with `name` followed by
`=`, the result is `null` (the empty cookie string included). In particular, for a
`name` without `=`, the result is `null` whenever the cookie name of every entry
(its text before the first `=`) differs from `name`, be it longer than `name` at
the front or at the back. -/
theorem getCookie_absent (documentCookie name : JSString) :
    ((∀ entry ∈ splitOn (codeUnit 59) documentCookie, ¬ (name ++ js "=") <+: trim entry) →
      getCookie documentCookie name = .ok none) ∧
    (codeUnit 61 ∉ name →
      (∀ entry ∈ splitOn (codeUnit 59) documentCookie,
        (trim entry).takeWhile (fun c => c ≠ codeUnit 61) ≠ name) →
      getCookie documentCookie name = .ok none) := by
  have main : (∀ entry ∈ splitOn (codeUnit 59) documentCookie,
      ¬ (name ++ js "=") <+: trim entry) → getCookie documentCookie name = .ok none := by
    intro h
    unfold getCookie
    split
    · exact getCookieLoop_absent name _ h
    · rfl
  refine ⟨main, ?_⟩
  intro hname hentries
  apply main
  intro entry he hp
  exact hentries entry he (cookie_name_of_starts name (trim entry) hname hp)

/-- Witness for C2: entries whose cookie name has `csrftoken` as a proper prefix
(`csrftoken2=x`) or as a suffix (`xcsrftoken=x`) do not count as present, and the
empty cookie string has no cookie. -/
theorem getCookie_absent_witness :
    getCookie (js "csrftoken2=x; xcsrftoken=x") (js "csrftoken") = .ok none ∧
    getCookie (js "") (js "csrftoken") = .ok none :=
  ⟨(getCookie_absent (js "csrftoken2=x; xcsrftoken=x") (js "csrftoken")).2 (by decide)
     (by decide),
   (getCookie_absent (js "") (js "csrftoken")).1 (by decide)⟩

/-- C3. `getCookie(name)` returns the exact decoded value of a present cookie: when
the first entry of the cookie string that begins with `name=` is `name=` followed
by `encodeURIComponent(v)`, the result is exactly `v`, whatever entries follow. -/
theorem getCookie_present (documentCookie name v enc : JSString)
    (before : List JSString) (entry : JSString) (after : List JSString)
    (hsplit : splitOn (codeUnit 59) documentCookie = before ++ entry :: after)
    (hbefore : ∀ e ∈ before, ¬ (name ++ js "=") <+: trim e)
    (henc : encodeURIComponent v = .ok enc)
    (hentry : trim entry = name ++ js "=" ++ enc) :
    getCookie documentCookie name = .ok (some v) := by
  have hne : documentCookie ≠ [] := by
    rintro rfl
    have h1 : before ++ entry :: after = [[]] := hsplit.symm
    have h2 : before = [] ∧ entry = [] := by
      cases before with
      | nil =>
        simp only [List.nil_append, List.cons.injEq] at h1
        exact ⟨rfl, h1.1⟩
      | cons b bs => cases bs <;> simp at h1
    rw [h2.2, js_eq] at hentry
    have h3 := congrArg List.length hentry
    simp [trim] at h3
    omega
  have hpre : substringTo (trim entry) (name.length + 1) = name ++ js "=" := by
    rw [substringTo_eq_iff, hentry]
    exact List.prefix_append _ _
  have hdrop : substringFrom (trim entry) (name.length + 1) = enc := by
    rw [hentry, js_eq]
    simp only [substringFrom]
    have : name.length + 1 = (name ++ [codeUnit 61]).length := by simp
    rw [this, List.drop_left]
  unfold getCookie
  rw [if_pos hne, hsplit, getCookieLoop_append name before _ hbefore]
  simp only [getCookieLoop, hpre, if_true, hdrop, decode_encode v.length v enc le_rfl henc]

/-- Witness for C3: a value with a space, `%` and `=`, stored percent-encoded in the
second entry; a later entry of the same name is ignored. -/
theorem getCookie_present_witness :
    getCookie (js "a=1; csrftoken=a%20b%25%3D; csrftoken=zz") (js "csrftoken")
      = .ok (some (js "a b%=")) :=
  getCookie_present (js "a=1; csrftoken=a%20b%25%3D; csrftoken=zz") (js "csrftoken")
    (js "a b%=") (js "a%20b%25%3D") [js "a=1"] (js " csrftoken=a%20b%25%3D")
    [js " csrftoken=zz"] (by decide) (by decide) (by decide) (by decide)

/-! ### Attributes -/

theorem hasAttribute_queueRecord (e : Element) (r : MutationRecord) (name : String) :
    (e.queueRecord r).hasAttribute name = e.hasAttribute name := rfl

theorem hasAttribute_removeAttribute_self (e : Element) (name : String) (stack : Option String) :
    (e.removeAttribute name stack).hasAttribute name = false := by
  unfold Element.removeAttribute
  split
  · simp [Element.hasAttribute, Element.queueRecord]
  · rename_i h
    simpa using h

theorem hasAttribute_removeAttribute_of_ne (e : Element) (name other : String)
    (stack : Option String) (h : other ≠ name) :
    (e.removeAttribute name stack).hasAttribute other = e.hasAttribute other := by
  unfold Element.removeAttribute
  split
  · simp only [Element.hasAttribute, Element.queueRecord, List.any_filter]
    congr 1
    funext a
    by_cases ha : a.1 = other
    · simp [ha, h]
    · simp [ha]
  · rfl

theorem any_setAttr (name value other : String) (attrs : List (String × String)) :
    (setAttr name value attrs).any (fun a => a.1 = other) =
      (decide (name = other) || attrs.any (fun a => a.1 = other)) := by
  induction attrs with
  | nil => simp [setAttr]
  | cons a rest ih =>
    simp only [setAttr]
    split
    · rename_i h
      by_cases hn : name = other
      · simp [hn]
      · have : ¬ a.1 = other := fun h2 => hn (h ▸ h2)
        simp [hn, this]
    · simp only [List.any_cons, ih]
      cases decide (a.1 = other) <;> cases decide (name = other) <;> simp

theorem hasAttribute_setAttribute (e : Element) (name value other : String)
    (stack : Option String) :
    (e.setAttribute name value stack).hasAttribute other =
      (decide (name = other) || e.hasAttribute other) := by
  simp only [Element.setAttribute, hasAttribute_queueRecord]
  exact any_setAttr name value other e.attrs

theorem removeAttribute_of_absent (e : Element) (name : String) (stack : Option String)
    (h : e.hasAttribute name = false) : e.removeAttribute name stack = e := by
  simp [Element.removeAttribute, h]

/-! ### `prevent-autofill.js`: one record, one interaction -/

/-- C5. The observer callback, for one delivered record: it removes `disabled` (and
reports it) exactly when the record is about `disabled` and the captured stack text
contains none of the four allow-listed names; otherwise the select is returned as
it was, with no message. -/
theorem guardRecord_iff (select : Element) (mutation : MutationRecord)
    (revertStack : Option String) :
    ((mutation.attributeName = "disabled" ∧
        includes (mutation.stack.getD "") "htmx:beforeRequest" = false ∧
        includes (mutation.stack.getD "") "htmx:afterRequest" = false ∧
        includes (mutation.stack.getD "") "disableFormElements" = false ∧
        includes (mutation.stack.getD "") "enableFormElements" = false) →
      guardRecord select mutation revertStack =
        (select.removeAttribute "disabled" revertStack, [blockedMessage]) ∧
      (guardRecord select mutation revertStack).1.hasAttribute "disabled" = false) ∧
    (¬ (mutation.attributeName = "disabled" ∧
        includes (mutation.stack.getD "") "htmx:beforeRequest" = false ∧
        includes (mutation.stack.getD "") "htmx:afterRequest" = false ∧
        includes (mutation.stack.getD "") "disableFormElements" = false ∧
        includes (mutation.stack.getD "") "enableFormElements" = false) →
      guardRecord select mutation revertStack = (select, [])) := by
  constructor
  · rintro ⟨h0, h1, h2, h3, h4⟩
    have hg : guardRecord select mutation revertStack =
        (select.removeAttribute "disabled" revertStack, [blockedMessage]) := by
      simp [guardRecord, isInternalCall, h0, h1, h2, h3, h4]
    rw [hg]
    exact ⟨rfl, hasAttribute_removeAttribute_self _ _ _⟩
  · intro h
    by_cases h0 : mutation.attributeName = "disabled"
    · have hi : isInternalCall mutation.stack = true := by
        simp only [isInternalCall, Bool.or_eq_true]
        by_contra hc
        simp only [not_or, Bool.not_eq_true] at hc
        exact h ⟨h0, hc.1.1.1, hc.1.1.2, hc.1.2, hc.2⟩
      simp [guardRecord, h0, hi]
    · simp [guardRecord, h0]

/-- Witness for C5: a record on `disabled` with the stack text of the callback is
reverted, a record whose stack text holds `enableFormElements` and a record on
another attribute are not. -/
theorem guardRecord_iff_witness :
    (guardRecord disabledSelect ⟨"disabled", callbackStack⟩ none =
        (disabledSelect.removeAttribute "disabled" none, [blockedMessage]) ∧
      (guardRecord disabledSelect ⟨"disabled", callbackStack⟩ none).1.hasAttribute "disabled"
        = false) ∧
    guardRecord disabledSelect ⟨"disabled", allowListedStack⟩ none = (disabledSelect, []) ∧
    guardRecord disabledSelect ⟨"class", callbackStack⟩ none = (disabledSelect, []) :=
  ⟨(guardRecord_iff disabledSelect ⟨"disabled", callbackStack⟩ none).1 (by decide),
   (guardRecord_iff disabledSelect ⟨"disabled", allowListedStack⟩ none).2 (by decide),
   (guardRecord_iff disabledSelect ⟨"class", callbackStack⟩ none).2 (by decide)⟩

theorem listeners_removeAttribute (e : Element) (name : String) (stack : Option String) :
    (e.removeAttribute name stack).listeners = e.listeners := by
  unfold Element.removeAttribute
  split <;> rfl

theorem localName_removeAttribute (e : Element) (name : String) (stack : Option String) :
    (e.removeAttribute name stack).localName = e.localName := by
  unfold Element.removeAttribute
  split <;> rfl

theorem observers_length_removeAttribute (e : Element) (name : String)
    (stack : Option String) :
    (e.removeAttribute name stack).observers.length = e.observers.length := by
  unfold Element.removeAttribute
  split
  · simp [Element.queueRecord]
  · rfl

theorem observers_length_setAttribute (e : Element) (name value : String)
    (stack : Option String) :
    (e.setAttribute name value stack).observers.length = e.observers.length := by
  simp [Element.setAttribute, Element.queueRecord]

/-! ### `protectSelectElements` run again -/

theorem protectSelect_of_marked (e : Element) (stack : Option String)
    (h : e.hasAttribute "data-protected" = true) : protectSelect e stack = e := by
  simp [protectSelect, h]

theorem protectSelect_marks (e : Element) (stack : Option String) :
    (protectSelect e stack).hasAttribute "data-protected" = true := by
  unfold protectSelect
  split
  · assumption
  · simp [hasAttribute_setAttribute]

theorem protectSelect_localName (e : Element) (stack : Option String) :
    (protectSelect e stack).localName = e.localName := by
  unfold protectSelect
  split
  · rfl
  · simp [Element.setAttribute, Element.queueRecord, Element.observe, Element.addEventListener,
      localName_removeAttribute]

theorem protectSelect_listeners (e : Element) (stack : Option String)
    (h : e.hasAttribute "data-protected" = false) :
    (protectSelect e stack).listeners = e.listeners ++ guardListeners := by
  simp [protectSelect, h, Element.setAttribute, Element.queueRecord, Element.observe,
    Element.addEventListener, listeners_removeAttribute, guardListeners]

theorem protectSelect_observers (e : Element) (stack : Option String)
    (h : e.hasAttribute "data-protected" = false) :
    (protectSelect e stack).observers.length = e.observers.length + 1 := by
  simp [protectSelect, h, Element.setAttribute, Element.queueRecord, Element.observe,
    Element.addEventListener, observers_length_removeAttribute]

theorem mapElements_idem (f g : Element → Element) (h : ∀ e, g (f e) = f e) (d : Dom) :
    Dom.mapElements g (Dom.mapElements f d) = Dom.mapElements f d := by
  induction d with
  | nil => rfl
  | node el ch nx ih1 ih2 => simp [Dom.mapElements, h, ih1, ih2]

theorem elements_mapElements (f : Element → Element) (d : Dom) :
    (Dom.mapElements f d).elements = d.elements.map f := by
  induction d with
  | nil => rfl
  | node el ch nx ih1 ih2 => simp [Dom.mapElements, Dom.elements, ih1, ih2]

/-- C7. A select that carries `data-protected` is returned by the loop body as it
is (attributes, listeners, observers); hence a second run of
`protectSelectElements` changes nothing, and after two runs a select that was not
marked before has gained exactly one click listener, one focus listener and one
observer. -/
theorem protectSelectElements_marked_skip :
    (∀ (e : Element) (stack : Option String),
        e.hasAttribute "data-protected" = true → protectSelect e stack = e) ∧
    (∀ (page : Page) (stack stack2 : Option String),
        protectSelectElements (protectSelectElements page stack) stack2 =
          protectSelectElements page stack) ∧
    (∀ (page : Page) (stack stack2 : Option String),
        (protectSelectElements (protectSelectElements page stack) stack2).dom.elements =
          page.dom.elements.map
            (fun e => if e.localName = "select" then protectSelect e stack else e)) ∧
    (∀ (e : Element) (stack stack2 : Option String),
        e.hasAttribute "data-protected" = false →
        (protectSelect (protectSelect e stack) stack2).listeners =
          e.listeners ++ [⟨"click", .guardClick, true⟩, ⟨"focus", .guardFocus, true⟩] ∧
        (protectSelect (protectSelect e stack) stack2).observers.length =
          e.observers.length + 1) := by
  have again : ∀ (page : Page) (stack stack2 : Option String),
      protectSelectElements (protectSelectElements page stack) stack2 =
        protectSelectElements page stack := by
    intro page stack stack2
    simp only [protectSelectElements]
    congr 1
    apply mapElements_idem
    intro e
    by_cases hs : e.localName = "select"
    · simp only [hs, if_true, protectSelect_localName]
      exact protectSelect_of_marked _ _ (protectSelect_marks e stack)
    · simp only [hs, if_false]
  refine ⟨protectSelect_of_marked, again, ?_, ?_⟩
  · intro page stack stack2
    rw [again]
    exact elements_mapElements _ _
  · intro e stack stack2 h
    rw [protectSelect_of_marked _ stack2 (protectSelect_marks e stack)]
    exact ⟨protectSelect_listeners e stack h, protectSelect_observers e stack h⟩

/-- Witness for C7: the server-rendered select `disabledSelect`, run twice. -/
theorem protectSelectElements_marked_skip_witness :
    protectSelect (protectSelect disabledSelect none) none = protectSelect disabledSelect none ∧
    (protectSelect (protectSelect disabledSelect none) none).listeners =
      [⟨"click", .guardClick, true⟩, ⟨"focus", .guardFocus, true⟩] ∧
    (protectSelect (protectSelect disabledSelect none) none).observers.length = 1 :=
  ⟨protectSelectElements_marked_skip.1 (protectSelect disabledSelect none) none (by decide),
   (protectSelectElements_marked_skip.2.2.2 disabledSelect none none (by decide)).1,
   (protectSelectElements_marked_skip.2.2.2 disabledSelect none none (by decide)).2⟩

/-! ### `prevent-autofill.js`: sequences of mutations and deliveries -/

theorem guardRecord_fst (t : Element) (r : MutationRecord) (rs : Option String) :
    (guardRecord t r rs).1 =
      if isExternalDisable r then t.removeAttribute "disabled" rs else t := by
  unfold guardRecord isExternalDisable
  by_cases h0 : r.attributeName = "disabled" <;> cases hi : isInternalCall r.stack <;>
    simp [h0, hi]

theorem guardCallback_fst (records : List MutationRecord) :
    ∀ (t : Element) (rs : Option String), (guardCallback t records rs).1 =
      if records.any isExternalDisable then t.removeAttribute "disabled" rs else t := by
  induction records with
  | nil => intro t rs; simp [guardCallback]
  | cons r rest ih =>
    intro t rs
    simp only [guardCallback, ih, guardRecord_fst, List.any_cons]
    by_cases hr : isExternalDisable r = true
    · simp only [hr, if_true, Bool.true_or]
      rw [removeAttribute_of_absent _ _ _ (hasAttribute_removeAttribute_self _ _ _)]
      simp
    · simp [hr]

theorem notify_single (s : Element) (q : List MutationRecord) (rs : Option String)
    (h : s.observers = [⟨q⟩]) :
    (s.notify rs).1 =
      if q = [] then s
      else if q.any isExternalDisable then
        Element.removeAttribute { s with observers := [⟨[]⟩] } "disabled" rs
      else { s with observers := [⟨[]⟩] } := by
  have hr : List.range 1 = [0] := rfl
  simp only [Element.notify, h, List.length_singleton, hr, Element.notifyEach,
    Element.notifyObserver, List.get?_cons_zero, List.set_cons_zero]
  split
  · rfl
  · rw [guardCallback_fst]

theorem lastMutation_append (events : List GuardEvent) (ev : GuardEvent) :
    lastMutation (events ++ [ev]) =
      match ev with
      | .deliver _ => lastMutation events
      | _ => some ev := by
  induction events with
  | nil => cases ev <;> rfl
  | cons e rest ih =>
    cases ev <;> simp_all [lastMutation]

theorem isInternalCall_of_not_external (st : Option String)
    (h : isExternalDisable ⟨"disabled", st⟩ = false) : isInternalCall st = true := by
  simpa [isExternalDisable] using h

theorem guardStep_invariant (s : Element) (c : List ConsoleEntry) (events : List GuardEvent)
    (ev : GuardEvent)
    (h : ∃ q, s.observers = [⟨q⟩] ∧ (s.hasAttribute "disabled" = true →
      ∃ v st, lastMutation events = some (.setDisabled v st) ∧
        (isInternalCall st = true ∨
          (events.getLast? = some (.setDisabled v st) ∧ ⟨"disabled", st⟩ ∈ q)))) :
    ∃ q, (guardStep (s, c) ev).1.observers = [⟨q⟩] ∧
      ((guardStep (s, c) ev).1.hasAttribute "disabled" = true →
        ∃ v st, lastMutation (events ++ [ev]) = some (.setDisabled v st) ∧
          (isInternalCall st = true ∨
            ((events ++ [ev]).getLast? = some (.setDisabled v st) ∧ ⟨"disabled", st⟩ ∈ q))) := by
  obtain ⟨q, hq, hinv⟩ := h
  cases ev with
  | setDisabled value stack =>
    refine ⟨q ++ [⟨"disabled", stack⟩], ?_, ?_⟩
    · simp [guardStep, Element.setAttribute, Element.queueRecord, hq]
    · intro _
      rw [lastMutation_append]
      exact ⟨value, stack, rfl, Or.inr ⟨by simp, by simp⟩⟩
  | removeDisabled stack =>
    have hfalse : (guardStep (s, c) (.removeDisabled stack)).1.hasAttribute "disabled" = false :=
      hasAttribute_removeAttribute_self _ _ _
    cases hd : s.hasAttribute "disabled"
    · refine ⟨q, ?_, ?_⟩
      · simp [guardStep, Element.removeAttribute, hd, hq]
      · intro h1
        rw [hfalse] at h1
        exact absurd h1 (by decide)
    · refine ⟨q ++ [⟨"disabled", stack⟩], ?_, ?_⟩
      · simp [guardStep, Element.removeAttribute, hd, Element.queueRecord, hq]
      · intro h1
        rw [hfalse] at h1
        exact absurd h1 (by decide)
  | deliver rs =>
    have hn := notify_single s q rs hq
    simp only [guardStep]
    rw [lastMutation_append]
    by_cases hq0 : q = []
    · rw [hn, if_pos hq0]
      refine ⟨q, hq, ?_⟩
      intro h1
      obtain ⟨v, st, h2, h3⟩ := hinv h1
      refine ⟨v, st, h2, Or.inl ?_⟩
      rcases h3 with h3 | ⟨-, h3⟩
      · exact h3
      · rw [hq0] at h3
        exact absurd h3 (List.not_mem_nil _)
    · rw [hn, if_neg hq0]
      by_cases hx : q.any isExternalDisable = true
      · rw [if_pos hx]
        have hfalse : (Element.removeAttribute { s with observers := [⟨[]⟩] } "disabled"
            rs).hasAttribute "disabled" = false := hasAttribute_removeAttribute_self _ _ _
        cases hd : s.hasAttribute "disabled"
        · refine ⟨[], ?_, ?_⟩
          · have : Element.hasAttribute { s with observers := [⟨[]⟩] } "disabled" = false := hd
            simp [Element.removeAttribute, this]
          · intro h1
            rw [hfalse] at h1
            exact absurd h1 (by decide)
        · refine ⟨[⟨"disabled", rs⟩], ?_, ?_⟩
          · have : Element.hasAttribute { s with observers := [⟨[]⟩] } "disabled" = true := hd
            simp [Element.removeAttribute, this, Element.queueRecord]
          · intro h1
            rw [hfalse] at h1
            exact absurd h1 (by decide)
      · rw [if_neg hx]
        refine ⟨[], rfl, ?_⟩
        intro h1
        have h2 : s.hasAttribute "disabled" = true := h1
        obtain ⟨v, st, h3, h4⟩ := hinv h2
        refine ⟨v, st, h3, Or.inl ?_⟩
        rcases h4 with h4 | ⟨-, h4⟩
        · exact h4
        · apply isInternalCall_of_not_external
          have hall : ∀ r ∈ q, isExternalDisable r = false := by
            simpa using hx
          exact hall _ h4

theorem guardRun_invariant (s : Element) (c : List ConsoleEntry) (q0 : List MutationRecord)
    (hq : s.observers = [⟨q0⟩]) (hd : s.hasAttribute "disabled" = false)
    (events : List GuardEvent) :
    ∃ q, (guardRun (s, c) events).1.observers = [⟨q⟩] ∧
      ((guardRun (s, c) events).1.hasAttribute "disabled" = true →
        ∃ v st, lastMutation events = some (.setDisabled v st) ∧
          (isInternalCall st = true ∨
            (events.getLast? = some (.setDisabled v st) ∧ ⟨"disabled", st⟩ ∈ q))) := by
  induction events using List.reverseRecOn with
  | nil =>
    refine ⟨q0, hq, ?_⟩
    intro h1
    have h2 : s.hasAttribute "disabled" = true := h1
    rw [hd] at h2
    exact absurd h2 (by decide)
  | append_singleton events ev ih =>
    have hstep : guardRun (s, c) (events ++ [ev]) = guardStep (guardRun (s, c) events) ev := by
      simp [guardRun, List.foldl_append]
    rw [hstep]
    exact guardStep_invariant (guardRun (s, c) events).1 (guardRun (s, c) events).2 events ev ih

/-- Two deliveries empty the queue of a select with one observer, and a select that
is still disabled afterwards had no external record pending. -/
theorem notify_twice (s : Element) (q : List MutationRecord) (rs1 rs2 : Option String)
    (hq : s.observers = [⟨q⟩]) :
    ((s.notify rs1).1.notify rs2).1.pending = [] ∧
    (((s.notify rs1).1.notify rs2).1.hasAttribute "disabled" = true →
      s.hasAttribute "disabled" = true ∧ q.any isExternalDisable = false) := by
  have hn := notify_single s q rs1 hq
  by_cases hq0 : q = []
  · rw [if_pos hq0] at hn
    subst hq0
    rw [hn, notify_single s [] rs2 hq, if_pos rfl]
    exact ⟨by simp [Element.pending, hq], fun h => ⟨h, rfl⟩⟩
  · rw [if_neg hq0] at hn
    by_cases hx : q.any isExternalDisable = true
    · rw [if_pos hx] at hn
      have hfalse : (s.notify rs1).1.hasAttribute "disabled" = false := by
        rw [hn]; exact hasAttribute_removeAttribute_self _ _ _
      cases hd : s.hasAttribute "disabled"
      · have h1 : Element.hasAttribute { s with observers := [⟨[]⟩] } "disabled" = false := hd
        have h2 : (s.notify rs1).1.observers = [⟨[]⟩] := by
          rw [hn]; simp [Element.removeAttribute, h1]
        rw [notify_single _ [] rs2 h2, if_pos rfl]
        refine ⟨by simp [Element.pending, h2], fun h => ?_⟩
        rw [hfalse] at h
        exact absurd h (by decide)
      · have h1 : Element.hasAttribute { s with observers := [⟨[]⟩] } "disabled" = true := hd
        have h2 : (s.notify rs1).1.observers = [⟨[⟨"disabled", rs1⟩]⟩] := by
          rw [hn]; simp [Element.removeAttribute, h1, Element.queueRecord]
        have h3 := notify_single _ _ rs2 h2
        rw [if_neg (by simp)] at h3
        have h4 : ((s.notify rs1).1.notify rs2).1 =
            { (s.notify rs1).1 with observers := [⟨[]⟩] } := by
          rw [h3]
          split
          · exact removeAttribute_of_absent _ _ _ hfalse
          · rfl
        rw [h4]
        refine ⟨by simp [Element.pending], fun h => ?_⟩
        have h5 : (s.notify rs1).1.hasAttribute "disabled" = true := h
        rw [hfalse] at h5
        exact absurd h5 (by decide)
    · rw [if_neg hx] at hn
      have h2 : (s.notify rs1).1.observers = [⟨[]⟩] := by rw [hn]
      rw [notify_single _ [] rs2 h2, if_pos rfl]
      refine ⟨by simp [Element.pending, h2], fun h => ?_⟩
      rw [hn] at h
      exact ⟨h, by simpa using hx⟩

theorem observers_removeAttribute_nil (e : Element) (name : String) (stack : Option String)
    (h : e.observers = []) : (e.removeAttribute name stack).observers = [] := by
  unfold Element.removeAttribute
  split
  · simp [Element.queueRecord, h]
  · exact h

theorem protectSelect_unmarked (e0 : Element) (stack0 : Option String)
    (hm : e0.hasAttribute "data-protected" = false) :
    protectSelect e0 stack0 =
      (((((e0.setAttribute "data-disabled" (if e0.disabled then "true" else "false")
        stack0).removeAttribute "disabled" stack0).addEventListener "click" .guardClick
        true).addEventListener "focus" .guardFocus true).observe).setAttribute
        "data-protected" "true" stack0 := by
  simp [protectSelect, hm]

theorem protectSelect_fresh (e0 : Element) (stack0 : Option String) (hobs : e0.observers = [])
    (hm : e0.hasAttribute "data-protected" = false) :
    (protectSelect e0 stack0).observers = [⟨[⟨"data-protected", stack0⟩]⟩] ∧
    (protectSelect e0 stack0).hasAttribute "disabled" = false := by
  rw [protectSelect_unmarked e0 stack0 hm]
  constructor
  · have h1 : ((e0.setAttribute "data-disabled" (if e0.disabled then "true" else "false")
        stack0).removeAttribute "disabled" stack0).observers = [] := by
      apply observers_removeAttribute_nil
      simp [Element.setAttribute, Element.queueRecord, hobs]
    simp only [Element.setAttribute, Element.queueRecord, Element.observe,
      Element.addEventListener] at h1 ⊢
    rw [h1]
    rfl
  · rw [hasAttribute_setAttribute]
    have h2 : ((e0.setAttribute "data-disabled" (if e0.disabled then "true" else "false")
        stack0).removeAttribute "disabled" stack0).hasAttribute "disabled" = false :=
      hasAttribute_removeAttribute_self _ _ _
    simpa [Element.observe, Element.addEventListener, Element.hasAttribute] using h2

theorem lastMutation_mem (events : List GuardEvent) (ev : GuardEvent)
    (h : lastMutation events = some ev) : ev ∈ events := by
  induction events with
  | nil => simp [lastMutation] at h
  | cons e rest ih =>
    simp only [lastMutation] at h
    cases hl : lastMutation rest with
    | some later =>
      rw [hl] at h
      simp only [Option.some.injEq] at h
      subst h
      exact List.mem_cons_of_mem _ (ih hl)
    | none =>
      rw [hl] at h
      cases e with
      | deliver rs => simp at h
      | setDisabled v st =>
        simp only [Option.some.injEq] at h
        subst h
        exact List.mem_cons_self _ _
      | removeDisabled st =>
        simp only [Option.some.injEq] at h
        subst h
        exact List.mem_cons_self _ _

/-- C4. For a select that `protectSelectElements` has just marked and any finite
sequence of events, those of the page's own code (`internal`) followed by those of
other code (`external`), each event a mutation of `disabled` or a delivery of the
pending notifications. The callback reads the stack text inside itself
(prevent-autofill.js 45), so the text it tests holds its own frames, whoever made
the mutation; the theorem is for texts that hold none of the four allow-listed
names. Then (1) once the pending notifications are delivered (two deliveries
suffice) no record is pending and the select is not disabled; (2) whenever the
select is disabled at the end of the sequence, the very last event applied is a
mutation that set `disabled` and its notification is still pending; in a sequence
with an external part that event is the last one of the external part. -/
theorem guard_sequence (e0 : Element) (stack0 : Option String)
    (internal external : List GuardEvent) (rs1 rs2 : Option String)
    (hobs : e0.observers = []) (hm : e0.hasAttribute "data-protected" = false)
    (hstack : ∀ v st, GuardEvent.setDisabled v st ∈ internal ++ external →
      isInternalCall st = false) :
    (((guardRun (protectSelect e0 stack0, []) (internal ++ external)).1.notify rs1).1.notify
      rs2).1.pending = [] ∧
    (((guardRun (protectSelect e0 stack0, []) (internal ++ external)).1.notify rs1).1.notify
      rs2).1.hasAttribute "disabled" = false ∧
    ((guardRun (protectSelect e0 stack0, []) (internal ++ external)).1.hasAttribute "disabled"
        = true →
      ∃ v st, (internal ++ external).getLast? = some (.setDisabled v st) ∧
        ⟨"disabled", st⟩ ∈
          (guardRun (protectSelect e0 stack0, []) (internal ++ external)).1.pending ∧
        (external ≠ [] → external.getLast? = some (.setDisabled v st))) := by
  obtain ⟨h1, h2⟩ := protectSelect_fresh e0 stack0 hobs hm
  obtain ⟨q, hq, hinv⟩ :=
    guardRun_invariant (protectSelect e0 stack0) [] _ h1 h2 (internal ++ external)
  obtain ⟨hp, hfin⟩ := notify_twice _ q rs1 rs2 hq
  have hpend : (guardRun (protectSelect e0 stack0, []) (internal ++ external)).1.pending = q := by
    simp [Element.pending, hq]
  have hext : ∀ v st, lastMutation (internal ++ external) = some (.setDisabled v st) →
      isInternalCall st = false :=
    fun v st h => hstack v st (lastMutation_mem _ _ h)
  refine ⟨hp, ?_, ?_⟩
  · by_contra hd
    rw [Bool.not_eq_false] at hd
    obtain ⟨hd1, hx⟩ := hfin hd
    obtain ⟨v, st, hl, hc⟩ := hinv hd1
    have hi := hext v st hl
    rcases hc with hc | ⟨-, hc⟩
    · rw [hi] at hc
      exact absurd hc (by decide)
    · have hall : ∀ r ∈ q, isExternalDisable r = false := by
        simpa using hx
      have h3 := isInternalCall_of_not_external st (hall _ hc)
      rw [hi] at h3
      exact absurd h3 (by decide)
  · intro hd
    obtain ⟨v, st, hl, hc⟩ := hinv hd
    have hi := hext v st hl
    rcases hc with hc | ⟨hlast, hmem⟩
    · rw [hi] at hc
      exact absurd hc (by decide)
    · refine ⟨v, st, hlast, by rw [hpend]; exact hmem, ?_⟩
      intro hne
      rw [List.getLast?_append_of_ne_nil _ hne] at hlast
      exact hlast

theorem sampleEvents_stack (v : String) (st : Option String)
    (h : GuardEvent.setDisabled v st ∈ internalEvents ++ externalEvents) :
    isInternalCall st = false := by
  simp only [internalEvents, externalEvents, List.cons_append, List.nil_append, List.mem_cons,
    List.mem_singleton, GuardEvent.setDisabled.injEq, List.not_mem_nil, or_false, false_or,
    reduceCtorEq] at h
  rcases h with ⟨-, rfl⟩ | ⟨-, rfl⟩ <;> decide

/-- Witness for C4: the page's own code sets `disabled` and the notification is
delivered, then other code sets it. The select is disabled while the record of the
external mutation is pending, and not once the notifications are delivered. -/
theorem guard_sequence_witness :
    (((guardRun (protectSelect disabledSelect none, [])
        (internalEvents ++ externalEvents)).1.notify none).1.notify none).1.pending = [] ∧
    (((guardRun (protectSelect disabledSelect none, [])
        (internalEvents ++ externalEvents)).1.notify none).1.notify none).1.hasAttribute
      "disabled" = false ∧
    (guardRun (protectSelect disabledSelect none, [])
        (internalEvents ++ externalEvents)).1.hasAttribute "disabled" = true ∧
    (∃ v st, (internalEvents ++ externalEvents).getLast? = some (.setDisabled v st) ∧
      ⟨"disabled", st⟩ ∈ (guardRun (protectSelect disabledSelect none, [])
        (internalEvents ++ externalEvents)).1.pending ∧
      (externalEvents ≠ [] → externalEvents.getLast? = some (.setDisabled v st))) :=
  ⟨(guard_sequence disabledSelect none internalEvents externalEvents none none rfl (by decide)
      sampleEvents_stack).1,
   (guard_sequence disabledSelect none internalEvents externalEvents none none rfl (by decide)
      sampleEvents_stack).2.1,
   by decide,
   (guard_sequence disabledSelect none internalEvents externalEvents none none rfl (by decide)
      sampleEvents_stack).2.2 (by decide)⟩

/-! ### `task-form-fix.js`: the routine run twice -/

theorem listeners_setDisabled (e : Element) (value : Bool) (stack : Option String) :
    (e.setDisabled value stack).listeners = e.listeners := by
  unfold Element.setDisabled
  split
  · rfl
  · exact listeners_removeAttribute _ _ _

theorem listeners_assignDisabled (e : Element) (value : Bool) (stack : Option String) :
    (e.assignDisabled value stack).listeners = e.listeners := by
  unfold Element.assignDisabled
  split
  · exact listeners_setDisabled _ _ _
  · rfl

/-- C6 (the code departs from the claim). Every run of `initializeTaskFormSelects`
registers a new click listener and a new focus listener on each select it finds,
so the state after two runs differs from the state after one, and after two runs
a click on `id_client` runs two handlers and writes two messages, not one. -/
theorem initializeTaskFormSelects_twice :
    (∀ (e : Element) (stack stack2 : Option String),
      (initTaskSelect (initTaskSelect e stack) stack2).listeners =
        (initTaskSelect e stack).listeners ++
          [⟨"click", .taskClick, false⟩, ⟨"focus", .taskFocus, false⟩]) ∧
    initializeTaskFormSelects (initializeTaskFormSelects taskPage none) none ≠
      Page.print (initializeTaskFormSelects taskPage none) .log
        "Task form select elements initialized" ∧
    ((initializeTaskFormSelects taskPage none).dispatch [0, 0] "click" none).console =
      (initializeTaskFormSelects taskPage none).console ++
        [⟨.log, "id_client clicked, disabled=false"⟩] ∧
    ((initializeTaskFormSelects (initializeTaskFormSelects taskPage none) none).dispatch
        [0, 0] "click" none).console =
      (initializeTaskFormSelects (initializeTaskFormSelects taskPage none) none).console ++
        [⟨.log, "id_client clicked, disabled=false"⟩,
         ⟨.log, "id_client clicked, disabled=false"⟩] := by
  refine ⟨?_, by decide, by decide, by decide⟩
  intro e stack stack2
  simp [initTaskSelect, Element.addEventListener, listeners_assignDisabled]

/-! ### Lookups, positions and replacement in the document -/

theorem elemAt_nil (q : Path) : Dom.elemAt .nil q = none := by
  cases q <;> rfl

theorem elemAt_empty (d : Dom) : d.elemAt [] = none := by
  cases d <;> rfl

theorem elemAt_here (el : Element) (ch nx : Dom) : (Dom.node el ch nx).elemAt [0] = some el := rfl

theorem elemAt_child (el : Element) (ch nx : Dom) (j : Nat) (r : Path) :
    (Dom.node el ch nx).elemAt (0 :: j :: r) = ch.elemAt (j :: r) := rfl

theorem elemAt_next (el : Element) (ch nx : Dom) (i : Nat) (r : Path) :
    (Dom.node el ch nx).elemAt ((i + 1) :: r) = nx.elemAt (i :: r) := rfl

theorem elemAt_modifyAt (f : Element → Element) (d : Dom) :
    ∀ (p q : Path), (Dom.modifyAt f d p).elemAt q =
      if q = p then (d.elemAt q).map f else d.elemAt q := by
  induction d with
  | nil =>
    intro p q
    have : Dom.modifyAt f .nil p = .nil := by cases p <;> rfl
    simp [this, elemAt_nil]
  | node el ch nx ih1 ih2 =>
    intro p q
    rcases p with _ | ⟨_ | i, _ | ⟨j, r⟩⟩
    · simp only [Dom.modifyAt]
      by_cases hq : q = []
      · simp [hq, elemAt_empty]
      · simp [hq]
    · rcases q with _ | ⟨_ | i2, _ | ⟨j2, r2⟩⟩ <;>
        simp [Dom.modifyAt, elemAt_empty, elemAt_here, elemAt_child, elemAt_next]
    · rcases q with _ | ⟨_ | i2, _ | ⟨j2, r2⟩⟩
      · simp [Dom.modifyAt, elemAt_empty]
      · simp [Dom.modifyAt, elemAt_here]
      · simp only [Dom.modifyAt, elemAt_child, ih1]
        simp
      · simp [Dom.modifyAt, elemAt_next]
      · simp [Dom.modifyAt, elemAt_next]
    · rcases q with _ | ⟨_ | i2, _ | ⟨j2, r2⟩⟩
      · simp [Dom.modifyAt, elemAt_empty]
      · simp [Dom.modifyAt, elemAt_here]
      · simp [Dom.modifyAt, elemAt_child]
      · simp only [Dom.modifyAt, elemAt_next, ih2]
        simp
      · simp only [Dom.modifyAt, elemAt_next, ih2]
        simp
    · rcases q with _ | ⟨_ | i2, _ | ⟨j2, r2⟩⟩
      · simp [Dom.modifyAt, elemAt_empty]
      · simp [Dom.modifyAt, elemAt_here]
      · simp [Dom.modifyAt, elemAt_child]
      · simp only [Dom.modifyAt, elemAt_next, ih2]
        simp
      · simp only [Dom.modifyAt, elemAt_next, ih2]
        simp

theorem findFirst_some (sel : Element → Bool) (d : Dom) :
    ∀ (p : Path), d.findFirst sel = some p → ∃ e, d.elemAt p = some e ∧ sel e = true := by
  induction d with
  | nil => intro p h; simp [Dom.findFirst] at h
  | node el ch nx ih1 ih2 =>
    intro p h
    simp only [Dom.findFirst] at h
    split at h
    · rename_i hs
      cases h
      exact ⟨el, rfl, hs⟩
    · split at h
      · rename_i p1 h1
        cases h
        obtain ⟨e, he, hs⟩ := ih1 p1 h1
        rcases p1 with _ | ⟨j, r⟩
        · rw [elemAt_empty] at he
          cases he
        · exact ⟨e, by rw [elemAt_child]; exact he, hs⟩
      · split at h
        · rename_i i r h2
          cases h
          obtain ⟨e, he, hs⟩ := ih2 (i :: r) h2
          exact ⟨e, by rw [elemAt_next]; exact he, hs⟩
        · cases h

theorem getElementById_some (d : Dom) (id : String) (p : Path)
    (h : d.getElementById id = some p) :
    ∃ e, d.elemAt p = some e ∧ e.getAttribute "id" = some id := by
  obtain ⟨e, he, hs⟩ := findFirst_some _ d p h
  exact ⟨e, he, by simpa using hs⟩

theorem getElementById_inj (d : Dom) (id1 id2 : String) (p : Path)
    (h1 : d.getElementById id1 = some p) (h2 : d.getElementById id2 = some p) : id1 = id2 := by
  obtain ⟨e1, he1, ha1⟩ := getElementById_some d id1 p h1
  obtain ⟨e2, he2, ha2⟩ := getElementById_some d id2 p h2
  rw [he1] at he2
  cases he2
  rw [ha1] at ha2
  exact Option.some.inj ha2

/-! ### `task-form-fix.js`: which elements the routine touches -/

theorem elemAt_initTaskSelects (stack : Option String) (paths : List (Option Path)) :
    ∀ (d : Dom) (q : Path), (initTaskSelects stack d paths).elemAt q =
      (d.elemAt q).map (fun e => (fun x => initTaskSelect x stack)^[paths.count (some q)] e) := by
  induction paths with
  | nil => intro d q; simp [initTaskSelects]
  | cons a rest ih =>
    intro d q
    cases a with
    | none =>
      simp only [initTaskSelects, ih]
      have : (none :: rest).count (some q) = rest.count (some q) := by
        simp [List.count_cons]
      rw [this]
    | some p =>
      simp only [initTaskSelects, ih, elemAt_modifyAt]
      by_cases hq : q = p
      · subst hq
        simp only [if_true, List.count_cons_self, Function.iterate_succ_apply, Option.map_map]
        rfl
      · have : (some p :: rest).count (some q) = rest.count (some q) := by
          rw [List.count_cons_of_ne]
          intro h
          exact hq (Option.some.inj h)
        simp only [hq, if_false, this]

theorem count_taskForm_lookups (d : Dom) (q : Path) :
    (taskFormIds.map d.getElementById).count (some q) =
      if some q ∈ taskFormIds.map d.getElementById then 1 else 0 := by
  have key : ∀ id1 id2 : String, id1 ≠ id2 →
      ¬ (d.getElementById id1 = some q ∧ d.getElementById id2 = some q) :=
    fun id1 id2 hne h => hne (getElementById_inj d id1 id2 q h.1 h.2)
  have k12 := key "id_client" "id_assigned_to" (by decide)
  have k13 := key "id_client" "id_status" (by decide)
  have k14 := key "id_client" "id_priority" (by decide)
  have k23 := key "id_assigned_to" "id_status" (by decide)
  have k24 := key "id_assigned_to" "id_priority" (by decide)
  have k34 := key "id_status" "id_priority" (by decide)
  simp only [taskFormIds, List.map_cons, List.map_nil, List.count_cons, List.count_nil,
    List.mem_cons, List.not_mem_nil, or_false, beq_iff_eq]
  by_cases h1 : d.getElementById "id_client" = some q <;>
  by_cases h2 : d.getElementById "id_assigned_to" = some q <;>
  by_cases h3 : d.getElementById "id_status" = some q <;>
  by_cases h4 : d.getElementById "id_priority" = some q <;>
  simp_all [eq_comm]

/-! ### Absent elements -/

theorem modifyAt_modifyAt (f g : Element → Element) (d : Dom) :
    ∀ p : Path, (d.modifyAt f p).modifyAt g p = d.modifyAt (fun e => g (f e)) p := by
  induction d with
  | nil => intro p; cases p <;> rfl
  | node el ch nx ih1 ih2 =>
    intro p
    rcases p with _ | ⟨_ | i, _ | ⟨j, r⟩⟩
    · rfl
    · rfl
    · simp only [Dom.modifyAt, ih1]
    · simp only [Dom.modifyAt, ih2]
    · simp only [Dom.modifyAt, ih2]

theorem initTaskSelectEntry_ok (stack : Option String) (d : Dom) (select : Option Path) :
    initTaskSelectEntry stack d select = .ok (initTaskSelects stack d [select]) := by
  cases select with
  | none => rfl
  | some p =>
    simp only [initTaskSelectEntry, Dom.updateRef, initTaskSelects, modifyAt_modifyAt]
    rfl

theorem initTaskSelectEntries_ok (stack : Option String) (refs : List (Option Path)) :
    ∀ d : Dom, initTaskSelectEntries stack d refs = .ok (initTaskSelects stack d refs) := by
  induction refs with
  | nil => intro d; rfl
  | cons select rest ih =>
    intro d
    simp only [initTaskSelectEntries, initTaskSelectEntry_ok, ih]
    cases select <;> rfl

theorem attrs_assignDisabled (e : Element) (value : Bool) (stack : Option String)
    (h : e.reflectsDisabled = false) : (e.assignDisabled value stack).attrs = e.attrs := by
  simp [Element.assignDisabled, h]

/-- C10 (amended). `initializeTaskFormSelects` never raises an error: the guard of
line 17 keeps every statement away from `null`. It replaces exactly the elements
found under the four ids by their processed form, leaves every other element as it
was and writes its closing message; with all four absent the document is unchanged.
Processing an element adds the two listeners and clears `disabled` where the
element is a form control; on another element the attributes stay. The
transaction-modal bootstrap, when its element is absent, completes whether or not
`Modal` is defined and builds nothing, but writes the message "Transaction form
modal element not found on this page"; when the element is present it builds one
`Modal` on it, and raises ReferenceError when `Modal` or `modalOptions` is not
defined. The chart renderer, with both canvases absent, completes whatever globals
are defined and changes nothing; for a canvas that is present it builds one chart
from the arrays, for an absent one it builds nothing and reads no global. -/
theorem absent_elements_skipped :
    (∀ (page : Page) (stack : Option String),
      runInitializeTaskFormSelects page stack = .ok (initializeTaskFormSelects page stack) ∧
      initializeTaskFormSelects page stack =
        { page with
          dom := (initializeTaskFormSelects page stack).dom
          console := page.console ++ [⟨.log, "Task form select elements initialized"⟩] } ∧
      ∀ q : Path, (initializeTaskFormSelects page stack).dom.elemAt q =
        if some q ∈ taskFormIds.map page.dom.getElementById then
          (page.dom.elemAt q).map (fun e => initTaskSelect e stack)
        else page.dom.elemAt q) ∧
    (∀ (e : Element) (stack : Option String),
      (initTaskSelect e stack).listeners =
        e.listeners ++ [⟨"click", .taskClick, false⟩, ⟨"focus", .taskFocus, false⟩] ∧
      (e.reflectsDisabled = true → (initTaskSelect e stack).hasAttribute "disabled" = false) ∧
      (e.reflectsDisabled = false → (initTaskSelect e stack).attrs = e.attrs)) ∧
    (∀ (page : Page) (stack : Option String),
      (∀ id ∈ taskFormIds, page.dom.getElementById id = none) →
      runInitializeTaskFormSelects page stack =
        .ok (Page.print page .log "Task form select elements initialized")) ∧
    (∀ (page : Page) (modalLoaded : Bool),
      page.dom.getElementById "transaction-form-modal" = none →
      transactionModalInit page modalLoaded =
        .ok (Page.print page .log "Transaction form modal element not found on this page")) ∧
    (∀ (page : Page) (target : Path),
      page.dom.getElementById "transaction-form-modal" = some target →
      transactionModalInit page true =
        .ok (Page.print
          { page with
            widgets := page.widgets ++ [.modal target]
            windowProps := page.windowProps ++ ["transactionFormModal", "fillThisForm"] }
          .log "Transaction form modal initialized successfully") ∧
      transactionModalInit page false = .error .ReferenceError) ∧
    (∀ (page : Page) (g : ChartGlobals),
      page.dom.getElementById "contractTypeChart" = none →
      page.dom.getElementById "contractStatusChart" = none →
      contractDashboardInit page g = .ok page) ∧
    (∀ (page : Page) (g : ChartGlobals) (target : Path) (labels : List String)
        (data : List Int),
      page.dom.getElementById "contractTypeChart" = none →
      page.dom.getElementById "contractStatusChart" = some target →
      g.chart = true → g.contractStatusLabels = some labels → g.contractStatusData = some data →
      contractDashboardInit page g =
        .ok { page with widgets := page.widgets ++ [.chart target "bar" labels data] }) ∧
    (∀ (page : Page) (g : ChartGlobals) (target : Path) (labels : List String)
        (data : List Int),
      page.dom.getElementById "contractTypeChart" = some target →
      page.dom.getElementById "contractStatusChart" = none →
      g.chart = true → g.contractTypeLabels = some labels → g.contractTypeData = some data →
      contractDashboardInit page g =
        .ok { page with widgets := page.widgets ++ [.chart target "doughnut" labels data] }) ∧
    (∀ (page : Page) (typeLabels statusLabels : List String) (typeData statusData : List Int),
      contractDashboardInit page
          ⟨true, some typeLabels, some typeData, some statusLabels, some statusData⟩ =
        .ok { page with
          widgets := page.widgets ++
            ((page.dom.getElementById "contractTypeChart").map (fun target =>
              Widget.chart target "doughnut" typeLabels typeData)).toList ++
            ((page.dom.getElementById "contractStatusChart").map (fun target =>
              Widget.chart target "bar" statusLabels statusData)).toList }) := by
  refine ⟨?_, ?_, ?_, ?_, ?_, ?_, ?_, ?_, ?_⟩
  · intro page stack
    refine ⟨?_, rfl, ?_⟩
    · simp only [runInitializeTaskFormSelects, initTaskSelectEntries_ok,
        initializeTaskFormSelects]
    · intro q
      have h := elemAt_initTaskSelects stack (taskFormIds.map page.dom.getElementById) page.dom q
      rw [count_taskForm_lookups] at h
      simp only [initializeTaskFormSelects, Page.print]
      rw [h]
      split
      · rfl
      · simp
  · intro e stack
    refine ⟨?_, ?_, ?_⟩
    · simp [initTaskSelect, Element.addEventListener, listeners_assignDisabled]
    · intro hr
      have h2 : (e.assignDisabled false stack).hasAttribute "disabled" = false := by
        simp only [Element.assignDisabled, hr, if_true, Element.setDisabled,
          Bool.false_eq_true, if_false]
        exact hasAttribute_removeAttribute_self _ _ _
      simpa [initTaskSelect, Element.addEventListener, Element.hasAttribute] using h2
    · intro hr
      simp [initTaskSelect, Element.addEventListener, attrs_assignDisabled e false stack hr]
  · intro page stack habs
    have h1 := habs "id_client" (by simp [taskFormIds])
    have h2 := habs "id_assigned_to" (by simp [taskFormIds])
    have h3 := habs "id_status" (by simp [taskFormIds])
    have h4 := habs "id_priority" (by simp [taskFormIds])
    simp [runInitializeTaskFormSelects, initTaskSelectEntries_ok, taskFormIds, h1, h2, h3, h4,
      initTaskSelects]
  · intro page modalLoaded h
    simp [transactionModalInit, h]
  · intro page target h
    simp [transactionModalInit, h]
  · intro page g h1 h2
    simp [contractDashboardInit, contractTypeChartInit, contractStatusChartInit, h1, h2]
  · intro page g target labels data h1 h2 hc hl hd
    simp [contractDashboardInit, contractTypeChartInit, contractStatusChartInit, h1, h2, hc, hl,
      hd]
  · intro page g target labels data h1 h2 hc hl hd
    simp [contractDashboardInit, contractTypeChartInit, contractStatusChartInit, h1, h2, hc, hl,
      hd]
  · intro page typeLabels statusLabels typeData statusData
    simp only [contractDashboardInit, contractStatusChartInit, contractTypeChartInit]
    cases h1 : page.dom.getElementById "contractTypeChart" <;>
      cases h2 : page.dom.getElementById "contractStatusChart" <;> simp [h2]

/-- Witness for C10 (amended): the empty document, the task form with two of the
four selects, a page whose `id_client` is a `div`, and the dashboard page with the
modal and one of the two canvases. -/
theorem absent_elements_skipped_witness :
    runInitializeTaskFormSelects emptyPage none =
      .ok (Page.print emptyPage .log "Task form select elements initialized") ∧
    runInitializeTaskFormSelects taskPage none = .ok (initializeTaskFormSelects taskPage none) ∧
    (initializeTaskFormSelects taskPage none).dom.elemAt [0, 1] =
      some (initTaskSelect plainSelect none) ∧
    (initializeTaskFormSelects taskPage none).dom.elemAt [0] = taskPage.dom.elemAt [0] ∧
    (initTaskSelect disabledSelect none).hasAttribute "disabled" = false ∧
    (initTaskSelect ⟨"div", [("id", "id_client"), ("disabled", "")], [], []⟩ none).attrs =
      [("id", "id_client"), ("disabled", "")] ∧
    (initializeTaskFormSelects divPage none).dom.elemAt [0] =
      some ⟨"div", [("id", "id_client"), ("disabled", "")],
        [⟨"click", .taskClick, false⟩, ⟨"focus", .taskFocus, false⟩], []⟩ ∧
    transactionModalInit emptyPage false =
      .ok (Page.print emptyPage .log
        "Transaction form modal element not found on this page") ∧
    transactionModalInit dashboardPage true =
      .ok (Page.print
        { dashboardPage with
          widgets := [.modal [0]]
          windowProps := ["transactionFormModal", "fillThisForm"] }
        .log "Transaction form modal initialized successfully") ∧
    contractDashboardInit emptyPage noGlobals = .ok emptyPage ∧
    contractDashboardInit dashboardPage sampleGlobals =
      .ok { dashboardPage with widgets := [.chart [1] "bar" ["Draft", "Signed"] [2, 2]] } :=
  ⟨absent_elements_skipped.2.2.1 emptyPage none (by decide),
   (absent_elements_skipped.1 taskPage none).1,
   ((absent_elements_skipped.1 taskPage none).2.2 [0, 1]).trans (by decide),
   ((absent_elements_skipped.1 taskPage none).2.2 [0]).trans (by decide),
   (absent_elements_skipped.2.1 disabledSelect none).2.1 (by decide),
   (absent_elements_skipped.2.1 ⟨"div", [("id", "id_client"), ("disabled", "")], [], []⟩
      none).2.2 (by decide),
   ((absent_elements_skipped.1 divPage none).2.2 [0]).trans (by decide),
   absent_elements_skipped.2.2.2.1 emptyPage false (by decide),
   (absent_elements_skipped.2.2.2.2.1 dashboardPage [0] (by decide)).1,
   absent_elements_skipped.2.2.2.2.2.1 emptyPage noGlobals (by decide) (by decide),
   absent_elements_skipped.2.2.2.2.2.2.1 dashboardPage sampleGlobals [1] ["Draft", "Signed"]
     [2, 2] (by decide) (by decide) rfl rfl rfl⟩

/-- Counterexample to C10 as stated: with the element `transaction-form-modal`
absent the bootstrap is not silent, it writes a message to the console, whether
`Modal` is defined or not. -/
theorem transactionModalInit_not_silent :
    emptyPage.dom.getElementById "transaction-form-modal" = none ∧
    transactionModalInit emptyPage true ≠ .ok emptyPage ∧
    transactionModalInit emptyPage true =
      .ok { emptyPage with
        console := [⟨.log, "Transaction form modal element not found on this page"⟩] } ∧
    transactionModalInit emptyPage false =
      .ok { emptyPage with
        console := [⟨.log, "Transaction form modal element not found on this page"⟩] } := by
  decide

/-! ### `client_dashboard.js`: the row that is removed -/

theorem prefix_dropLast_of_ne (q p : Path) (h : q <+: p) (hne : q ≠ p) : q <+: p.dropLast := by
  obtain ⟨t, rfl⟩ := h
  have ht : t ≠ [] := by
    rintro rfl
    exact hne (by simp)
  rw [List.dropLast_append_of_ne_nil _ ht]
  exact List.prefix_append _ _

theorem closestUp_some (d : Dom) (sel : Element → Bool) :
    ∀ (n : Nat) (p q : Path), d.closestUp sel n p = some q →
      q <+: p ∧ (∃ e, d.elemAt q = some e ∧ sel e = true) ∧
      ∀ q2, q <+: q2 → q2 <+: p → q2 ≠ q → ∀ e, d.elemAt q2 = some e → sel e = false := by
  intro n
  induction n with
  | zero => intro p q h; simp [Dom.closestUp] at h
  | succ n ih =>
    intro p q h
    simp only [Dom.closestUp] at h
    cases he : d.elemAt p with
    | none => simp [he] at h
    | some e =>
      simp only [he] at h
      by_cases hs : sel e = true
      · simp only [hs, if_true, Option.some.injEq] at h
        subst h
        refine ⟨List.prefix_refl _, ⟨e, he, hs⟩, ?_⟩
        intro q2 h1 h2 h3
        exact absurd (List.IsPrefix.eq_of_length_le h2 h1.length_le) h3
      · simp only [hs, if_false] at h
        obtain ⟨h1, h2, h3⟩ := ih p.dropLast q h
        refine ⟨h1.trans (List.dropLast_prefix p), h2, ?_⟩
        intro q2 hq1 hq2 hq3 e2 he2
        by_cases hp : q2 = p
        · subst hp
          rw [he] at he2
          cases he2
          simpa using hs
        · exact h3 q2 hq1 (prefix_dropLast_of_ne q2 p hq2 hp) hq3 e2 he2

theorem count_removeAt (sel : Element → Bool) (d : Dom) :
    ∀ (q : Path) (el : Element) (ch : Dom), d.nodeAt q = some (el, ch) →
      (d.removeAt q).count sel + ((if sel el then 1 else 0) + ch.count sel) = d.count sel := by
  induction d with
  | nil => intro q el ch h; cases q <;> simp [Dom.nodeAt] at h
  | node el0 ch0 nx0 ih1 ih2 =>
    intro q el ch h
    rcases q with _ | ⟨_ | i, _ | ⟨j, r⟩⟩
    · simp [Dom.nodeAt] at h
    · simp only [Dom.nodeAt, Option.some.injEq, Prod.mk.injEq] at h
      obtain ⟨rfl, rfl⟩ := h
      simp only [Dom.removeAt, Dom.count]
      omega
    · simp only [Dom.nodeAt] at h
      have := ih1 (j :: r) el ch h
      simp only [Dom.removeAt, Dom.count]
      omega
    · simp only [Dom.nodeAt] at h
      have := ih2 [i] el ch h
      simp only [Dom.removeAt, Dom.count]
      omega
    · simp only [Dom.nodeAt] at h
      have := ih2 (i :: j :: r) el ch h
      simp only [Dom.removeAt, Dom.count]
      omega

/-- C1 (amended). When the response body has a truthy `success` and the button
has an enclosing `<tr>`, the handler detaches exactly one node: the nearest
enclosing `<tr>` of the button, with the elements inside it; everything else
on the page stays as it was, and the rows that leave the document are that row and
the rows nested in it. When `success` is truthy and no `<tr>` encloses the button,
the TypeError of `closest('tr').remove()` is caught and logged and the document
stays as it was. When `success` is falsy the page is unchanged. When the request
fails, the body is not JSON, or `data.success` cannot be read, the error is logged
with `console.error` and nothing else changes: no row is removed. -/
theorem deleteDocumentResponse_rows (page : Page) (button : Path) :
    (∀ (data success : JSValue) (row : Path),
        data.getProp "success" = .ok success → success.toBoolean = true →
        page.dom.closest button isRow = some row →
        deleteDocumentResponse page button (.json data) =
          { page with dom := page.dom.removeAt row } ∧
        row <+: button ∧
        (∀ q, row <+: q → q <+: button → q ≠ row →
          ∀ e, page.dom.elemAt q = some e → isRow e = false) ∧
        ∃ el ch, page.dom.nodeAt row = some (el, ch) ∧ el.localName = "tr" ∧
          (page.dom.removeAt row).count isRow + 1 + ch.count isRow = page.dom.count isRow) ∧
    (∀ (data success : JSValue) (b : Element),
        data.getProp "success" = .ok success → success.toBoolean = true →
        page.dom.elemAt button = some b → page.dom.closest button isRow = none →
        deleteDocumentResponse page button (.json data) =
          { page with console := page.console ++ [⟨.error, "Error: TypeError"⟩] }) ∧
    (∀ (data success : JSValue),
        data.getProp "success" = .ok success → success.toBoolean = false →
        deleteDocumentResponse page button (.json data) = page) ∧
    deleteDocumentResponse page button .networkError =
      { page with console := page.console ++ [⟨.error, "Error: TypeError"⟩] } ∧
    deleteDocumentResponse page button .invalidJson =
      { page with console := page.console ++ [⟨.error, "Error: SyntaxError"⟩] } ∧
    (∀ (data : JSValue) (err : JSError), data.getProp "success" = .error err →
        deleteDocumentResponse page button (.json data) =
          { page with console := page.console ++ [⟨.error, "Error: " ++ err.name⟩] }) := by
  refine ⟨?_, ?_, ?_, rfl, rfl, ?_⟩
  · intro data success row hp ht hc
    obtain ⟨h1, ⟨e, he, hs⟩, h3⟩ := closestUp_some page.dom isRow _ button row hc
    refine ⟨by simp [deleteDocumentResponse, hp, ht, hc], h1, h3, ?_⟩
    simp only [Dom.elemAt, Option.map_eq_some'] at he
    obtain ⟨⟨el, ch⟩, hn, hel⟩ := he
    simp only at hel
    subst hel
    refine ⟨el, ch, hn, by simpa [isRow] using hs, ?_⟩
    have hcount := count_removeAt isRow page.dom row el ch hn
    rw [if_pos hs] at hcount
    omega
  · intro data success b hp ht _ hc
    simp [deleteDocumentResponse, hp, ht, hc, Page.logError, Page.print, JSError.name]
  · intro data success hp ht
    simp [deleteDocumentResponse, hp, ht]
  · intro data err hp
    simp [deleteDocumentResponse, hp, Page.logError, Page.print]

/-- Witness for C1 (amended): the table page. With `{"success": true}` the second
row, the one around the button, is removed and the first row stays; with
`{"success": false}` nothing changes; with the body `null` the TypeError is logged
and the document stays; on the card page, where no row encloses the button, a
success response removes nothing and the TypeError is logged. -/
theorem deleteDocumentResponse_rows_witness :
    (deleteDocumentResponse tablePage [0, 1, 0, 0] (.json successBody) =
        { tablePage with dom := tablePage.dom.removeAt [0, 1] } ∧
      (tablePage.dom.removeAt [0, 1]).count isRow = 1 ∧
      (tablePage.dom.removeAt [0, 1]).elemAt [0, 0] = some ⟨"tr", [("id", "row-7")], [], []⟩ ∧
      (tablePage.dom.removeAt [0, 1]).elemAt [0, 1] = none) ∧
    deleteDocumentResponse tablePage [0, 1, 0, 0] (.json failureBody) = tablePage ∧
    deleteDocumentResponse tablePage [0, 1, 0, 0] (.json .null) =
      { tablePage with console := [⟨.error, "Error: TypeError"⟩] } ∧
    deleteDocumentResponse cardPage [0, 0] (.json successBody) =
      { cardPage with console := [⟨.error, "Error: TypeError"⟩] } :=
  ⟨⟨((deleteDocumentResponse_rows tablePage [0, 1, 0, 0]).1 successBody (.bool true) [0, 1]
      rfl rfl (by decide)).1, by decide, by decide, by decide⟩,
   (deleteDocumentResponse_rows tablePage [0, 1, 0, 0]).2.2.1 failureBody (.bool false) rfl rfl,
   (deleteDocumentResponse_rows tablePage [0, 1, 0, 0]).2.2.2.2.2 .null .TypeError rfl,
   (deleteDocumentResponse_rows cardPage [0, 0]).2.1 successBody (.bool true) deleteButton
     rfl rfl (by decide) (by decide)⟩

/-- Counterexample to C1 as stated: a `.delete-document` button with no `<tr>`
around it, on a page with a well-formed CSRF cookie. The prompt is accepted and
the request is issued; the server reports success; no row is removed: the
document, which has one row, is unchanged, and only the console gains the caught
TypeError. -/
theorem deleteDocumentResponse_no_row :
    cardPage.dom.elemAt [0, 0] = some deleteButton ∧
    cardPage.dom.closest [0, 0] isRow = none ∧
    cardPage.dom.count isRow = 1 ∧
    deleteDocumentClick cardPage [0, 0] true =
      .ok { cardPage with
        requests :=
          [{ method := "POST",
             url := "/client/documents/42/delete/",
             headers := [("X-Requested-With", some (js "XMLHttpRequest")),
               ("X-CSRFToken", some (js "tok/1"))] }] } ∧
    successBody.getProp "success" = .ok (.bool true) ∧
    deleteDocumentResponse
        { cardPage with
          requests :=
            [{ method := "POST",
               url := "/client/documents/42/delete/",
               headers := [("X-Requested-With", some (js "XMLHttpRequest")),
                 ("X-CSRFToken", some (js "tok/1"))] }] }
        [0, 0] (.json successBody) =
      { cardPage with
        requests :=
          [{ method := "POST",
             url := "/client/documents/42/delete/",
             headers := [("X-Requested-With", some (js "XMLHttpRequest")),
               ("X-CSRFToken", some (js "tok/1"))] }]
        console := [⟨.error, "Error: TypeError"⟩] } ∧
    (deleteDocumentResponse
        { cardPage with
          requests :=
            [{ method := "POST",
               url := "/client/documents/42/delete/",
               headers := [("X-Requested-With", some (js "XMLHttpRequest")),
                 ("X-CSRFToken", some (js "tok/1"))] }] }
        [0, 0] (.json successBody)).dom.count isRow = 1 := by
  refine ⟨by decide, by decide, by decide, by decide, rfl, by decide, by decide⟩

/-! ### `client_dashboard.js`: the request -/

/-- C8 (amended). When the prompt is declined the handler returns the page as it
is: no request, no change. When it is accepted and `getCookie('csrftoken')` returns
(the cookie is absent, or its value decodes), exactly one request is added: a
POST to `/client/documents/<data-document-id>/delete/` with the two headers, the
CSRF header holding the value `getCookie` returned; the document is not touched. -/
theorem deleteDocumentClick_request (page : Page) (button : Path) :
    deleteDocumentClick page button false = .ok page ∧
    (∀ (token : Option JSString),
        getCookie page.cookie (js "csrftoken") = .ok token →
        deleteDocumentClick page button true =
          .ok { page with
            requests := page.requests ++
              [{ method := "POST",
                 url := "/client/documents/" ++
                   ((page.dom.elemAt button).bind
                     (fun b => b.getAttribute "data-document-id")).getD "null" ++ "/delete/",
                 headers := [("X-Requested-With", some (js "XMLHttpRequest")),
                   ("X-CSRFToken", token)] }] }) ∧
    (∀ (b : Element) (documentId : String) (token : Option JSString),
        page.dom.elemAt button = some b →
        b.getAttribute "data-document-id" = some documentId →
        getCookie page.cookie (js "csrftoken") = .ok token →
        deleteDocumentClick page button true =
          .ok { page with
            requests := page.requests ++
              [{ method := "POST",
                 url := "/client/documents/" ++ documentId ++ "/delete/",
                 headers := [("X-Requested-With", some (js "XMLHttpRequest")),
                   ("X-CSRFToken", token)] }] }) := by
  refine ⟨by simp [deleteDocumentClick], ?_, ?_⟩
  · intro token h
    simp [deleteDocumentClick, h]
  · intro b documentId token hb hid h
    simp [deleteDocumentClick, h, hb, hid]

/-- Witness for C8 (amended): the button for document 42 on the table page, whose
cookie string holds `csrftoken=tok%2F1`; and the same click on a page without
cookies, where the CSRF header is `null`. -/
theorem deleteDocumentClick_request_witness :
    deleteDocumentClick tablePage [0, 1, 0, 0] true =
      .ok { tablePage with
        requests :=
          [{ method := "POST",
             url := "/client/documents/42/delete/",
             headers := [("X-Requested-With", some (js "XMLHttpRequest")),
               ("X-CSRFToken", some (js "tok/1"))] }] } ∧
    deleteDocumentClick { tablePage with cookie := [] } [0, 1, 0, 0] true =
      .ok { tablePage with
        cookie := []
        requests :=
          [{ method := "POST",
             url := "/client/documents/42/delete/",
             headers := [("X-Requested-With", some (js "XMLHttpRequest")),
               ("X-CSRFToken", none)] }] } :=
  ⟨(deleteDocumentClick_request tablePage [0, 1, 0, 0]).2.2 deleteButton "42" (some (js "tok/1"))
    (by decide) (by decide) (by decide),
   (deleteDocumentClick_request { tablePage with cookie := [] } [0, 1, 0, 0]).2.1 none rfl⟩

/-- Counterexample to C8 as stated: the cookie string `csrftoken=%`. The prompt is
accepted, `getCookie` raises URIError inside the listener, and no request is
issued. -/
theorem deleteDocumentClick_malformed_cookie :
    listPage.cookie = js "csrftoken=%" ∧
    listPage.dom.elemAt [0, 0, 0] = some deleteButton ∧
    getCookie listPage.cookie (js "csrftoken") = .error .URIError ∧
    deleteDocumentClick listPage [0, 0, 0] true = .error .URIError := by
  decide

/-! ### `protectSelectElements`: what a run leaves on a select -/

theorem find_setAttr (name value other : String) (attrs : List (String × String)) :
    (setAttr name value attrs).find? (fun a => a.1 = other) =
      if name = other then some (name, value) else attrs.find? (fun a => a.1 = other) := by
  induction attrs with
  | nil =>
    by_cases h : name = other <;> simp [setAttr, List.find?, h]
  | cons a rest ih =>
    simp only [setAttr]
    by_cases ha : a.1 = name
    · rw [if_pos ha]
      by_cases h : name = other
      · simp [List.find?, h]
      · have : ¬ a.1 = other := fun h2 => h (ha ▸ h2)
        simp [List.find?, h, this]
    · rw [if_neg ha]
      by_cases h3 : a.1 = other
      · have h : ¬ name = other := fun h => ha (h3.trans h.symm)
        rw [if_neg h, List.find?_cons_of_pos _ (by simpa using h3),
          List.find?_cons_of_pos _ (by simpa using h3)]
      · rw [List.find?_cons_of_neg _ (by simpa using h3),
          List.find?_cons_of_neg _ (by simpa using h3), ih]

theorem getAttribute_setAttribute (e : Element) (name value other : String)
    (stack : Option String) :
    (e.setAttribute name value stack).getAttribute other =
      if name = other then some value else e.getAttribute other := by
  simp only [Element.setAttribute, Element.queueRecord, Element.getAttribute, find_setAttr]
  split <;> rfl

theorem find_filter_ne (name other : String) (h : other ≠ name)
    (attrs : List (String × String)) :
    (attrs.filter (fun a => a.1 ≠ name)).find? (fun a => a.1 = other) =
      attrs.find? (fun a => a.1 = other) := by
  induction attrs with
  | nil => rfl
  | cons a rest ih =>
    by_cases ha : a.1 = name
    · have h3 : ¬ a.1 = other := fun h2 => h (h2.symm.trans ha)
      rw [List.filter_cons_of_neg (by simpa using ha),
        List.find?_cons_of_neg _ (by simpa using h3), ih]
    · rw [List.filter_cons_of_pos (by simpa using ha)]
      by_cases h3 : a.1 = other
      · rw [List.find?_cons_of_pos _ (by simpa using h3),
          List.find?_cons_of_pos _ (by simpa using h3)]
      · rw [List.find?_cons_of_neg _ (by simpa using h3),
          List.find?_cons_of_neg _ (by simpa using h3), ih]

theorem getAttribute_removeAttribute_of_ne (e : Element) (name other : String)
    (stack : Option String) (h : other ≠ name) :
    (e.removeAttribute name stack).getAttribute other = e.getAttribute other := by
  unfold Element.removeAttribute
  split
  · simp only [Element.queueRecord, Element.getAttribute, find_filter_ne name other h]
  · rfl

theorem elemAt_mapElements (f : Element → Element) (d : Dom) :
    ∀ q : Path, (Dom.mapElements f d).elemAt q = (d.elemAt q).map f := by
  induction d with
  | nil => intro q; simp [Dom.mapElements, elemAt_nil]
  | node el ch nx ih1 ih2 =>
    intro q
    rcases q with _ | ⟨_ | i, _ | ⟨j, r⟩⟩
    · simp [elemAt_empty]
    · simp [Dom.mapElements, elemAt_here]
    · simp [Dom.mapElements, elemAt_child, ih1]
    · simp [Dom.mapElements, elemAt_next, ih2]
    · simp [Dom.mapElements, elemAt_next, ih2]

/-- C11. After one run of `protectSelectElements`, every select of the document
that did not carry `data-protected` before (a) has no `disabled` attribute, (b)
has `data-protected` equal to `true`, and (c) has `data-disabled` equal to `true`
when it was disabled just before the run and to `false` otherwise. -/
theorem protectSelectElements_post (page : Page) (stack : Option String) (q : Path)
    (e : Element) (hq : page.dom.elemAt q = some e) (hs : e.localName = "select")
    (hm : e.hasAttribute "data-protected" = false) :
    ∃ e2, (protectSelectElements page stack).dom.elemAt q = some e2 ∧
      e2.localName = "select" ∧
      e2.hasAttribute "disabled" = false ∧
      e2.getAttribute "data-protected" = some "true" ∧
      e2.getAttribute "data-disabled" = some (if e.disabled then "true" else "false") := by
  refine ⟨protectSelect e stack, ?_, ?_, ?_, ?_, ?_⟩
  · simp [protectSelectElements, elemAt_mapElements, hq, hs]
  · rw [protectSelect_localName, hs]
  · rw [protectSelect_unmarked e stack hm, hasAttribute_setAttribute]
    have h2 : ((e.setAttribute "data-disabled" (if e.disabled then "true" else "false")
        stack).removeAttribute "disabled" stack).hasAttribute "disabled" = false :=
      hasAttribute_removeAttribute_self _ _ _
    simpa [Element.observe, Element.addEventListener, Element.hasAttribute] using h2
  · rw [protectSelect_unmarked e stack hm, getAttribute_setAttribute]
    simp
  · rw [protectSelect_unmarked e stack hm, getAttribute_setAttribute]
    have h2 : ((e.setAttribute "data-disabled" (if e.disabled then "true" else "false")
        stack).removeAttribute "disabled" stack).getAttribute "data-disabled" =
        some (if e.disabled then "true" else "false") := by
      rw [getAttribute_removeAttribute_of_ne _ _ _ _ (by decide), getAttribute_setAttribute]
      simp
    simpa [Element.observe, Element.addEventListener, Element.getAttribute] using h2

/-- Witness for C11: the task page, whose select `id_client` is rendered disabled
and whose select `id_status` is not. -/
theorem protectSelectElements_post_witness :
    (∃ e2, (protectSelectElements taskPage none).dom.elemAt [0, 0] = some e2 ∧
      e2.localName = "select" ∧
      e2.hasAttribute "disabled" = false ∧
      e2.getAttribute "data-protected" = some "true" ∧
      e2.getAttribute "data-disabled" = some "true") ∧
    (∃ e2, (protectSelectElements taskPage none).dom.elemAt [0, 1] = some e2 ∧
      e2.localName = "select" ∧
      e2.hasAttribute "disabled" = false ∧
      e2.getAttribute "data-protected" = some "true" ∧
      e2.getAttribute "data-disabled" = some "false") :=
  ⟨protectSelectElements_post taskPage none [0, 0] disabledSelect (by decide) (by decide)
      (by decide),
   protectSelectElements_post taskPage none [0, 1] plainSelect (by decide) (by decide)
      (by decide)⟩

/-! ### `form-debug.js`: the monitor run again -/

theorem monitorEach_fresh (elements : List Element) :
    ∀ index : Nat, (monitorEach index (freshSelects elements)).error = none ∧
      (monitorEach index (freshSelects elements)).selects.length = elements.length ∧
      ∀ s ∈ (monitorEach index (freshSelects elements)).selects,
        s.ownDisabled ≠ none := by
  induction elements with
  | nil => intro index; simp [freshSelects, monitorEach]
  | cons e rest ih =>
    intro index
    obtain ⟨h1, h2, h3⟩ := ih (index + 1)
    simp only [freshSelects, List.map_cons] at h1 h2 h3 ⊢
    simp only [monitorEach, defineDisabledAccessor, List.length_cons, List.mem_cons]
    refine ⟨h1, by rw [h2], ?_⟩
    rintro s (rfl | hs)
    · simp
    · exact h3 s hs

theorem monitorEach_monitored (selects : List SelectObject) :
    ∀ index : Nat, (∃ s ∈ selects, s.ownDisabled ≠ none) →
      (monitorEach index selects).error = some .TypeError := by
  induction selects with
  | nil => rintro index ⟨s, hs, -⟩; exact absurd hs (List.not_mem_nil _)
  | cons a rest ih =>
    rintro index ⟨s, hs, hown⟩
    cases ha : a.ownDisabled with
    | some i => simp [monitorEach, defineDisabledAccessor, ha]
    | none =>
      have hrest : ∃ s ∈ rest, s.ownDisabled ≠ none := by
        rcases List.mem_cons.1 hs with rfl | h
        · exact absurd ha hown
        · exact ⟨s, h, hown⟩
      simp only [monitorEach, defineDisabledAccessor, ha]
      exact ih (index + 1) hrest

/-- C13 (the code departs from the claim). A first run of `monitorSelectElements`
over selects that carry no own property ends without error and defines the
accessor on every one of them, and the getter and the setter of an instrumented
select agree with the original accessor. A second run over a document whose first
select was monitored before raises a TypeError at that select and leaves every
select as it was, a newly inserted select after it included: nothing is
instrumented by the second run. In general a run over a document that holds a
select monitored before raises a TypeError. -/
theorem monitorSelectElements_again :
    (∀ elements : List Element,
      (monitorSelectElements (freshSelects elements)).error = none ∧
      ∀ s ∈ (monitorSelectElements (freshSelects elements)).selects, s.ownDisabled ≠ none) ∧
    (∀ (s : SelectObject) (value : Bool) (stack : Option String),
      s.getDisabled = s.element.disabled ∧
      (s.setDisabled value stack).1.element = s.element.setDisabled value stack) ∧
    (∀ selects : List SelectObject, (∃ s ∈ selects, s.ownDisabled ≠ none) →
      (monitorSelectElements selects).error = some .TypeError) ∧
    (∀ (e : Element) (index : Nat) (rest : List SelectObject),
      (monitorSelectElements (⟨e, some index⟩ :: rest)).error = some .TypeError ∧
      (monitorSelectElements (⟨e, some index⟩ :: rest)).selects = ⟨e, some index⟩ :: rest) ∧
    (∀ (e : Element) (rest : List Element),
      (monitorSelectElements
        (monitorSelectElements (freshSelects (e :: rest))).selects).error = some .TypeError) ∧
    (monitorSelectElements
        ((monitorSelectElements (freshSelects [disabledSelect])).selects ++
          freshSelects [plainSelect])).error = some .TypeError ∧
    ((monitorSelectElements
        ((monitorSelectElements (freshSelects [disabledSelect])).selects ++
          freshSelects [plainSelect])).selects.map (fun s => s.ownDisabled)) =
      [some 0, none] := by
  refine ⟨?_, ?_, ?_, ?_, ?_, by decide, by decide⟩
  · intro elements
    obtain ⟨h1, -, h3⟩ := monitorEach_fresh elements 0
    exact ⟨h1, h3⟩
  · intro s value stack
    refine ⟨rfl, ?_⟩
    cases h : s.ownDisabled <;> simp [SelectObject.setDisabled, h]
  · intro selects h
    exact monitorEach_monitored selects 0 h
  · intro e index rest
    simp [monitorSelectElements, monitorEach, defineDisabledAccessor]
  · intro e rest
    simp [monitorSelectElements, monitorEach, defineDisabledAccessor, freshSelects]

/-! ### `modal-select-fix.js`: positions -/

theorem modifyBelow_nil (f : Element → Element) (p : Path) : Dom.modifyBelow f .nil p = .nil := by
  cases p <;> rfl

theorem elemAt_modifyBelow (f : Element → Element) (d : Dom) :
    ∀ (p q : Path), (Dom.modifyBelow f d p).elemAt q =
      if p ≠ [] ∧ p <+: q ∧ q ≠ p then (d.elemAt q).map f else d.elemAt q := by
  induction d with
  | nil =>
    intro p q
    simp [modifyBelow_nil, elemAt_nil]
  | node el ch nx ih1 ih2 =>
    intro p q
    rcases p with _ | ⟨_ | i, _ | ⟨j, r⟩⟩
    · simp [Dom.modifyBelow]
    · rcases q with _ | ⟨_ | i2, _ | ⟨j2, r2⟩⟩
      · simp [Dom.modifyBelow, elemAt_empty]
      · simp [Dom.modifyBelow, elemAt_here]
      · simp [Dom.modifyBelow, elemAt_child, elemAt_mapElements, List.cons_prefix_cons]
      · simp [Dom.modifyBelow, elemAt_next, List.cons_prefix_cons]
      · simp [Dom.modifyBelow, elemAt_next, List.cons_prefix_cons]
    · rcases q with _ | ⟨_ | i2, _ | ⟨j2, r2⟩⟩
      · simp [Dom.modifyBelow, elemAt_empty]
      · simp [Dom.modifyBelow, elemAt_here, List.cons_prefix_cons]
      · simp only [Dom.modifyBelow, elemAt_child, ih1]
        simp [List.cons_prefix_cons]
      · simp [Dom.modifyBelow, elemAt_next, List.cons_prefix_cons]
      · simp [Dom.modifyBelow, elemAt_next, List.cons_prefix_cons]
    · rcases q with _ | ⟨_ | i2, _ | ⟨j2, r2⟩⟩
      · simp [Dom.modifyBelow, elemAt_empty]
      · simp [Dom.modifyBelow, elemAt_here, List.cons_prefix_cons]
      · simp [Dom.modifyBelow, elemAt_child, List.cons_prefix_cons]
      · simp only [Dom.modifyBelow, elemAt_next, ih2]
        simp [List.cons_prefix_cons]
      · simp only [Dom.modifyBelow, elemAt_next, ih2]
        simp [List.cons_prefix_cons]
    · rcases q with _ | ⟨_ | i2, _ | ⟨j2, r2⟩⟩
      · simp [Dom.modifyBelow, elemAt_empty]
      · simp [Dom.modifyBelow, elemAt_here, List.cons_prefix_cons]
      · simp [Dom.modifyBelow, elemAt_child, List.cons_prefix_cons]
      · simp only [Dom.modifyBelow, elemAt_next, ih2]
        simp [List.cons_prefix_cons]
      · simp only [Dom.modifyBelow, elemAt_next, ih2]
        simp [List.cons_prefix_cons]

theorem mem_querySelectorAll (sel : Element → Bool) (d : Dom) :
    ∀ p : Path, p ∈ d.querySelectorAll sel ↔ ∃ e, d.elemAt p = some e ∧ sel e = true := by
  induction d with
  | nil => intro p; simp [Dom.querySelectorAll, elemAt_nil]
  | node el ch nx ih1 ih2 =>
    intro p
    simp only [Dom.querySelectorAll, List.mem_append, List.mem_map]
    rcases p with _ | ⟨_ | i, _ | ⟨j, r⟩⟩
    · constructor
      · rintro ((h | ⟨a, ha, h⟩) | ⟨a, ha, h⟩)
        · split at h <;> simp at h
        · simp at h
        · cases a with
          | nil =>
            obtain ⟨e, he, -⟩ := (ih2 []).1 ha
            rw [elemAt_empty] at he
            cases he
          | cons x xs => simp [shiftPath] at h
      · rintro ⟨e, he, -⟩
        rw [elemAt_empty] at he
        cases he
    · simp only [elemAt_here, Option.some.injEq, exists_eq_left']
      constructor
      · rintro ((h | ⟨a, ha, h⟩) | ⟨a, ha, h⟩)
        · by_contra hs
          simp [hs] at h
        · simp only [List.cons.injEq, true_and] at h
          subst h
          obtain ⟨e, he, -⟩ := (ih1 []).1 ha
          rw [elemAt_empty] at he
          cases he
        · cases a with
          | nil => simp [shiftPath] at h
          | cons x xs => simp [shiftPath] at h
      · intro hs
        simp [hs]
    · simp only [elemAt_child]
      constructor
      · rintro ((h | ⟨a, ha, h⟩) | ⟨a, ha, h⟩)
        · split at h <;> simp at h
        · simp only [List.cons.injEq, true_and] at h
          subst h
          exact (ih1 _).1 ha
        · cases a with
          | nil => simp [shiftPath] at h
          | cons x xs => simp [shiftPath] at h
      · intro h
        exact Or.inl (Or.inr ⟨j :: r, (ih1 _).2 h, rfl⟩)
    · simp only [elemAt_next]
      constructor
      · rintro ((h | ⟨a, ha, h⟩) | ⟨a, ha, h⟩)
        · split at h <;> simp at h
        · simp at h
        · cases a with
          | nil => simp [shiftPath] at h
          | cons x xs =>
            simp only [shiftPath, List.cons.injEq, add_left_inj] at h
            obtain ⟨rfl, rfl⟩ := h
            exact (ih2 _).1 ha
      · intro h
        exact Or.inr ⟨[i], (ih2 _).2 h, rfl⟩
    · simp only [elemAt_next]
      constructor
      · rintro ((h | ⟨a, ha, h⟩) | ⟨a, ha, h⟩)
        · split at h <;> simp at h
        · simp at h
        · cases a with
          | nil => simp [shiftPath] at h
          | cons x xs =>
            simp only [shiftPath, List.cons.injEq, add_left_inj] at h
            obtain ⟨rfl, rfl⟩ := h
            exact (ih2 _).1 ha
      · intro h
        exact Or.inr ⟨i :: j :: r, (ih2 _).2 h, rfl⟩

theorem findFirst_mapElements (sel : Element → Bool) (f : Element → Element)
    (hf : ∀ e, sel (f e) = sel e) (d : Dom) :
    (Dom.mapElements f d).findFirst sel = d.findFirst sel := by
  induction d with
  | nil => rfl
  | node el ch nx ih1 ih2 => simp only [Dom.mapElements, Dom.findFirst, hf, ih1, ih2]

theorem findFirst_modifyAt (sel : Element → Bool) (f : Element → Element)
    (hf : ∀ e, sel (f e) = sel e) (d : Dom) :
    ∀ p : Path, (Dom.modifyAt f d p).findFirst sel = d.findFirst sel := by
  induction d with
  | nil => intro p; cases p <;> rfl
  | node el ch nx ih1 ih2 =>
    intro p
    rcases p with _ | ⟨_ | i, _ | ⟨j, r⟩⟩ <;>
      simp only [Dom.modifyAt, Dom.findFirst, hf, ih1, ih2]

theorem findFirst_modifyBelow (sel : Element → Bool) (f : Element → Element)
    (hf : ∀ e, sel (f e) = sel e) (d : Dom) :
    ∀ p : Path, (Dom.modifyBelow f d p).findFirst sel = d.findFirst sel := by
  induction d with
  | nil => intro p; cases p <;> rfl
  | node el ch nx ih1 ih2 =>
    intro p
    rcases p with _ | ⟨_ | i, _ | ⟨j, r⟩⟩ <;>
      simp only [Dom.modifyBelow, Dom.findFirst, hf, ih1, ih2,
        findFirst_mapElements sel f hf]

/-! ### `modal-select-fix.js`: what the loop bodies do to one element -/

theorem localName_setAttribute (e : Element) (name value : String) (stack : Option String) :
    (e.setAttribute name value stack).localName = e.localName := rfl

theorem fixSelect_localName (e : Element) (stack : Option String) :
    (fixSelect e stack).localName = e.localName := by
  simp [fixSelect, Element.addEventListener, localName_setAttribute, localName_removeAttribute]

theorem fixSelect_getAttribute (e : Element) (stack : Option String) (other : String)
    (h1 : other ≠ "disabled") (h2 : other ≠ "data-disabled") :
    (fixSelect e stack).getAttribute other = e.getAttribute other := by
  have h3 : ((e.removeAttribute "disabled" stack).setAttribute "data-disabled" "false"
      stack).getAttribute other = e.getAttribute other := by
    rw [getAttribute_setAttribute, if_neg (fun h => h2 h.symm),
      getAttribute_removeAttribute_of_ne _ _ _ _ h1]
  simpa [fixSelect, Element.addEventListener, Element.getAttribute] using h3

theorem fixSelect_hasAttribute (e : Element) (stack : Option String) (other : String)
    (h1 : other ≠ "disabled") (h2 : other ≠ "data-disabled") :
    (fixSelect e stack).hasAttribute other = e.hasAttribute other := by
  have h3 : ((e.removeAttribute "disabled" stack).setAttribute "data-disabled" "false"
      stack).hasAttribute other = e.hasAttribute other := by
    rw [hasAttribute_setAttribute, hasAttribute_removeAttribute_of_ne _ _ _ _ h1]
    have h4 : ¬ "data-disabled" = other := fun h => h2 h.symm
    simp [h4]
  simpa [fixSelect, Element.addEventListener, Element.hasAttribute] using h3

theorem fixSelect_enabled (e : Element) (stack : Option String) :
    (fixSelect e stack).hasAttribute "disabled" = false ∧
    (fixSelect e stack).getAttribute "data-disabled" = some "false" := by
  have h3 : ((e.removeAttribute "disabled" stack).setAttribute "data-disabled" "false"
      stack).hasAttribute "disabled" = false := by
    rw [hasAttribute_setAttribute, hasAttribute_removeAttribute_self]
    decide
  have h4 : ((e.removeAttribute "disabled" stack).setAttribute "data-disabled" "false"
      stack).getAttribute "data-disabled" = some "false" := by
    rw [getAttribute_setAttribute, if_pos rfl]
  constructor
  · simpa [fixSelect, Element.addEventListener, Element.hasAttribute] using h3
  · simpa [fixSelect, Element.addEventListener, Element.getAttribute] using h4

theorem fixModal_skip (stack : Option String) (d : Dom) (p : Path)
    (h : ∀ m, d.elemAt p = some m → isSelectFixed m = true) : fixModal stack d p = d := by
  unfold fixModal
  cases hp : d.elemAt p with
  | none => rfl
  | some m => simp [h m hp]

theorem elemAt_fixModal (stack : Option String) (d : Dom) (p q : Path) (m : Element)
    (hp : d.elemAt p = some m) (hm : isSelectFixed m = false) :
    (fixModal stack d p).elemAt q =
      if q = p then (d.elemAt q).map (fun e => e.setAttribute "data-select-fixed" "true" stack)
      else if p <+: q then
        (d.elemAt q).map (fun e => if e.localName = "select" then fixSelect e stack else e)
      else d.elemAt q := by
  have hne : p ≠ [] := by
    rintro rfl
    rw [elemAt_empty] at hp
    cases hp
  simp only [fixModal, hp, hm, Bool.false_eq_true, if_false, elemAt_modifyBelow,
    elemAt_modifyAt]
  by_cases hq : q = p
  · simp [hq]
  · by_cases hpre : p <+: q
    · simp [hq, hpre, hne]
    · simp [hq, hpre]

/-! ### `modal-select-fix.js`: the loop over the modals -/

theorem getElementById_fixModal (stack : Option String) (d : Dom) (p : Path) (id : String) :
    (fixModal stack d p).getElementById id = d.getElementById id := by
  unfold fixModal
  cases hp : d.elemAt p with
  | none => rfl
  | some m =>
    simp only []
    split
    · rfl
    · unfold Dom.getElementById
      rw [findFirst_modifyBelow, findFirst_modifyAt]
      · intro e
        rw [getAttribute_setAttribute, if_neg (by decide)]
      · intro e
        by_cases hs : e.localName = "select"
        · simp only [hs, if_true]
          rw [fixSelect_getAttribute e stack "id" (by decide) (by decide)]
        · simp only [hs, if_false]

theorem getElementById_fixModals (stack : Option String) (id : String) (modals : List Path) :
    ∀ d : Dom, (modals.foldl (fixModal stack) d).getElementById id = d.getElementById id := by
  induction modals with
  | nil => intro d; rfl
  | cons p rest ih =>
    intro d
    rw [List.foldl_cons, ih, getElementById_fixModal]

/-- A select inside a modal that the loop still has to mark ends up without
`disabled` and with `data-disabled` equal to `false`, and stays so. -/
theorem fixModals_select (stack : Option String) (m q : Path) (hmq : m <+: q) (hne : q ≠ m)
    (modals : List Path) :
    ∀ d : Dom,
      (∃ e, d.elemAt q = some e ∧ e.localName = "select" ∧
        ((e.hasAttribute "disabled" = false ∧ e.getAttribute "data-disabled" = some "false") ∨
          (m ∈ modals ∧ ∃ em, d.elemAt m = some em ∧ isSelectFixed em = false))) →
      ∃ e2, (modals.foldl (fixModal stack) d).elemAt q = some e2 ∧ e2.localName = "select" ∧
        e2.hasAttribute "disabled" = false ∧ e2.getAttribute "data-disabled" = some "false" := by
  induction modals with
  | nil =>
    rintro d ⟨e, he, hs, h | ⟨hmem, -⟩⟩
    · exact ⟨e, he, hs, h.1, h.2⟩
    · exact absurd hmem (List.not_mem_nil _)
  | cons p rest ih =>
    rintro d ⟨e, he, hs, h⟩
    rw [List.foldl_cons]
    apply ih
    by_cases hskip : ∀ pm, d.elemAt p = some pm → isSelectFixed pm = true
    · rw [fixModal_skip stack d p hskip]
      refine ⟨e, he, hs, ?_⟩
      rcases h with h | ⟨hmem, em, hem, hfix⟩
      · exact Or.inl h
      · right
        rcases List.mem_cons.1 hmem with rfl | hmem
        · rw [hskip em hem] at hfix
          exact absurd hfix (by decide)
        · exact ⟨hmem, em, hem, hfix⟩
    · simp only [not_forall, Bool.not_eq_true] at hskip
      obtain ⟨pm, hpm, hpfix⟩ := hskip
      have hstep := elemAt_fixModal stack d p
      by_cases hqp : q = p
      · -- the select is itself the modal being marked
        refine ⟨e.setAttribute "data-select-fixed" "true" stack, ?_, ?_, ?_⟩
        · rw [hstep q pm hpm hpfix, if_pos hqp, he]
          rfl
        · rw [localName_setAttribute, hs]
        · rcases h with h | ⟨hmem, em, hem, hfix⟩
          · left
            rw [hasAttribute_setAttribute, getAttribute_setAttribute, if_neg (by decide)]
            exact ⟨by simpa using h.1, h.2⟩
          · right
            have hmp : m ≠ p := fun h2 => hne (hqp.trans h2.symm)
            have hmem2 : m ∈ rest := by
              rcases List.mem_cons.1 hmem with h2 | h2
              · exact absurd h2 hmp
              · exact h2
            refine ⟨hmem2, ?_⟩
            rw [hstep m pm hpm hpfix, if_neg hmp, hem]
            by_cases hpm2 : p <+: m
            · rw [if_pos hpm2]
              by_cases hsel : em.localName = "select"
              · refine ⟨fixSelect em stack, by simp [hsel], ?_⟩
                simp only [isSelectFixed] at hfix ⊢
                rw [fixSelect_getAttribute em stack _ (by decide) (by decide)]
                exact hfix
              · exact ⟨em, by simp [hsel], hfix⟩
            · rw [if_neg hpm2]
              exact ⟨em, rfl, hfix⟩
      · by_cases hpq : p <+: q
        · -- the select lies inside the modal being marked
          refine ⟨fixSelect e stack, ?_, ?_, Or.inl (fixSelect_enabled e stack)⟩
          · rw [hstep q pm hpm hpfix, if_neg hqp, if_pos hpq, he]
            simp [hs]
          · rw [fixSelect_localName, hs]
        · refine ⟨e, ?_, hs, ?_⟩
          · rw [hstep q pm hpm hpfix, if_neg hqp, if_neg hpq, he]
          · rcases h with h | ⟨hmem, em, hem, hfix⟩
            · exact Or.inl h
            · right
              have hmp : m ≠ p := fun h2 => hpq (h2 ▸ hmq)
              have hmem2 : m ∈ rest := by
                rcases List.mem_cons.1 hmem with h2 | h2
                · exact absurd h2 hmp
                · exact h2
              refine ⟨hmem2, ?_⟩
              rw [hstep m pm hpm hpfix, if_neg hmp, hem]
              have hpm2 : ¬ p <+: m := fun h2 => hpq (h2.trans hmq)
              rw [if_neg hpm2]
              exact ⟨em, rfl, hfix⟩

/-- An element that neither is nor lies inside a modal still to be marked is left
as it is by the loop. -/
theorem fixModals_frame (stack : Option String) (q : Path) (modals : List Path) :
    ∀ d : Dom,
      (∀ p ∈ modals, ∃ e, d.elemAt p = some e ∧ isModalBackdrop e = true) →
      (∀ p, p <+: q → ∀ e, d.elemAt p = some e → isModalBackdrop e = true →
        isSelectFixed e = true) →
      (modals.foldl (fixModal stack) d).elemAt q = d.elemAt q := by
  induction modals with
  | nil => intro d _ _; rfl
  | cons p rest ih =>
    intro d hL hC
    rw [List.foldl_cons]
    by_cases hskip : ∀ pm, d.elemAt p = some pm → isSelectFixed pm = true
    · rw [fixModal_skip stack d p hskip]
      exact ih d (fun p2 h2 => hL p2 (List.mem_cons_of_mem _ h2)) hC
    · simp only [not_forall, Bool.not_eq_true] at hskip
      obtain ⟨pm, hpm, hpfix⟩ := hskip
      have hstep := elemAt_fixModal stack d p
      have hpq : ¬ p <+: q := by
        intro hpq
        obtain ⟨e, he, hmod⟩ := hL p (List.mem_cons_self _ _)
        rw [hpm] at he
        cases he
        rw [hC p hpq pm hpm hmod] at hpfix
        exact absurd hpfix (by decide)
      have same : ∀ p2, p2 <+: q → (fixModal stack d p).elemAt p2 = d.elemAt p2 := by
        intro p2 h2
        have h3 : p2 ≠ p := fun h => hpq (h ▸ h2)
        have h4 : ¬ p <+: p2 := fun h => hpq (h.trans h2)
        rw [hstep p2 pm hpm hpfix, if_neg h3, if_neg h4]
      rw [ih (fixModal stack d p), same q (List.prefix_refl q)]
      · intro p2 h2
        obtain ⟨e, he, hmod⟩ := hL p2 (List.mem_cons_of_mem _ h2)
        rw [hstep p2 pm hpm hpfix, he]
        by_cases h3 : p2 = p
        · rw [if_pos h3]
          refine ⟨_, rfl, ?_⟩
          simp only [isModalBackdrop] at hmod ⊢
          rw [hasAttribute_setAttribute, hmod]
          simp
        · rw [if_neg h3]
          by_cases h4 : p <+: p2
          · rw [if_pos h4]
            by_cases hsel : e.localName = "select"
            · refine ⟨fixSelect e stack, by simp [hsel], ?_⟩
              simp only [isModalBackdrop] at hmod ⊢
              rw [fixSelect_hasAttribute e stack _ (by decide) (by decide)]
              exact hmod
            · exact ⟨e, by simp [hsel], hmod⟩
          · rw [if_neg h4]
            exact ⟨e, rfl, hmod⟩
      · intro p2 h2 e he hmod
        rw [same p2 h2] at he
        exact hC p2 h2 e he hmod

theorem fixModals_localName (stack : Option String) (q : Path) (modals : List Path) :
    ∀ (d : Dom) (e : Element), d.elemAt q = some e →
      ∃ e2, (modals.foldl (fixModal stack) d).elemAt q = some e2 ∧
        e2.localName = e.localName := by
  induction modals with
  | nil => intro d e he; exact ⟨e, he, rfl⟩
  | cons p rest ih =>
    intro d e he
    rw [List.foldl_cons]
    by_cases hskip : ∀ pm, d.elemAt p = some pm → isSelectFixed pm = true
    · rw [fixModal_skip stack d p hskip]
      exact ih d e he
    · simp only [not_forall, Bool.not_eq_true] at hskip
      obtain ⟨pm, hpm, hpfix⟩ := hskip
      have hstep := elemAt_fixModal stack d p q pm hpm hpfix
      rw [he] at hstep
      by_cases hqp : q = p
      · rw [if_pos hqp] at hstep
        obtain ⟨e2, h2, h3⟩ := ih _ _ hstep
        exact ⟨e2, h2, h3⟩
      · rw [if_neg hqp] at hstep
        by_cases hpq : p <+: q
        · rw [if_pos hpq] at hstep
          obtain ⟨e2, h2, h3⟩ := ih _ _ hstep
          refine ⟨e2, h2, h3.trans ?_⟩
          by_cases hsel : e.localName = "select"
          · simp only [hsel, if_true]
            rw [fixSelect_localName, hsel]
          · simp only [hsel, if_false]
        · rw [if_neg hpq] at hstep
          exact ih _ _ hstep

/-! ### Clicks on their way through the document -/

theorem runHandler_listeners (h : Handler) (e : Element) (stack : Option String) :
    (runHandler h e stack).1.listeners = e.listeners := by
  cases h with
  | guardClick => simp only [runHandler]; split <;> simp [listeners_removeAttribute]
  | guardFocus => simp only [runHandler]; split <;> simp [listeners_removeAttribute]
  | taskClick => simp [runHandler, listeners_assignDisabled]
  | taskFocus => simp [runHandler, listeners_assignDisabled]
  | modalClick =>
    simp [runHandler, Element.setAttribute, Element.queueRecord, listeners_removeAttribute]
  | modalFocus =>
    simp [runHandler, Element.setAttribute, Element.queueRecord, listeners_removeAttribute]
  | debugClick index => rfl
  | debugFocus index => rfl

theorem runHandler_getAttribute (h : Handler) (e : Element) (stack : Option String)
    (name : String) (h1 : name ≠ "disabled") (h2 : name ≠ "data-disabled") :
    (runHandler h e stack).1.getAttribute name = e.getAttribute name := by
  have hr : (e.removeAttribute "disabled" stack).getAttribute name = e.getAttribute name :=
    getAttribute_removeAttribute_of_ne _ _ _ _ h1
  have ha : (e.assignDisabled false stack).getAttribute name = e.getAttribute name := by
    unfold Element.assignDisabled Element.setDisabled
    split
    · simpa using hr
    · rfl
  have hm : ((e.removeAttribute "disabled" stack).setAttribute "data-disabled" "false"
      stack).getAttribute name = e.getAttribute name := by
    rw [getAttribute_setAttribute, if_neg (fun h => h2 h.symm), hr]
  cases h with
  | guardClick => simp only [runHandler]; split <;> simp [hr]
  | guardFocus => simp only [runHandler]; split <;> simp [hr]
  | taskClick => simpa [runHandler] using ha
  | taskFocus => simpa [runHandler] using ha
  | modalClick => simpa [runHandler] using hm
  | modalFocus => simpa [runHandler] using hm
  | debugClick index => rfl
  | debugFocus index => rfl

theorem runHandler_hasAttribute (h : Handler) (e : Element) (stack : Option String)
    (name : String) (h1 : name ≠ "disabled") (h2 : name ≠ "data-disabled") :
    (runHandler h e stack).1.hasAttribute name = e.hasAttribute name := by
  have hr : (e.removeAttribute "disabled" stack).hasAttribute name = e.hasAttribute name :=
    hasAttribute_removeAttribute_of_ne _ _ _ _ h1
  have ha : (e.assignDisabled false stack).hasAttribute name = e.hasAttribute name := by
    unfold Element.assignDisabled Element.setDisabled
    split
    · simpa using hr
    · rfl
  have hm : ((e.removeAttribute "disabled" stack).setAttribute "data-disabled" "false"
      stack).hasAttribute name = e.hasAttribute name := by
    rw [hasAttribute_setAttribute, hr]
    have h4 : ¬ "data-disabled" = name := fun h => h2 h.symm
    simp [h4]
  cases h with
  | guardClick => simp only [runHandler]; split <;> simp [hr]
  | guardFocus => simp only [runHandler]; split <;> simp [hr]
  | taskClick => simpa [runHandler] using ha
  | taskFocus => simpa [runHandler] using ha
  | modalClick => simpa [runHandler] using hm
  | modalFocus => simpa [runHandler] using hm
  | debugClick index => rfl
  | debugFocus index => rfl

theorem runListeners_keep {α : Type} (K : Element → α)
    (hK : ∀ h e stack, K (runHandler h e stack).1 = K e) (ls : List Listener) :
    ∀ (e : Element) (stack : Option String), K (runListeners ls e stack).1 = K e := by
  induction ls with
  | nil => intro e stack; rfl
  | cons l rest ih =>
    intro e stack
    simp only [runListeners]
    rw [ih, hK]

theorem invokeAt_keep {α : Type} (K : Element → α)
    (hK : ∀ h e stack, K (runHandler h e stack).1 = K e) (capture : Bool) (eventType : String)
    (stack : Option String) (s : Dom × List ConsoleEntry × Bool) (p q : Path) :
    ((invokeAt capture eventType stack s p).1.elemAt q).map K = (s.1.elemAt q).map K := by
  unfold invokeAt
  split
  · rfl
  · cases he : s.1.elemAt p with
    | none => rfl
    | some e =>
      simp only [elemAt_modifyAt]
      by_cases hq : q = p
      · subst hq
        simp [he, runListeners_keep K hK]
      · simp [hq]

theorem pass_keep {α : Type} (K : Element → α)
    (hK : ∀ h e stack, K (runHandler h e stack).1 = K e) (capture : Bool) (eventType : String)
    (stack : Option String) (ps : List Path) :
    ∀ (s : Dom × List ConsoleEntry × Bool) (q : Path),
      (((ps.foldl (invokeAt capture eventType stack) s).1).elemAt q).map K =
        (s.1.elemAt q).map K := by
  induction ps with
  | nil => intro s q; rfl
  | cons p rest ih =>
    intro s q
    rw [List.foldl_cons, ih, invokeAt_keep K hK]

theorem invokeAt_flag (capture : Bool) (eventType : String) (stack : Option String)
    (s : Dom × List ConsoleEntry × Bool) (p : Path) :
    (invokeAt capture eventType stack s p).2.2 =
      (s.2.2 || ((s.1.elemAt p).map (fun e =>
        (e.listeners.filter (fun l => l.eventType = eventType && l.capture == capture)).any
          (fun l => l.handler.stopsPropagation))).getD false) := by
  unfold invokeAt
  cases hf : s.2.2
  · cases he : s.1.elemAt p <;> simp [hf]
  · simp [hf]

theorem pass_flag (capture : Bool) (eventType : String) (stack : Option String)
    (ps : List Path) :
    ∀ s : Dom × List ConsoleEntry × Bool,
      (ps.foldl (invokeAt capture eventType stack) s).2.2 =
        (s.2.2 || ps.any (fun p => ((s.1.elemAt p).map (fun e =>
          (e.listeners.filter (fun l => l.eventType = eventType && l.capture == capture)).any
            (fun l => l.handler.stopsPropagation))).getD false)) := by
  induction ps with
  | nil => intro s; simp
  | cons p rest ih =>
    intro s
    rw [List.foldl_cons, ih, invokeAt_flag]
    have hfun : (fun p2 => (((invokeAt capture eventType stack s p).1.elemAt p2).map (fun e =>
          (e.listeners.filter (fun l => l.eventType = eventType && l.capture == capture)).any
            (fun l => l.handler.stopsPropagation))).getD false) =
        (fun p2 => ((s.1.elemAt p2).map (fun e =>
          (e.listeners.filter (fun l => l.eventType = eventType && l.capture == capture)).any
            (fun l => l.handler.stopsPropagation))).getD false) := by
      funext p2
      rw [invokeAt_keep _ (fun h e st => by simp only [runHandler_listeners])]
    rw [hfun, List.any_cons, Bool.or_assoc]

theorem mem_eventPath (target p : Path) : p ∈ eventPath target ↔ p ≠ [] ∧ p <+: target := by
  have hinits : target.inits = [] :: target.inits.tail := by cases target <;> simp [List.inits]
  have hnil : ([] : Path) ∉ eventPath target := by
    unfold eventPath
    cases target with
    | nil => simp [List.inits]
    | cons a t => simp [List.inits]
  constructor
  · intro h
    refine ⟨fun h0 => hnil (h0 ▸ h), (List.mem_inits p target).1 ?_⟩
    rw [hinits]
    exact List.mem_cons_of_mem _ h
  · rintro ⟨h0, hp⟩
    have h2 := (List.mem_inits p target).2 hp
    rw [hinits] at h2
    rcases List.mem_cons.1 h2 with h3 | h3
    · exact absurd h3 h0
    · exact h3

/-- The stop-propagation flag of a click is set exactly when a click listener of the
target or of an element around it calls `e.stopPropagation()`. -/
theorem click_stopped (page : Page) (target : Path) (stack : Option String) :
    (page.click target stack).2 = true ↔
      ∃ p e l, p <+: target ∧ page.dom.elemAt p = some e ∧ l ∈ e.listeners ∧
        l.eventType = "click" ∧ l.handler.stopsPropagation = true := by
  have hdown := pass_flag true "click" stack (eventPath target) (page.dom, [], false)
  have hup := pass_flag false "click" stack (eventPath target).reverse
    ((eventPath target).foldl (invokeAt true "click" stack) (page.dom, [], false))
  have hfun : (fun p => (((((eventPath target).foldl (invokeAt true "click" stack)
        (page.dom, [], false)).1).elemAt p).map (fun e =>
          (e.listeners.filter (fun l => l.eventType = "click" && l.capture == false)).any
            (fun l => l.handler.stopsPropagation))).getD false) =
      (fun p => ((page.dom.elemAt p).map (fun e =>
          (e.listeners.filter (fun l => l.eventType = "click" && l.capture == false)).any
            (fun l => l.handler.stopsPropagation))).getD false) := by
    funext p
    rw [pass_keep _ (fun h e st => by simp only [runHandler_listeners])]
  rw [hfun, hdown] at hup
  simp only [Page.click, hup, Bool.false_or, Bool.or_eq_true, List.any_eq_true,
    List.mem_reverse, mem_eventPath]
  constructor
  · rintro (⟨p, ⟨-, hp⟩, h⟩ | ⟨p, ⟨-, hp⟩, h⟩)
    · cases he : page.dom.elemAt p with
      | none => simp [he] at h
      | some e =>
        simp only [he, Option.map_some', Option.getD_some, List.any_eq_true,
          List.mem_filter, Bool.and_eq_true, decide_eq_true_eq] at h
        obtain ⟨l, ⟨hl, hty, -⟩, hs⟩ := h
        exact ⟨p, e, l, hp, he, hl, hty, hs⟩
    · cases he : page.dom.elemAt p with
      | none => simp [he] at h
      | some e =>
        simp only [he, Option.map_some', Option.getD_some, List.any_eq_true,
          List.mem_filter, Bool.and_eq_true, decide_eq_true_eq] at h
        obtain ⟨l, ⟨hl, hty, -⟩, hs⟩ := h
        exact ⟨p, e, l, hp, he, hl, hty, hs⟩
  · rintro ⟨p, e, l, hp, he, hl, hty, hs⟩
    have hne : p ≠ [] := by
      rintro rfl
      rw [elemAt_empty] at he
      cases he
    cases hc : l.capture
    · right
      refine ⟨p, ⟨hne, hp⟩, ?_⟩
      simp only [he, Option.map_some', Option.getD_some, List.any_eq_true, List.mem_filter,
        Bool.and_eq_true, decide_eq_true_eq]
      exact ⟨l, ⟨hl, hty, by simp [hc]⟩, hs⟩
    · left
      refine ⟨p, ⟨hne, hp⟩, ?_⟩
      simp only [he, Option.map_some', Option.getD_some, List.any_eq_true, List.mem_filter,
        Bool.and_eq_true, decide_eq_true_eq]
      exact ⟨l, ⟨hl, hty, by simp [hc]⟩, hs⟩

theorem click_keep {α : Type} (K : Element → α)
    (hK : ∀ h e stack, K (runHandler h e stack).1 = K e) (page : Page) (target : Path)
    (stack : Option String) (q : Path) :
    ((page.click target stack).1.dom.elemAt q).map K = (page.dom.elemAt q).map K := by
  simp only [Page.click]
  rw [pass_keep K hK, pass_keep K hK]

theorem closestUp_congr (sel : Element → Bool) (d d2 : Dom)
    (h : ∀ q, (d2.elemAt q).map sel = (d.elemAt q).map sel) :
    ∀ (n : Nat) (p : Path), d2.closestUp sel n p = d.closestUp sel n p := by
  intro n
  induction n with
  | zero => intro p; rfl
  | succ n ih =>
    intro p
    have hp := h p
    simp only [Dom.closestUp]
    cases h1 : d.elemAt p with
    | none =>
      cases h2 : d2.elemAt p with
      | none => rfl
      | some e2 => simp [h1, h2] at hp
    | some e1 =>
      cases h2 : d2.elemAt p with
      | none => simp [h1, h2] at hp
      | some e2 =>
        simp only [h1, h2, Option.map_some', Option.some.injEq] at hp
        simp only [hp, ih]

theorem isModalTrigger_runHandler (h : Handler) (e : Element) (stack : Option String) :
    isModalTrigger (runHandler h e stack).1 = isModalTrigger e := by
  simp only [isModalTrigger,
    runHandler_hasAttribute h e stack "data-modal-target" (by decide) (by decide),
    runHandler_hasAttribute h e stack "data-modal-toggle" (by decide) (by decide)]

theorem resolveModalId_runHandler (h : Handler) (e : Element) (stack : Option String) :
    resolveModalId (runHandler h e stack).1 = resolveModalId e := by
  simp only [resolveModalId,
    runHandler_getAttribute h e stack "data-modal-target" (by decide) (by decide),
    runHandler_getAttribute h e stack "data-modal-toggle" (by decide) (by decide)]

/-- C12 (amended). A click inside a trigger reaches the click listener on
`document` exactly when no click listener of the target or of an element around it
calls `e.stopPropagation()`; then the listener sets the timer for the resolved
modal id of the nearest trigger around the click target, and a click that is
stopped sets no timer. When the modal id names an element, every select inside that
element is a select without `disabled` once the timer callback has run, whether or
not the modal carried the marker. `fixModalSelects` leaves every select inside a
`[data-modal-backdrop]` modal that is not yet marked without `disabled` and with
`data-disabled` equal to `false`, and it leaves untouched every element that
neither is nor lies inside a modal not yet marked, in particular an already-marked
modal that is not inside such a modal. -/
theorem fixModalSelects_spec (page : Page) (stack : Option String) :
    (∀ (target trigger : Path) (t : Element) (modalId : String),
      page.dom.closest target isModalTrigger = some trigger →
      page.dom.elemAt trigger = some t →
      resolveModalId t = some modalId → modalId ≠ "" →
      (∀ p e l, p <+: target → page.dom.elemAt p = some e → l ∈ e.listeners →
        l.eventType = "click" → l.handler.stopsPropagation = false) →
      (modalOpenClick page target stack).2 = some modalId) ∧
    (∀ (target p : Path) (e : Element) (l : Listener),
      p <+: target → page.dom.elemAt p = some e → l ∈ e.listeners →
      l.eventType = "click" → l.handler.stopsPropagation = true →
      (modalOpenClick page target stack).2 = none) ∧
    (∀ (modalId : String) (m q : Path) (e : Element),
      page.dom.getElementById modalId = some m →
      m <+: q → q ≠ m → page.dom.elemAt q = some e → e.localName = "select" →
      ∃ e2, (modalTimerCallback page modalId stack).dom.elemAt q = some e2 ∧
        e2.localName = "select" ∧ e2.hasAttribute "disabled" = false) ∧
    (∀ (m q : Path) (em e : Element),
      page.dom.elemAt m = some em → isModalBackdrop em = true → isSelectFixed em = false →
      m <+: q → q ≠ m → page.dom.elemAt q = some e → e.localName = "select" →
      ∃ e2, (fixModalSelects page stack).dom.elemAt q = some e2 ∧ e2.localName = "select" ∧
        e2.hasAttribute "disabled" = false ∧ e2.getAttribute "data-disabled" = some "false") ∧
    (∀ q : Path,
      (∀ p, p <+: q → ∀ e, page.dom.elemAt p = some e → isModalBackdrop e = true →
        isSelectFixed e = true) →
      (fixModalSelects page stack).dom.elemAt q = page.dom.elemAt q) := by
  refine ⟨?_, ?_, ?_, ?_, ?_⟩
  · intro target trigger t modalId hc ht hr hne hno
    have hns : (page.click target stack).2 = false := by
      cases hf : (page.click target stack).2
      · rfl
      · obtain ⟨p, e, l, hp, he, hl, hty, hs⟩ := (click_stopped page target stack).1 hf
        rw [hno p e l hp he hl hty] at hs
        exact absurd hs (by decide)
    have hcl : (page.click target stack).1.dom.closest target isModalTrigger = some trigger := by
      unfold Dom.closest at hc ⊢
      rw [closestUp_congr isModalTrigger page.dom _
        (click_keep isModalTrigger isModalTrigger_runHandler page target stack)]
      exact hc
    have hid : ((page.click target stack).1.dom.elemAt trigger).bind resolveModalId =
        some modalId := by
      have hk := click_keep resolveModalId resolveModalId_runHandler page target stack trigger
      rw [ht] at hk
      cases h2 : (page.click target stack).1.dom.elemAt trigger with
      | none => simp [h2] at hk
      | some t2 =>
        simp only [h2, Option.map_some', Option.some.injEq] at hk
        simp [hk, hr]
    simp [modalOpenClick, hns, hcl, hid, hne]
  · intro target p e l hp he hl hty hs
    have hf := (click_stopped page target stack).2 ⟨p, e, l, hp, he, hl, hty, hs⟩
    simp [modalOpenClick, hf]
  · intro modalId m q e hid hmq hne he hs
    have hid2 : (fixModalSelects page stack).dom.getElementById modalId = some m := by
      simp only [fixModalSelects]
      rw [getElementById_fixModals, hid]
    obtain ⟨e1, he1, hl1⟩ := fixModals_localName stack q
      (page.dom.querySelectorAll isModalBackdrop) page.dom e he
    have hm0 : m ≠ [] := by
      rintro rfl
      obtain ⟨x, hx, -⟩ := getElementById_some _ _ _ hid
      rw [elemAt_empty] at hx
      cases hx
    have hl2 : e1.localName = "select" := hl1.trans hs
    refine ⟨e1.setDisabled false stack, ?_, ?_, ?_⟩
    · simp only [modalTimerCallback, hid2, elemAt_modifyBelow]
      rw [if_pos ⟨hm0, hmq, hne⟩]
      have he2 : (fixModalSelects page stack).dom.elemAt q = some e1 := he1
      rw [he2]
      simp [hl2]
    · simp only [Element.setDisabled, Bool.false_eq_true, if_false, localName_removeAttribute]
      exact hl2
    · simp only [Element.setDisabled, Bool.false_eq_true, if_false]
      exact hasAttribute_removeAttribute_self _ _ _
  · intro m q em e hm hmod hfix hmq hne he hs
    apply fixModals_select stack m q hmq hne
    refine ⟨e, he, hs, Or.inr ⟨?_, em, hm, hfix⟩⟩
    exact (mem_querySelectorAll isModalBackdrop page.dom m).2 ⟨em, hm, hmod⟩
  · intro q hC
    apply fixModals_frame stack q
    · intro p hp
      exact (mem_querySelectorAll isModalBackdrop page.dom p).1 hp
    · exact hC

theorem prefixes_of_two (p : Path) (a b : Nat) (h : p <+: [a, b]) :
    p = [] ∨ p = [a] ∨ p = [a, b] := by
  have h2 := (List.mem_inits p [a, b]).2 h
  simpa [List.inits] using h2

theorem prefixes_of_one (p : Path) (a : Nat) (h : p <+: [a]) : p = [] ∨ p = [a] := by
  have h2 := (List.mem_inits p [a]).2 h
  simpa [List.inits] using h2

/-- Witness for C12 (amended): a click on the button of the swapped modal page, on
which no listener stands, sets the timer; a click on the processed select of
`stoppedClickPage` sets none; the modal page before the first run, and the same
modal after a content swap, marked and with a newly inserted disabled select. -/
theorem fixModalSelects_spec_witness :
    (modalOpenClick swappedModalPage [1] none).2 = some "new-modal" ∧
    (modalOpenClick stoppedClickPage [0, 0, 0] none).2 = none ∧
    (∃ e2, (modalTimerCallback swappedModalPage "new-modal" none).dom.elemAt [0, 0] = some e2 ∧
      e2.localName = "select" ∧ e2.hasAttribute "disabled" = false) ∧
    (∃ e2, (fixModalSelects modalPage none).dom.elemAt [0, 0] = some e2 ∧
      e2.localName = "select" ∧ e2.hasAttribute "disabled" = false ∧
      e2.getAttribute "data-disabled" = some "false") ∧
    (fixModalSelects swappedModalPage none).dom.elemAt [0, 0] =
      swappedModalPage.dom.elemAt [0, 0] :=
  ⟨(fixModalSelects_spec swappedModalPage none).1 [1] [1]
      ⟨"button", [("data-modal-toggle", "new-modal"), ("data-modal-target", "")], [], []⟩
      "new-modal" (by decide) (by decide) (by decide) (by decide) (by
        intro p e l hp he hl
        rcases prefixes_of_one p 1 hp with rfl | rfl
        · rw [elemAt_empty] at he
          cases he
        · have h2 : swappedModalPage.dom.elemAt [1] = some
              ⟨"button", [("data-modal-toggle", "new-modal"), ("data-modal-target", "")], [],
                []⟩ := by decide
          rw [h2] at he
          cases he
          exact absurd hl (List.not_mem_nil _)),
   (fixModalSelects_spec stoppedClickPage none).2.1 [0, 0, 0] [0, 0, 0]
      (fixSelect plainSelect none) ⟨"click", .modalClick, false⟩ (List.prefix_refl _)
      (by decide) (by decide) rfl rfl,
   (fixModalSelects_spec swappedModalPage none).2.2.1 "new-modal" [0] [0, 0] disabledSelect
      (by decide) (by decide) (by decide) (by decide) (by decide),
   (fixModalSelects_spec modalPage none).2.2.2.1 [0] [0, 0]
      ⟨"div", [("id", "new-modal"), ("data-modal-backdrop", "static")], [], []⟩ disabledSelect
      (by decide) (by decide) (by decide) (by decide) (by decide) (by decide) (by decide),
   (fixModalSelects_spec swappedModalPage none).2.2.2.2 [0, 0] (by
      intro p hp e he hmod
      rcases prefixes_of_two p 0 0 hp with rfl | rfl | rfl
      · rw [elemAt_empty] at he
        cases he
      · have h2 : swappedModalPage.dom.elemAt [0] = some
            ⟨"div", [("id", "new-modal"), ("data-modal-backdrop", "static"),
              ("data-select-fixed", "true")], [], []⟩ := by decide
        rw [h2] at he
        cases he
        decide
      · have h2 : swappedModalPage.dom.elemAt [0, 0] = some disabledSelect := by decide
        rw [h2] at he
        cases he
        revert hmod
        decide)⟩

/-- Counterexample to C12 as stated, in its two parts. An already-marked modal
inside a modal that is not yet marked: `fixModalSelects` changes the select of the
marked modal, it loses `disabled` and gains two listeners. And a click on a select
inside a trigger, where the select carries the click listener of `fixModalSelects`:
the trigger names the existing modal `new-modal`, but the listener stops the click,
no timer is set, and the select `id_client` of the modal stays disabled. -/
theorem fixModalSelects_departures :
    (∃ inner, nestedModalPage.dom.elemAt [0, 0] = some inner ∧
      isModalBackdrop inner = true ∧ isSelectFixed inner = true) ∧
    nestedModalPage.dom.elemAt [0, 0, 0] = some disabledSelect ∧
    (fixModalSelects nestedModalPage none).dom.elemAt [0, 0, 0] =
      some (fixSelect disabledSelect none) ∧
    fixSelect disabledSelect none ≠ disabledSelect ∧
    stoppedClickPage.dom.closest [0, 0, 0] isModalTrigger = some [0, 0] ∧
    (stoppedClickPage.dom.elemAt [0, 0]).bind resolveModalId = some "new-modal" ∧
    stoppedClickPage.dom.getElementById "new-modal" = some [0] ∧
    stoppedClickPage.dom.elemAt [0, 0, 0] = some (fixSelect plainSelect none) ∧
    (modalOpenClick stoppedClickPage [0, 0, 0] none).2 = none ∧
    (modalOpenClick stoppedClickPage [0, 0, 0] none).1.dom.elemAt [0, 1] =
      some disabledSelect := by
  refine ⟨⟨_, rfl, by decide, by decide⟩, by decide, by decide, by decide, by decide,
    by decide, by decide, by decide, by decide, by decide⟩

/-! ### `prevent-autofill.js`: the console messages -/

theorem filter_type_capture (ls : List Listener) (eventType : String) :
    ls.filter (fun l => l.eventType = eventType && l.capture) =
      (ls.filter (fun l => l.capture)).filter (fun l => l.eventType = eventType) := by
  rw [List.filter_filter]

theorem dispatch_guard_click (s : Element) (stack : Option String)
    (hcap : s.listeners.filter (fun l => l.capture) = guardListeners) :
    s.dispatch "click" stack = runHandler .guardClick s stack := by
  simp only [Element.dispatch, filter_type_capture, hcap]
  simp [guardListeners, runListeners, Handler.stopsPropagation]

theorem dispatch_guard_focus (s : Element) (stack : Option String)
    (hcap : s.listeners.filter (fun l => l.capture) = guardListeners) :
    s.dispatch "focus" stack = runHandler .guardFocus s stack := by
  simp only [Element.dispatch, filter_type_capture, hcap]
  simp [guardListeners, runListeners, Handler.stopsPropagation]

/-- C9 (amended). The observer callback reports every revert it performs. A guard
listener, whenever it is invoked, writes its message exactly when the select
carries the `disabled` attribute, which it then removes. A
protected select is a select whose capturing listeners are the two that
`protectSelectElements` registered, whatever other listeners it carries: the
other scripts register only non-capturing ones, so a select that had no capturing
listener before its protection is one. A click or focus that reaches such a select
is reported exactly when the select carried the `disabled` attribute at that
moment (the listener then removes it); an interaction with a select that is not
disabled writes nothing. In both cases the guard's listener stops the event, so no
other listener of the select is invoked. -/
theorem guard_messages :
    (∀ (s : Element) (mutation : MutationRecord) (revertStack : Option String),
      mutation.attributeName = "disabled" → isInternalCall mutation.stack = false →
      guardRecord s mutation revertStack =
        (s.removeAttribute "disabled" revertStack, [blockedMessage])) ∧
    (∀ (s : Element) (stack : Option String),
      (s.hasAttribute "disabled" = true →
        runHandler .guardClick s stack =
          (s.removeAttribute "disabled" stack, [preventedMessage "click"]) ∧
        runHandler .guardFocus s stack =
          (s.removeAttribute "disabled" stack, [preventedMessage "focus"])) ∧
      (s.hasAttribute "disabled" = false →
        runHandler .guardClick s stack = (s, []) ∧ runHandler .guardFocus s stack = (s, []))) ∧
    (∀ (s : Element) (stack : Option String),
      s.listeners.filter (fun l => l.capture) = guardListeners →
      (s.hasAttribute "disabled" = true →
        s.dispatch "click" stack =
          (s.removeAttribute "disabled" stack, [preventedMessage "click"]) ∧
        s.dispatch "focus" stack =
          (s.removeAttribute "disabled" stack, [preventedMessage "focus"])) ∧
      (s.hasAttribute "disabled" = false →
        s.dispatch "click" stack = (s, []) ∧ s.dispatch "focus" stack = (s, []))) ∧
    (∀ (e : Element) (stack : Option String), e.hasAttribute "data-protected" = false →
      (protectSelect e stack).listeners.filter (fun l => l.capture) =
        e.listeners.filter (fun l => l.capture) ++ guardListeners) ∧
    (∀ (s : Element) (stack : Option String),
      (initTaskSelect s stack).listeners.filter (fun l => l.capture) =
        s.listeners.filter (fun l => l.capture) ∧
      (fixSelect s stack).listeners.filter (fun l => l.capture) =
        s.listeners.filter (fun l => l.capture) ∧
      ∀ (eventType : String) (handler : Handler),
        (s.addEventListener eventType handler false).listeners.filter (fun l => l.capture) =
          s.listeners.filter (fun l => l.capture)) := by
  refine ⟨?_, ?_, ?_, ?_, ?_⟩
  · intro s mutation revertStack h0 hi
    simp [guardRecord, h0, hi]
  · intro s stack
    constructor
    · intro hd
      simp [runHandler, hd]
    · intro hd
      simp [runHandler, hd]
  · intro s stack hcap
    constructor
    · intro hd
      rw [dispatch_guard_click s stack hcap, dispatch_guard_focus s stack hcap]
      simp [runHandler, hd]
    · intro hd
      rw [dispatch_guard_click s stack hcap, dispatch_guard_focus s stack hcap]
      simp [runHandler, hd]
  · intro e stack hm
    rw [protectSelect_listeners e stack hm, List.filter_append]
    rfl
  · intro s stack
    refine ⟨?_, ?_, ?_⟩
    · simp [initTaskSelect, Element.addEventListener, listeners_assignDisabled,
        List.filter_append]
    · simp [fixSelect, Element.addEventListener, Element.setAttribute, Element.queueRecord,
        listeners_removeAttribute, List.filter_append]
    · intro eventType handler
      simp [Element.addEventListener, List.filter_append]

/-- Witness for C9 (amended): the select `id_client` after the three scripts have
run on it, so that it carries their six listeners, disabled again by other code;
and the same select left enabled. -/
theorem guard_messages_witness :
    guardRecord (guardedSelect.setAttribute "disabled" "" none) ⟨"disabled", callbackStack⟩
        none =
      ((guardedSelect.setAttribute "disabled" "" none).removeAttribute "disabled" none,
        [blockedMessage]) ∧
    (guardedSelect.setAttribute "disabled" "" none).dispatch "click" none =
      ((guardedSelect.setAttribute "disabled" "" none).removeAttribute "disabled" none,
        [preventedMessage "click"]) ∧
    guardedSelect.dispatch "focus" none = (guardedSelect, []) ∧
    (protectSelect disabledSelect none).listeners.filter (fun l => l.capture) =
      guardListeners :=
  ⟨guard_messages.1 (guardedSelect.setAttribute "disabled" "" none)
      ⟨"disabled", callbackStack⟩ none rfl (by decide),
   ((guard_messages.2.2.1 (guardedSelect.setAttribute "disabled" "" none) none
      (by decide)).1 (by decide)).1,
   ((guard_messages.2.2.1 guardedSelect none (by decide)).2 (by decide)).2,
   guard_messages.2.2.2.1 disabledSelect none (by decide)⟩

/-- Counterexample to C9 as stated: a click or a focus on a protected select that
is not disabled runs the guard listener and writes no message, also when the
select carries the logging listeners of the other scripts. -/
theorem guard_click_silent :
    guardedSelect.hasAttribute "data-protected" = true ∧
    guardedSelect.hasAttribute "disabled" = false ∧
    guardedSelect.listeners =
      [⟨"click", .taskClick, false⟩, ⟨"focus", .taskFocus, false⟩,
       ⟨"click", .guardClick, true⟩, ⟨"focus", .guardFocus, true⟩,
       ⟨"click", .modalClick, false⟩, ⟨"focus", .modalFocus, false⟩] ∧
    (guardedSelect.dispatch "click" none).2 = [] ∧
    (guardedSelect.dispatch "focus" none).2 = [] ∧
    (protectSelect plainSelect none).hasAttribute "data-protected" = true ∧
    ((protectSelect plainSelect none).dispatch "click" none).2 = [] ∧
    ((protectSelect plainSelect none).dispatch "focus" none).2 = [] := by
  decide

end Judico
